import Mathlib

/-!
# K-Meter: processor, parameters, meter bar and meter segment

A shallow embedding of `KmeterAudioProcessor` (`prepareToPlay`, `processBlock`,
`processBufferChunk`, `countOverflows`; `Source/plugin_processor.cpp`), of
`KmeterPluginParameters` (`src/plugin_parameters.cpp`), of `MeterBar`
(`src/meter_bar.cpp`) and of `MeterSegment` (`src/meter_segment.cpp`).

Samples and levels are `float` in the source.  They are embedded in an arbitrary
linearly ordered field `α`: every definition can be run on `ℚ`, and every statement
proved for all such fields also holds on `ℝ`.  The decimal literals `0.0001f` and
`0.9999f` stand for the decimal fractions they denote.  The square root used by the
phase correlation is a parameter `sqrt : α → α`; the statements that depend on it
instantiate it with `Real.sqrt`.

The source computes in binary32 and rounds every operation.  Where a statement turns
on that rounding, the block is embedded a second time over `Binary32`, a model of the
finite binary32 numbers with round to nearest, ties to even
(`phaseCorrelationBinary32`, `stereoMeterBinary32`).
-/

namespace KMeter

variable {α : Type}

/-! ## Collaborators that are not part of the sources -/

/-- Read accessors of `frut::audio::RingBuffer`.  The class is not part of the
sources, so the three accessors that `processBufferChunk` and `countOverflows`
call are fields: `getSample channel index pre_delay`,
`getMagnitude channel length pre_delay` and `getRMSLevel channel length pre_delay`. -/
structure RingBuffer (α : Type) where
  getSample : Nat → Nat → Nat → α
  getMagnitude : Nat → Nat → Nat → α
  getRMSLevel : Nat → Nat → Nat → α

/-- The measurement components and the ring buffer operation whose code is not part
of the sources: `pAverageLevelFiltered` (`copyFromBuffer (ring, pre_delay, rate)`
followed by `getLevel (channel)`; the sample rate is the one of the processor),
`pTruePeakMeter` (`copyFromBuffer (ring, pre_delay)` followed by
`getLevel (channel)`) and `RingBuffer::clear`. -/
structure Components (α : Type) where
  averageLevel : RingBuffer α → Nat → Nat → α
  truePeakLevel : RingBuffer α → Nat → Nat → α
  clear : RingBuffer α → RingBuffer α

/-- Model of `juce::Array::operator[]`: the element at `index`, or a default-constructed
value (zero) when `index` is out of range. -/
def arrayGet [Zero α] (arr : List α) (index : Nat) : α :=
  arr.getD index 0

/-- Model of `juce::Array::set`: replaces the element at `index`, or appends the value when
`index` is beyond the end of the array. -/
def arraySet (arr : List α) (index : Nat) (value : α) : List α :=
  if index < arr.length then arr.set index value else arr ++ [value]

/-! ## `countOverflows` -/

/-- Embedding of `KmeterAudioProcessor::countOverflows`: loops `uSample` over
`0 .. length - 1` and increments `nOverflows` for each sample strictly below
`-0.9999f` or strictly above `0.9999f`.  The counter is an `int`; it is incremented
at most `length` times and is embedded as an integer without wrap-around. -/
def countOverflows [LinearOrderedField α] (ring_buffer : RingBuffer α)
    (channel length pre_delay : Nat) : Int :=
  (List.range length).foldl
    (fun nOverflows uSample =>
      let fSampleValue := ring_buffer.getSample channel uSample pre_delay
      if fSampleValue < -0.9999 ∨ fSampleValue > 0.9999 then nOverflows + 1
      else nOverflows)
    0

/-! ## Phase correlation -/

/-- The three accumulators of the correlation loop, together with the log of the
`getSample (channel, uSample, pre_delay)` calls made so far. -/
structure CorrelationSums (α : Type) where
  sum_of_product : α
  sum_of_squares_left : α
  sum_of_squares_right : α
  reads : List (Nat × Nat × Nat)

/-- The loop `for (uSample = 0; uSample < uChunkSize; ++uSample)` of
`processBufferChunk`: reads the left and the right sample and accumulates the
product and the two squares. -/
def correlationSums [LinearOrderedField α] (ring : RingBuffer α)
    (uChunkSize uPreDelay : Nat) : CorrelationSums α :=
  (List.range uChunkSize).foldl
    (fun acc uSample =>
      let ringbuffer_left := ring.getSample 0 uSample uPreDelay
      let ringbuffer_right := ring.getSample 1 uSample uPreDelay
      { sum_of_product := acc.sum_of_product + ringbuffer_left * ringbuffer_right
        sum_of_squares_left := acc.sum_of_squares_left + ringbuffer_left * ringbuffer_left
        sum_of_squares_right :=
          acc.sum_of_squares_right + ringbuffer_right * ringbuffer_right
        reads := acc.reads ++ [(0, uSample, uPreDelay), (1, uSample, uPreDelay)] })
    { sum_of_product := 0, sum_of_squares_left := 0, sum_of_squares_right := 0, reads := [] }

/-- The value of `fPhaseCorrelation`, the samples read to compute it, and the
argument of the square root when the quotient `sum_of_product / sqrt (...)` is
evaluated (`none` when it is not). -/
structure PhaseResult (α : Type) where
  fPhaseCorrelation : α
  reads : List (Nat × Nat × Nat)
  rootOf : Option α

/-- The phase correlation block of `processBufferChunk` (inside `if (isStereo)`):
`1` when mixed down to mono, `1` when both RMS levels are below `0.0001f`,
otherwise `sum_of_product / sqrt (fSumsOfSquares)` when `fSumsOfSquares > 0` and
`1` when not.  `rms0` and `rms1` are `arrRmsLevels[0]` and `arrRmsLevels[1]`.  The sums,
the product, the root and the quotient are those of the field, without the rounding
of the binary32 operations; `phaseCorrelationBinary32` is the block with it. -/
def phaseCorrelation [LinearOrderedField α] (sqrt : α → α) (bMono : Bool)
    (rms0 rms1 : α) (ring : RingBuffer α) (uChunkSize uPreDelay : Nat) : PhaseResult α :=
  if bMono then
    { fPhaseCorrelation := 1, reads := [], rootOf := none }
  else if rms0 ≥ 0.0001 ∨ rms1 ≥ 0.0001 then
    let sums := correlationSums ring uChunkSize uPreDelay
    let fSumsOfSquares := sums.sum_of_squares_left * sums.sum_of_squares_right
    if fSumsOfSquares > 0 then
      { fPhaseCorrelation := sums.sum_of_product / sqrt fSumsOfSquares
        reads := sums.reads
        rootOf := some fSumsOfSquares }
    else
      { fPhaseCorrelation := 1, reads := sums.reads, rootOf := none }
  else
    { fPhaseCorrelation := 1, reads := [], rootOf := none }

/-! ## Stereo balance -/

/-- The value of `fStereoMeterValue` and the division evaluated to compute it, as
the pair `(dividend, divisor)` (`none` when no division is evaluated). -/
structure StereoResult (α : Type) where
  fStereoMeterValue : α
  division : Option (α × α)

/-- The stereo meter block of `processBufferChunk`: `0` when both RMS levels are
below `0.0001f`, `1 - rms0 / rms1` when `rms1 ≥ rms0`, otherwise
`rms1 / rms0 - 1`.  `rms0` and `rms1` are `arrRmsLevels[0]` and `arrRmsLevels[1]`,
the levels of the left and of the right channel.  The quotient and the difference are
those of the field, without the rounding of the binary32 operations;
`stereoMeterBinary32` is the block with it. -/
def stereoMeter [LinearOrderedField α] (rms0 rms1 : α) : StereoResult α :=
  if rms0 < 0.0001 ∧ rms1 < 0.0001 then
    { fStereoMeterValue := 0, division := none }
  else if rms1 ≥ rms0 then
    { fStereoMeterValue := 1 - rms0 / rms1, division := some (rms0, rms1) }
  else
    { fStereoMeterValue := rms1 / rms0 - 1, division := some (rms1, rms0) }

/-! ## `processBufferChunk` -/

/-- The calls that `processBufferChunk` makes on `pMeterBallistics`. -/
inductive BallisticsCall (α : Type) where
  | updateChannel (nChannel : Nat)
      (fTimePassed fPeak fTruePeak fRms fAverageFiltered : α) (nOverflows : Int)
  | setPhaseCorrelation (fTimePassed fPhaseCorrelation : α)
  | setStereoMeterValue (fTimePassed fStereoMeterValue : α)

/-- The members of `KmeterAudioProcessor` that `processBufferChunk` reads or writes.
`selMono` is `getBoolean (KmeterPluginParameters::selMono)`, `numInputChannels` is
`getMainBusNumInputChannels ()` and `sampleRate` is `getSampleRate ()`. -/
structure Processor (α : Type) where
  isSilent : Bool
  isStereo : Bool
  selMono : Bool
  numInputChannels : Nat
  sampleRate : α
  fProcessedSeconds : α
  arrPeakLevels : List α
  arrRmsLevels : List α
  arrAverageLevelsFiltered : List α
  arrTruePeakLevels : List α
  arrOverflows : List Int
  pRingBufferInput : RingBuffer α

/-- The processor together with the calls made on `pMeterBallistics` so far. -/
structure ChunkState (α : Type) where
  processor : Processor α
  calls : List (BallisticsCall α)

/-- One iteration of the channel loop of `processBufferChunk`: channel 1 of a signal
mixed down to mono copies the levels of channel 0, every other channel is measured;
then `updateChannel` is called with the stored levels. -/
def processChannel [LinearOrderedField α] (components : Components α) (bMono : Bool)
    (uChunkSize uPreDelay : Nat) (state : ChunkState α) (nChannel : Nat) : ChunkState α :=
  let p := state.processor
  let q : Processor α :=
    if bMono ∧ nChannel = 1 then
      { p with
        arrPeakLevels := arraySet p.arrPeakLevels nChannel (arrayGet p.arrPeakLevels 0)
        arrRmsLevels := arraySet p.arrRmsLevels nChannel (arrayGet p.arrRmsLevels 0)
        arrAverageLevelsFiltered :=
          arraySet p.arrAverageLevelsFiltered nChannel (arrayGet p.arrAverageLevelsFiltered 0)
        arrTruePeakLevels :=
          arraySet p.arrTruePeakLevels nChannel (arrayGet p.arrTruePeakLevels 0)
        arrOverflows := arraySet p.arrOverflows nChannel (arrayGet p.arrOverflows 0) }
    else
      { p with
        arrPeakLevels :=
          arraySet p.arrPeakLevels nChannel
            (p.pRingBufferInput.getMagnitude nChannel uChunkSize uPreDelay)
        arrRmsLevels :=
          arraySet p.arrRmsLevels nChannel
            (p.pRingBufferInput.getRMSLevel nChannel uChunkSize uPreDelay)
        arrAverageLevelsFiltered :=
          arraySet p.arrAverageLevelsFiltered nChannel
            (components.averageLevel p.pRingBufferInput 0 nChannel)
        arrTruePeakLevels :=
          arraySet p.arrTruePeakLevels nChannel
            (components.truePeakLevel p.pRingBufferInput uPreDelay nChannel)
        arrOverflows :=
          arraySet p.arrOverflows nChannel
            (countOverflows p.pRingBufferInput nChannel uChunkSize uPreDelay) }
  { processor := q
    calls := state.calls ++
      [BallisticsCall.updateChannel nChannel q.fProcessedSeconds
        (arrayGet q.arrPeakLevels nChannel) (arrayGet q.arrTruePeakLevels nChannel)
        (arrayGet q.arrRmsLevels nChannel) (arrayGet q.arrAverageLevelsFiltered nChannel)
        (arrayGet q.arrOverflows nChannel)] }

/-- The result of `processBufferChunk`: the processor afterwards, the calls made on
`pMeterBallistics` in order, and the samples read by the correlation loop. -/
structure ChunkResult (α : Type) where
  processor : Processor α
  calls : List (BallisticsCall α)
  correlationReads : List (Nat × Nat × Nat)

/-- The input ring buffer as the measurements of `processBufferChunk` read it: cleared
(`pRingBufferInput->clear ()`) when `isSilent`, untouched otherwise. -/
def inputRing (components : Components α) (p : Processor α) : RingBuffer α :=
  if p.isSilent then components.clear p.pRingBufferInput else p.pRingBufferInput

/-- The start of `processBufferChunk`: the input ring buffer is cleared when
`isSilent`, and `fProcessedSeconds = (float) uChunkSize / (float) getSampleRate ()`. -/
def chunkStart [LinearOrderedField α] (components : Components α) (p : Processor α)
    (uChunkSize : Nat) : Processor α :=
  { p with
    pRingBufferInput := inputRing components p
    fProcessedSeconds := (uChunkSize : α) / p.sampleRate }

/-- The loop `for (nChannel = 0; nChannel < getMainBusNumInputChannels (); ++nChannel)`
of `processBufferChunk`. -/
def channelLoop [LinearOrderedField α] (components : Components α) (bMono : Bool)
    (uChunkSize uPreDelay : Nat) (p : Processor α) (numInputChannels : Nat) : ChunkState α :=
  (List.range numInputChannels).foldl
    (processChannel components bMono uChunkSize uPreDelay) { processor := p, calls := [] }

/-- Embedding of `KmeterAudioProcessor::processBufferChunk`, up to the `"UM"` action message:
the input ring buffer is cleared when `isSilent`, the levels of every channel are
measured and handed to `updateChannel`, and for a stereo signal the phase
correlation and the stereo meter value are computed and handed over. -/
def processBufferChunk [LinearOrderedField α] (sqrt : α → α) (components : Components α)
    (p : Processor α) (uChunkSize : Nat) : ChunkResult α :=
  let uPreDelay := uChunkSize / 2
  let bMono := p.selMono
  let state := channelLoop components bMono uChunkSize uPreDelay
    (chunkStart components p uChunkSize) p.numInputChannels
  let p2 := state.processor
  if p2.isStereo then
    let phase := phaseCorrelation sqrt bMono (arrayGet p2.arrRmsLevels 0)
      (arrayGet p2.arrRmsLevels 1) p2.pRingBufferInput uChunkSize uPreDelay
    let fStereoMeterValue :=
      (stereoMeter (arrayGet p2.arrRmsLevels 0) (arrayGet p2.arrRmsLevels 1)).fStereoMeterValue
    { processor := p2
      calls := state.calls ++
        [BallisticsCall.setPhaseCorrelation p2.fProcessedSeconds phase.fPhaseCorrelation,
         BallisticsCall.setStereoMeterValue p2.fProcessedSeconds fStereoMeterValue]
      correlationReads := phase.reads }
  else
    { processor := p2, calls := state.calls, correlationReads := [] }

/-! ## Specification-side definitions used by the statements below -/

/-- The first `k` entries of `arr` exist and hold the values `f 0, ..., f (k - 1)`. -/
def Filled [Zero α] (arr : List α) (k : Nat) (f : Nat → α) : Prop :=
  k ≤ arr.length ∧ ∀ j, j < k → arrayGet arr j = f j

/-- The channel whose measurements `processBufferChunk` stores for `nChannel`:
channel 0 for channel 1 of a signal mixed down to mono, `nChannel` itself otherwise. -/
def sourceChannel (bMono : Bool) (nChannel : Nat) : Nat :=
  if bMono ∧ nChannel = 1 then 0 else nChannel

/-- The `updateChannel` call that the channel loop makes for `nChannel`, written in
terms of the measurements of the ring buffer. -/
def expectedCall [LinearOrderedField α] (components : Components α) (bMono : Bool)
    (uChunkSize uPreDelay : Nat) (ring : RingBuffer α) (fTimePassed : α) (nChannel : Nat) :
    BallisticsCall α :=
  BallisticsCall.updateChannel nChannel fTimePassed
    (ring.getMagnitude (sourceChannel bMono nChannel) uChunkSize uPreDelay)
    (components.truePeakLevel ring uPreDelay (sourceChannel bMono nChannel))
    (ring.getRMSLevel (sourceChannel bMono nChannel) uChunkSize uPreDelay)
    (components.averageLevel ring 0 (sourceChannel bMono nChannel))
    (countOverflows ring (sourceChannel bMono nChannel) uChunkSize uPreDelay)

/-- The state of the channel loop after `k` iterations started from `p`: the calls
made so far, the members left untouched, and the entries of the five level arrays. -/
def ChannelInv [LinearOrderedField α] (components : Components α) (bMono : Bool)
    (uChunkSize uPreDelay : Nat) (p : Processor α) (k : Nat) (s : ChunkState α) : Prop :=
  s.calls = (List.range k).map
      (expectedCall components bMono uChunkSize uPreDelay p.pRingBufferInput
        p.fProcessedSeconds) ∧
    s.processor.pRingBufferInput = p.pRingBufferInput ∧
    s.processor.fProcessedSeconds = p.fProcessedSeconds ∧
    s.processor.isStereo = p.isStereo ∧
    Filled s.processor.arrPeakLevels k (fun c =>
      p.pRingBufferInput.getMagnitude (sourceChannel bMono c) uChunkSize uPreDelay) ∧
    Filled s.processor.arrTruePeakLevels k (fun c =>
      components.truePeakLevel p.pRingBufferInput uPreDelay (sourceChannel bMono c)) ∧
    Filled s.processor.arrRmsLevels k (fun c =>
      p.pRingBufferInput.getRMSLevel (sourceChannel bMono c) uChunkSize uPreDelay) ∧
    Filled s.processor.arrAverageLevelsFiltered k (fun c =>
      components.averageLevel p.pRingBufferInput 0 (sourceChannel bMono c)) ∧
    Filled s.processor.arrOverflows k (fun c =>
      countOverflows p.pRingBufferInput (sourceChannel bMono c) uChunkSize uPreDelay)

/-! ## Concrete inputs -/

/-- A ring buffer holding the value `v` at every position of every channel. -/
def constantRing [LinearOrderedField α] (v : α) : RingBuffer α :=
  { getSample := fun _ _ _ => v, getMagnitude := fun _ _ _ => |v|, getRMSLevel := fun _ _ _ => |v| }

/-- A ring buffer whose window holds `1, -1, 1`, then eight samples `1/2`, then
zeros: three of the first twenty samples are beyond `±0.9999`, the peak magnitude
is `1` and the RMS level over twenty samples is `1/2`. -/
def overflowRing [LinearOrderedField α] : RingBuffer α :=
  { getSample := fun _ i _ =>
      if i = 0 then 1 else if i = 1 then -1 else if i = 2 then 1
      else if i < 11 then 1 / 2 else 0
    getMagnitude := fun _ _ _ => 1
    getRMSLevel := fun _ _ _ => 1 / 2 }

/-- Measurement components for the concrete inputs: the true peak is the sample peak,
the filtered average is the RMS level, and clearing yields silence. -/
def exampleComponents [LinearOrderedField α] : Components α :=
  { averageLevel := fun ring pre_delay channel => ring.getRMSLevel channel 1024 pre_delay
    truePeakLevel := fun ring pre_delay channel => ring.getMagnitude channel 1024 pre_delay
    clear := fun _ => constantRing 0 }

/-- A stereo processor at 44100 Hz that is not silenced, with two zero entries in each
level array, the given Mono setting and the given input ring buffer. -/
def exampleProcessor [LinearOrderedField α] (selMono : Bool) (ring : RingBuffer α) :
    Processor α :=
  { isSilent := false
    isStereo := true
    selMono := selMono
    numInputChannels := 2
    sampleRate := 44100
    fProcessedSeconds := 0
    arrPeakLevels := [0, 0]
    arrRmsLevels := [0, 0]
    arrAverageLevelsFiltered := [0, 0]
    arrTruePeakLevels := [0, 0]
    arrOverflows := [0, 0]
    pRingBufferInput := ring }

/-! ## The elapsed time of a call, and the session totals of the meter ballistics -/

/-- The elapsed time (`fTimePassed`) that a call on `pMeterBallistics` carries. -/
def callTime : BallisticsCall α → α
  | BallisticsCall.updateChannel _ fTimePassed _ _ _ _ _ => fTimePassed
  | BallisticsCall.setPhaseCorrelation fTimePassed _ => fTimePassed
  | BallisticsCall.setStereoMeterValue fTimePassed _ => fTimePassed

/-- Modelled from the spec: the two session totals of one channel of `MeterBallistics`
(`meter_ballistics.cpp` is not part of the sources, only the declarations of
`meter_ballistics.h` are): `maximumPeakLevel`, the session maximum, and
`overflowCount`, the overflow tally. -/
structure ChannelTotals (α : Type) where
  maximumPeakLevel : α
  overflowCount : Int

/-- Modelled from the spec: steps 5 and 6 of `MeterBallistics::updateChannel`, whose
body is not part of the sources.  "Maximum peak is a pure running maximum over
`peak`/`truePeak` across the whole session" and "`overflowCount += overflowsInChunk`". -/
def updateChannelTotals [LinearOrderedField α] (totals : ChannelTotals α)
    (fPeak fTruePeak : α) (nOverflows : Int) : ChannelTotals α :=
  { maximumPeakLevel := max totals.maximumPeakLevel (max fPeak fTruePeak)
    overflowCount := totals.overflowCount + nOverflows }

/-- The effect of one call on the totals of channel `nChannel`: an `updateChannel`
call for that channel updates them, every other call leaves them alone. -/
def applyCall [LinearOrderedField α] (nChannel : Nat) (totals : ChannelTotals α) :
    BallisticsCall α → ChannelTotals α
  | BallisticsCall.updateChannel k _ fPeak fTruePeak _ _ nOverflows =>
    if k = nChannel then updateChannelTotals totals fPeak fTruePeak nOverflows else totals
  | BallisticsCall.setPhaseCorrelation _ _ => totals
  | BallisticsCall.setStereoMeterValue _ _ => totals

/-- The totals of channel `nChannel` after a sequence of calls without `reset ()`. -/
def totalsAfter [LinearOrderedField α] (nChannel : Nat) (totals : ChannelTotals α)
    (calls : List (BallisticsCall α)) : ChannelTotals α :=
  calls.foldl (applyCall nChannel) totals

/-- One chunk of a session: the measurement components, the processor and the chunk
size with which `processBufferChunk` is called. -/
structure ChunkInput (α : Type) where
  components : Components α
  processor : Processor α
  uChunkSize : Nat

/-- The calls made on `pMeterBallistics` by a sequence of `processBufferChunk` calls. -/
def sessionCalls [LinearOrderedField α] (sqrt : α → α) (chunks : List (ChunkInput α)) :
    List (BallisticsCall α) :=
  chunks.flatMap (fun chunk =>
    (processBufferChunk sqrt chunk.components chunk.processor chunk.uChunkSize).calls)

/-! ## `prepareToPlay` and `processBlock` -/

/-- The member `nTrakmeterBufferSize`, initialised to `1024` by both constructors. -/
def nTrakmeterBufferSize : Int := 1024

/-- The conversion `(int) x` of a floating-point value: truncation towards zero. -/
def truncate [LinearOrderedField α] [FloorRing α] (x : α) : Int :=
  if 0 ≤ x then Int.floor x else Int.ceil x

/-- What the host and the plug-in parameters answer during a call:
`getMainBusNumInputChannels ()`, `getMainBusNumOutputChannels ()` and
`getBoolean (...)` for the Mono, Flip, Mute and Dim buttons. -/
structure Host where
  numInputChannels : Nat
  numOutputChannels : Nat
  selMono : Bool
  selFlip : Bool
  selMute : Bool
  selDim : Bool

/-- The arguments of `new MeterBallistics (...)`; the class body is not part of the
sources, so the object is represented by the arguments it was created with. -/
structure MeterBallisticsArgs where
  nChannels : Nat
  nAverageAlgorithm : Int
  bPeakMeterInfiniteHold : Bool
  bAverageMeterInfiniteHold : Bool
deriving DecidableEq

/-- The arguments of `new AverageLevelFiltered (this, ...)`. -/
structure AverageLevelFilteredArgs where
  channels : Nat
  sampleRate : Int
  bufferSize : Int
  averageAlgorithm : Int
deriving DecidableEq

/-- The arguments of `new TruePeakMeter (...)`. -/
structure TruePeakMeterArgs where
  oversamplingRate : Int
  channels : Nat
  bufferSize : Int
deriving DecidableEq

/-- The arguments of `new frut::audio::RingBuffer (name, channels, length, ...)`;
`isInput` stands for the name (`"Input ring buffer"` or `"Output ring buffer"`) and
`hasCallback` records `setCallbackClass (this)`. -/
structure RingBufferArgs where
  isInput : Bool
  channels : Nat
  length : Nat
  preDelay : Int
  chunkSize : Int
  hasCallback : Bool
deriving DecidableEq

/-- The members of `KmeterAudioProcessor` that `prepareToPlay` and `processBlock` read
or write.  The objects behind the pointers are represented by the arguments of their
constructors (`none` before the first `prepareToPlay`); `audioFilePlayer` records
whether a validation file player is present. -/
structure Plugin (α : Type) where
  bSampleRateIsValid : Bool
  isSilent : Bool
  isStereo : Bool
  attenuationLevel_ : α
  nAverageAlgorithm : Int
  nSamplesInBuffer : Int
  arrPeakLevels : List α
  arrRmsLevels : List α
  arrAverageLevelsFiltered : List α
  arrTruePeakLevels : List α
  arrOverflows : List Int
  pMeterBallistics : Option MeterBallisticsArgs
  pAverageLevelFiltered : Option AverageLevelFilteredArgs
  pTruePeakMeter : Option TruePeakMeterArgs
  pRingBufferInput : Option RingBufferArgs
  pRingBufferOutput : Option RingBufferArgs
  audioFilePlayer : Bool

/-- The output attenuation selected by the Mute and Dim buttons. -/
def attenuationLevel [LinearOrderedField α] (host : Host) : α :=
  if host.selMute then 0 else if host.selDim then 0.1 else 1

/-- The oversampling rate that `prepareToPlay` computes: `8`, divided by `4` from
176400 Hz and by `2` from 88200 Hz. -/
def oversamplingRate [LinearOrderedField α] (sampleRate : α) : Int :=
  let nOversamplingRate : Int := 8
  if sampleRate ≥ 176400 then nOversamplingRate / 4
  else if sampleRate ≥ 88200 then nOversamplingRate / 2
  else nOversamplingRate

/-- The size `uRingBufferSize` that `prepareToPlay` gives to both ring buffers. -/
def ringBufferSize (samplesPerBlock : Int) : Nat :=
  (if samplesPerBlock > nTrakmeterBufferSize then samplesPerBlock
    else nTrakmeterBufferSize).toNat

/-- Embedding of `KmeterAudioProcessor::prepareToPlay`.  `fMeterMinimumDecibel` is the
value of `MeterBallistics::getMeterMinimumDecibel ()`, which is not part of the
sources. -/
def prepareToPlay [LinearOrderedField α] [FloorRing α] (host : Host)
    (fMeterMinimumDecibel : α) (plugin : Plugin α) (sampleRate : α) (samplesPerBlock : Int) :
    Plugin α :=
  if sampleRate < 44100 ∨ sampleRate > 192000 then
    { plugin with bSampleRateIsValid := false }
  else
    let numInputChannels := host.numInputChannels
    let uRingBufferSize := ringBufferSize samplesPerBlock
    { plugin with
      bSampleRateIsValid := true
      isSilent := false
      attenuationLevel_ := attenuationLevel host
      isStereo := decide (numInputChannels = 2)
      pMeterBallistics := some
        { nChannels := numInputChannels
          nAverageAlgorithm := plugin.nAverageAlgorithm
          bPeakMeterInfiniteHold := false
          bAverageMeterInfiniteHold := false }
      arrPeakLevels := List.replicate numInputChannels 0
      arrRmsLevels := List.replicate numInputChannels 0
      arrAverageLevelsFiltered := List.replicate numInputChannels fMeterMinimumDecibel
      arrTruePeakLevels := List.replicate numInputChannels 0
      arrOverflows := List.replicate numInputChannels 0
      pAverageLevelFiltered := some
        { channels := numInputChannels
          sampleRate := truncate sampleRate
          bufferSize := nTrakmeterBufferSize
          averageAlgorithm := plugin.nAverageAlgorithm }
      pTruePeakMeter := some
        { oversamplingRate := oversamplingRate sampleRate
          channels := numInputChannels
          bufferSize := nTrakmeterBufferSize }
      nSamplesInBuffer := 0
      pRingBufferInput := some
        { isInput := true
          channels := numInputChannels
          length := uRingBufferSize
          preDelay := nTrakmeterBufferSize
          chunkSize := nTrakmeterBufferSize
          hasCallback := true }
      pRingBufferOutput := some
        { isInput := false
          channels := numInputChannels
          length := uRingBufferSize
          preDelay := nTrakmeterBufferSize
          chunkSize := nTrakmeterBufferSize
          hasCallback := false } }

/-- Model of `juce::AudioBuffer<float>`: the number of channels, the number of samples
and the sample at each channel and index. -/
structure AudioBuffer (α : Type) where
  numChannels : Nat
  numSamples : Nat
  sample : Nat → Nat → α

/-- Model of `juce::AudioBuffer::clear (channel, startSample, numSamples)`: the samples
`startSample .. startSample + numSamples - 1` of the channel become zero. -/
def AudioBuffer.clear [Zero α] (buffer : AudioBuffer α) (channel startSample numSamples : Nat) :
    AudioBuffer α :=
  { buffer with
    sample := fun c i =>
      if c = channel ∧ startSample ≤ i ∧ i < startSample + numSamples then 0
      else buffer.sample c i }

/-- Writing one sample through `getWritePointer (channel)[index]`. -/
def AudioBuffer.setSample (buffer : AudioBuffer α) (channel index : Nat) (value : α) :
    AudioBuffer α :=
  { buffer with
    sample := fun c i => if c = channel ∧ i = index then value else buffer.sample c i }

/-- The calls that `processBlock` makes on objects whose code is not part of the
sources, with their arguments. -/
inductive BlockCall (α : Type) where
  | fillBufferChunk (buffer : AudioBuffer α)
  | addSamples (buffer : AudioBuffer α) (sourceStart numSamples : Nat)
  | copyToBuffer (destStart numSamples : Nat) (preDelay : Int)
  | applyGainRamp (startSample numSamples : Nat) (startGain endGain : α)

/-- The members that the `processBufferChunk` callbacks triggered by
`pRingBufferInput->addSamples` may write, together with the buffer. -/
structure AddSamplesEffect (α : Type) where
  buffer : AudioBuffer α
  arrPeakLevels : List α
  arrRmsLevels : List α
  arrAverageLevelsFiltered : List α
  arrTruePeakLevels : List α
  arrOverflows : List Int

/-- The effects of the calls of `processBlock` on objects whose code is not part of the
sources: `audioFilePlayer->fillBufferChunk`, `pRingBufferInput->addSamples` (with the
callbacks it triggers), `pRingBufferOutput->copyToBuffer` and
`buffer.applyGainRamp`. -/
structure BlockExternals (α : Type) where
  fillBufferChunk : AudioBuffer α → AudioBuffer α
  addSamples : AddSamplesEffect α → Nat → Nat → AddSamplesEffect α
  copyToBuffer : AudioBuffer α → Nat → Nat → Int → AudioBuffer α
  applyGainRamp : AudioBuffer α → Nat → Nat → α → α → AudioBuffer α

/-- The Mono loop of `processBlock`: `inputLeft[i] = 0.5f * (inputLeft[i] +
inputRight[i])` and then `inputRight[i] = inputLeft[i]`, for each index. -/
def mixToMono [LinearOrderedField α] (buffer : AudioBuffer α) (nNumSamples : Nat) :
    AudioBuffer α :=
  (List.range nNumSamples).foldl
    (fun b i =>
      let b1 := b.setSample 0 i (0.5 * (b.sample 0 i + b.sample 1 i))
      b1.setSample 1 i (b1.sample 0 i))
    buffer

/-- The Flip loop of `processBlock`: the left and the right sample are exchanged, for
each index. -/
def flipChannels (buffer : AudioBuffer α) (nNumSamples : Nat) : AudioBuffer α :=
  (List.range nNumSamples).foldl
    (fun b i =>
      let oldInputLeft := b.sample 0 i
      let b1 := b.setSample 0 i (b.sample 1 i)
      b1.setSample 1 i oldInputLeft)
    buffer

/-- The result of `processBlock`: the members afterwards, the buffer handed back to the
host, and the calls made on objects outside the sources, in order. -/
structure BlockResult (α : Type) where
  plugin : Plugin α
  buffer : AudioBuffer α
  calls : List (BlockCall α)

/-- Embedding of `KmeterAudioProcessor::processBlock`. -/
def processBlock [LinearOrderedField α] (host : Host) (externals : BlockExternals α)
    (plugin : Plugin α) (buffer : AudioBuffer α) : BlockResult α :=
  let nNumSamples := buffer.numSamples
  if ¬ plugin.bSampleRateIsValid then
    { plugin := plugin
      buffer := (List.range host.numOutputChannels).foldl
        (fun b nChannel => b.clear nChannel 0 nNumSamples) buffer
      calls := [] }
  else if host.numInputChannels < 1 then
    { plugin := plugin, buffer := buffer, calls := [] }
  else
    let cleared := (List.range' host.numInputChannels
        (host.numOutputChannels - host.numInputChannels)).foldl
      (fun b nChannel => b.clear nChannel 0 nNumSamples) buffer
    let filled := if plugin.audioFilePlayer then externals.fillBufferChunk cleared else cleared
    let callsFill : List (BlockCall α) :=
      if plugin.audioFilePlayer then [BlockCall.fillBufferChunk cleared] else []
    let mixed :=
      if plugin.isStereo then
        if host.selMono then mixToMono filled nNumSamples
        else if host.selFlip then flipChannels filled nNumSamples
        else filled
      else filled
    let added := externals.addSamples
      { buffer := mixed
        arrPeakLevels := plugin.arrPeakLevels
        arrRmsLevels := plugin.arrRmsLevels
        arrAverageLevelsFiltered := plugin.arrAverageLevelsFiltered
        arrTruePeakLevels := plugin.arrTruePeakLevels
        arrOverflows := plugin.arrOverflows } 0 nNumSamples
    let nSamplesInBuffer :=
      Int.tmod (plugin.nSamplesInBuffer + (nNumSamples : Int)) nTrakmeterBufferSize
    let copied := externals.copyToBuffer added.buffer 0 nNumSamples
      (nTrakmeterBufferSize - nSamplesInBuffer)
    let oldAttenuationLevel := plugin.attenuationLevel_
    let newAttenuationLevel : α := attenuationLevel host
    { plugin :=
        { plugin with
          arrPeakLevels := added.arrPeakLevels
          arrRmsLevels := added.arrRmsLevels
          arrAverageLevelsFiltered := added.arrAverageLevelsFiltered
          arrTruePeakLevels := added.arrTruePeakLevels
          arrOverflows := added.arrOverflows
          nSamplesInBuffer := nSamplesInBuffer
          attenuationLevel_ := newAttenuationLevel }
      buffer := externals.applyGainRamp copied 0 copied.numSamples oldAttenuationLevel
        newAttenuationLevel
      calls := callsFill ++
        [BlockCall.addSamples mixed 0 nNumSamples,
         BlockCall.copyToBuffer 0 nNumSamples (nTrakmeterBufferSize - nSamplesInBuffer),
         BlockCall.applyGainRamp 0 copied.numSamples oldAttenuationLevel
           newAttenuationLevel] }

/-- A plug-in before the first `prepareToPlay`: no objects, empty level arrays. -/
def freshPlugin [LinearOrderedField α] : Plugin α :=
  { bSampleRateIsValid := false
    isSilent := false
    isStereo := false
    attenuationLevel_ := 1
    nAverageAlgorithm := 0
    nSamplesInBuffer := 0
    arrPeakLevels := []
    arrRmsLevels := []
    arrAverageLevelsFiltered := []
    arrTruePeakLevels := []
    arrOverflows := []
    pMeterBallistics := none
    pAverageLevelFiltered := none
    pTruePeakMeter := none
    pRingBufferInput := none
    pRingBufferOutput := none
    audioFilePlayer := false }

/-- A stereo host with two output channels and no button pressed. -/
def stereoHost : Host :=
  { numInputChannels := 2
    numOutputChannels := 2
    selMono := false
    selFlip := false
    selMute := false
    selDim := false }

/-- Externals that leave the buffer and the level arrays as they are. -/
def idleExternals : BlockExternals α :=
  { fillBufferChunk := fun buffer => buffer
    addSamples := fun effect _ _ => effect
    copyToBuffer := fun buffer _ _ _ => buffer
    applyGainRamp := fun buffer _ _ _ _ => buffer }

/-- A buffer of two channels and four samples, every sample being `1`. -/
def onesBuffer [One α] : AudioBuffer α :=
  { numChannels := 2, numSamples := 4, sample := fun _ _ => 1 }

/-! ## `KmeterPluginParameters` -/

/-- The parameter indices of `KmeterPluginParameters`.  The header `plugin_parameters.h`
is not part of the sources; the indices are those that `plugin_parameters.cpp` names,
in the order of `getParameterName`.  An index outside this list violates the
`jassert` of every accessor. -/
inductive Parameter where
  | selCrestFactor
  | selExpanded
  | selPeak
  | selInfiniteHold
  | selMono
  | selValidationFileName
  | selValidationSelectedChannel
  | selValidationPeakMeterLevel
  | selValidationAverageMeterLevel
  | selValidationStereoMeterValue
  | selValidationPhaseCorrelation
deriving DecidableEq

/-- The crest factor selectors `selNormal`, `selK12`, `selK14`, `selK20` and their
number `nNumCrestFactors`, declared in the header that is not part of the sources. -/
structure CrestSelectors where
  selNormal : Int
  selK12 : Int
  selK14 : Int
  selK20 : Int
  nNumCrestFactors : Int

/-- The selectors numbered `0, 1, 2, 3`, four in all. -/
def standardSelectors : CrestSelectors :=
  { selNormal := 0, selK12 := 1, selK14 := 2, selK20 := 3, nNumCrestFactors := 4 }

/-- The members of `KmeterPluginParameters`: the array `nParam`, the array
`bParamChanged` and `strValidationFile`. -/
structure KmeterPluginParameters where
  nParam : Parameter → Int
  bParamChanged : Parameter → Bool
  strValidationFile : String

/-- Embedding of the constructor `KmeterPluginParameters::KmeterPluginParameters`.  It
assigns every entry of `nParam` except `nParam[selValidationFileName]`, which keeps
the content `uninitialised` that `new int[nNumParameters]` left there, and unmarks
every parameter. -/
def newParameters (uninitialised : Int) : KmeterPluginParameters :=
  { nParam := fun nIndex =>
      match nIndex with
      | Parameter.selCrestFactor => 20
      | Parameter.selExpanded => 0
      | Parameter.selPeak => 0
      | Parameter.selInfiniteHold => 0
      | Parameter.selMono => 0
      | Parameter.selValidationFileName => uninitialised
      | Parameter.selValidationSelectedChannel => -1
      | Parameter.selValidationPeakMeterLevel => 1
      | Parameter.selValidationAverageMeterLevel => 1
      | Parameter.selValidationStereoMeterValue => 1
      | Parameter.selValidationPhaseCorrelation => 1
    bParamChanged := fun _ => false
    strValidationFile := "" }

/-- Embedding of `KmeterPluginParameters::getParameterAsInt`. -/
def getParameterAsInt (parameters : KmeterPluginParameters) (nIndex : Parameter) : Int :=
  parameters.nParam nIndex

/-- Embedding of `KmeterPluginParameters::MarkParameter`. -/
def MarkParameter (parameters : KmeterPluginParameters) (nIndex : Parameter) :
    KmeterPluginParameters :=
  { parameters with bParamChanged := Function.update parameters.bParamChanged nIndex true }

/-- Embedding of `KmeterPluginParameters::UnmarkParameter`. -/
def UnmarkParameter (parameters : KmeterPluginParameters) (nIndex : Parameter) :
    KmeterPluginParameters :=
  { parameters with bParamChanged := Function.update parameters.bParamChanged nIndex false }

/-- Embedding of `KmeterPluginParameters::setParameterFromInt` (the change message to
the listeners is not modelled). -/
def setParameterFromInt (parameters : KmeterPluginParameters) (nIndex : Parameter)
    (nValue : Int) : KmeterPluginParameters :=
  if parameters.nParam nIndex ≠ nValue then
    let stored : Int :=
      if nIndex = Parameter.selCrestFactor then
        if nValue = 0 ∨ nValue = 12 ∨ nValue = 14 then nValue else 20
      else if nIndex = Parameter.selValidationSelectedChannel then nValue
      else if nValue ≠ 0 then 1 else 0
    MarkParameter
      { parameters with nParam := Function.update parameters.nParam nIndex stored } nIndex
  else parameters

/-- Embedding of `KmeterPluginParameters::setParameterFromBool`. -/
def setParameterFromBool (parameters : KmeterPluginParameters) (nIndex : Parameter)
    (bValue : Bool) : KmeterPluginParameters :=
  setParameterFromInt parameters nIndex (if bValue then 1 else 0)

/-- Embedding of `KmeterPluginParameters::translateParameterToInt`. -/
def translateParameterToInt [LinearOrderedField α] [FloorRing α] (selectors : CrestSelectors)
    (nIndex : Parameter) (fValue : α) : Int :=
  if nIndex = Parameter.selCrestFactor then
    if fValue < (selectors.selK12 : α) / (selectors.nNumCrestFactors : α) then 0
    else if fValue < (selectors.selK14 : α) / (selectors.nNumCrestFactors : α) then 12
    else if fValue < (selectors.selK20 : α) / (selectors.nNumCrestFactors : α) then 14
    else 20
  else if nIndex = Parameter.selValidationSelectedChannel then
    let nRoundedValue := truncate (fValue * 100 + 0.5)
    nRoundedValue - 1
  else if fValue > 0.5 then 1 else 0

/-- Embedding of `KmeterPluginParameters::setParameterFromFloat`. -/
def setParameterFromFloat [LinearOrderedField α] [FloorRing α] (selectors : CrestSelectors)
    (parameters : KmeterPluginParameters) (nIndex : Parameter) (fValue : α) :
    KmeterPluginParameters :=
  setParameterFromInt parameters nIndex (translateParameterToInt selectors nIndex fValue)

/-- An attribute of a `juce::XmlElement`: the integer that `getIntAttribute` reads from
it and the text that `getStringAttribute` returns for it. -/
structure XmlValue where
  intValue : Int
  stringValue : String

/-- Model of `juce::XmlElement`: the tag name and the attributes by name. -/
structure XmlElement where
  tagName : String
  attributes : String → Option XmlValue

/-- Model of `juce::XmlElement::hasAttribute`. -/
def XmlElement.hasAttribute (xml : XmlElement) (name : String) : Bool :=
  (xml.attributes name).isSome

/-- Model of `juce::XmlElement::getIntAttribute (name, defaultValue)`. -/
def XmlElement.getIntAttribute (xml : XmlElement) (name : String) (defaultValue : Int) : Int :=
  match xml.attributes name with
  | some value => value.intValue
  | none => defaultValue

/-- Model of `juce::XmlElement::getStringAttribute (name, defaultValue)`. -/
def XmlElement.getStringAttribute (xml : XmlElement) (name : String) (defaultValue : String) :
    String :=
  match xml.attributes name with
  | some value => value.stringValue
  | none => defaultValue

/-- What the file system answers: `File::existsAsFile ()` and `File::getFullPathName ()`
for the file of a given path. -/
structure FileSystem where
  existsAsFile : String → Bool
  getFullPathName : String → String

/-- Embedding of `KmeterPluginParameters::setValidationFile`. -/
def setValidationFile (files : FileSystem) (parameters : KmeterPluginParameters)
    (fileValidation : String) : KmeterPluginParameters :=
  if files.existsAsFile fileValidation then
    { parameters with strValidationFile := files.getFullPathName fileValidation }
  else parameters

/-- Embedding of `KmeterPluginParameters::loadFromXml`; `none` is the null pointer. -/
def loadFromXml (files : FileSystem) (parameters : KmeterPluginParameters)
    (xml : Option XmlElement) : KmeterPluginParameters :=
  match xml with
  | none => parameters
  | some xml =>
    if xml.tagName = "KMETER_SETTINGS" then
      let nCrestFactor : Int :=
        if xml.hasAttribute "Headroom" then
          xml.getIntAttribute "Headroom" (getParameterAsInt parameters Parameter.selCrestFactor)
        else
          xml.getIntAttribute "CrestFactor"
            (getParameterAsInt parameters Parameter.selCrestFactor)
      let p1 :=
        if nCrestFactor = 0 then setParameterFromInt parameters Parameter.selCrestFactor 20
        else setParameterFromInt parameters Parameter.selCrestFactor nCrestFactor
      let p2 := setParameterFromInt p1 Parameter.selExpanded
        (xml.getIntAttribute "Expanded" (getParameterAsInt p1 Parameter.selExpanded))
      let p3 := setParameterFromInt p2 Parameter.selPeak
        (xml.getIntAttribute "Peak" (getParameterAsInt p2 Parameter.selPeak))
      let p4 := setParameterFromInt p3 Parameter.selInfiniteHold
        (xml.getIntAttribute "Hold" (getParameterAsInt p3 Parameter.selInfiniteHold))
      let p5 := setParameterFromInt p4 Parameter.selMono
        (xml.getIntAttribute "Mono" (getParameterAsInt p4 Parameter.selMono))
      let p6 := setValidationFile files p5
        (xml.getStringAttribute "ValidationFile" p5.strValidationFile)
      let p7 := setParameterFromInt p6 Parameter.selValidationSelectedChannel
        (xml.getIntAttribute "ValidationSelectedChannel"
          (getParameterAsInt p6 Parameter.selValidationSelectedChannel))
      let p8 := setParameterFromInt p7 Parameter.selValidationPeakMeterLevel
        (xml.getIntAttribute "ValidationPeakMeterLevel"
          (getParameterAsInt p7 Parameter.selValidationPeakMeterLevel))
      let p9 := setParameterFromInt p8 Parameter.selValidationAverageMeterLevel
        (xml.getIntAttribute "ValidationAverageMeterLevel"
          (getParameterAsInt p8 Parameter.selValidationAverageMeterLevel))
      let p10 := setParameterFromInt p9 Parameter.selValidationStereoMeterValue
        (xml.getIntAttribute "ValidationStereoMeterValue"
          (getParameterAsInt p9 Parameter.selValidationStereoMeterValue))
      setParameterFromInt p10 Parameter.selValidationPhaseCorrelation
        (xml.getIntAttribute "ValidationPhaseCorrelation"
          (getParameterAsInt p10 Parameter.selValidationPhaseCorrelation))
    else parameters

/-- The states of `KmeterPluginParameters` reachable from its constructor through
`setParameterFromInt`, `setParameterFromFloat`, `setParameterFromBool` and
`loadFromXml`. -/
inductive Reachable (α : Type) [LinearOrderedField α] [FloorRing α]
    (selectors : CrestSelectors) (files : FileSystem) (uninitialised : Int) :
    KmeterPluginParameters → Prop where
  | constructed : Reachable α selectors files uninitialised (newParameters uninitialised)
  | fromInt (parameters : KmeterPluginParameters) (nIndex : Parameter) (nValue : Int) :
      Reachable α selectors files uninitialised parameters →
      Reachable α selectors files uninitialised (setParameterFromInt parameters nIndex nValue)
  | fromFloat (parameters : KmeterPluginParameters) (nIndex : Parameter) (fValue : α) :
      Reachable α selectors files uninitialised parameters →
      Reachable α selectors files uninitialised
        (setParameterFromFloat selectors parameters nIndex fValue)
  | fromBool (parameters : KmeterPluginParameters) (nIndex : Parameter) (bValue : Bool) :
      Reachable α selectors files uninitialised parameters →
      Reachable α selectors files uninitialised (setParameterFromBool parameters nIndex bValue)
  | loaded (parameters : KmeterPluginParameters) (xml : Option XmlElement) :
      Reachable α selectors files uninitialised parameters →
      Reachable α selectors files uninitialised (loadFromXml files parameters xml)

/-- The stored values that claim C20 allows: the crest factor is `0`, `12`, `14` or
`20`; every other entry except the validation selected channel is `0` or `1`, or, for
the entry of the validation file name, still the content that was never assigned. -/
def StoredValuesValid (uninitialised : Int) (parameters : KmeterPluginParameters) : Prop :=
  (parameters.nParam Parameter.selCrestFactor = 0 ∨
      parameters.nParam Parameter.selCrestFactor = 12 ∨
      parameters.nParam Parameter.selCrestFactor = 14 ∨
      parameters.nParam Parameter.selCrestFactor = 20) ∧
    ∀ nIndex, nIndex ≠ Parameter.selCrestFactor →
      nIndex ≠ Parameter.selValidationSelectedChannel →
      parameters.nParam nIndex = 0 ∨ parameters.nParam nIndex = 1 ∨
        (nIndex = Parameter.selValidationFileName ∧
          parameters.nParam nIndex = uninitialised)

/-- A file system without files. -/
def noFiles : FileSystem :=
  { existsAsFile := fun _ => false, getFullPathName := fun path => path }

/-! ## Specification-side definitions for `processBlock` -/

/-- The block as it enters the stereo stage of `processBlock`: the host block after the
output channels without input have been cleared and, when a validation file is
played, after `audioFilePlayer->fillBufferChunk`. -/
def stageInput [LinearOrderedField α] (host : Host) (externals : BlockExternals α)
    (plugin : Plugin α) (buffer : AudioBuffer α) : AudioBuffer α :=
  let cleared := (List.range' host.numInputChannels
      (host.numOutputChannels - host.numInputChannels)).foldl
    (fun b nChannel => b.clear nChannel 0 buffer.numSamples) buffer
  if plugin.audioFilePlayer then externals.fillBufferChunk cleared else cleared

/-- The blocks that a list of calls hands to `pRingBufferInput->addSamples`. -/
def fedBlocks (calls : List (BlockCall α)) : List (AudioBuffer α) :=
  calls.filterMap (fun call =>
    match call with
    | BlockCall.addSamples buffer _ _ => some buffer
    | _ => none)

/-- The pre-delays that a list of calls hands to `pRingBufferOutput->copyToBuffer`. -/
def outputPreDelays (calls : List (BlockCall α)) : List Int :=
  calls.filterMap (fun call =>
    match call with
    | BlockCall.copyToBuffer _ _ preDelay => some preDelay
    | _ => none)

/-- The numbers of samples that a list of calls hands to
`pRingBufferInput->addSamples`. -/
def fedLengths (calls : List (BlockCall α)) : List Nat :=
  calls.filterMap (fun call =>
    match call with
    | BlockCall.addSamples _ _ numSamples => some numSamples
    | _ => none)

/-- One `processBlock` call of a session: what the host answers, the effects of the
outside objects, and the block. -/
structure BlockInput (α : Type) where
  host : Host
  externals : BlockExternals α
  buffer : AudioBuffer α

/-- The plug-in together with the calls made on outside objects so far. -/
structure BlockSession (α : Type) where
  plugin : Plugin α
  calls : List (BlockCall α)

/-- A sequence of `processBlock` calls, started from `plugin`. -/
def processBlocks [LinearOrderedField α] (plugin : Plugin α) (blocks : List (BlockInput α)) :
    BlockSession α :=
  blocks.foldl
    (fun session block =>
      let result := processBlock block.host block.externals session.plugin block.buffer
      { plugin := result.plugin, calls := session.calls ++ result.calls })
    { plugin := plugin, calls := [] }

/-- A buffer of two channels and four samples: `i` on the left, `10` on the right. -/
def rampBuffer [LinearOrderedField α] : AudioBuffer α :=
  { numChannels := 2
    numSamples := 4
    sample := fun c i => if c = 0 then (i : α) else 10 }

/-! ## `KmeterPluginParameters` : floating-point values and XML -/

/-- Embedding of `KmeterPluginParameters::translateParameterToFloat`. -/
def translateParameterToFloat [LinearOrderedField α] (selectors : CrestSelectors)
    (nIndex : Parameter) (nValue : Int) : α :=
  if nIndex = Parameter.selCrestFactor then
    if nValue = 0 then
      (selectors.selNormal : α) / ((selectors.nNumCrestFactors - 1 : Int) : α)
    else if nValue = 12 then
      (selectors.selK12 : α) / ((selectors.nNumCrestFactors - 1 : Int) : α)
    else if nValue = 14 then
      (selectors.selK14 : α) / ((selectors.nNumCrestFactors - 1 : Int) : α)
    else
      (selectors.selK20 : α) / ((selectors.nNumCrestFactors - 1 : Int) : α)
  else if nIndex = Parameter.selValidationSelectedChannel then
    ((nValue : α) + 1.0) / 100.0
  else if nValue ≠ 0 then 1.0 else 0.0

/-- The conversions of `juce::String` that `juce::XmlElement` uses for attribute values:
the text of an integer and `String::getIntValue`.  They are not part of the
sources. -/
structure StringConversions where
  fromInt : Int → String
  getIntValue : String → Int

/-- Model of `juce::XmlElement::XmlElement (tagName)`: an element without attributes. -/
def XmlElement.create (tagName : String) : XmlElement :=
  { tagName := tagName, attributes := fun _ => none }

/-- Model of `juce::XmlElement::setAttribute (name, int)`. -/
def XmlElement.setIntAttribute (conversions : StringConversions) (xml : XmlElement)
    (name : String) (value : Int) : XmlElement :=
  { xml with
    attributes := fun key =>
      if key = name then some { intValue := value, stringValue := conversions.fromInt value }
      else xml.attributes key }

/-- Model of `juce::XmlElement::setAttribute (name, String)`. -/
def XmlElement.setStringAttribute (conversions : StringConversions) (xml : XmlElement)
    (name : String) (value : String) : XmlElement :=
  { xml with
    attributes := fun key =>
      if key = name then some { intValue := conversions.getIntValue value, stringValue := value }
      else xml.attributes key }

/-- Embedding of `KmeterPluginParameters::storeAsXml`. -/
def storeAsXml (conversions : StringConversions) (parameters : KmeterPluginParameters) :
    XmlElement :=
  let xml := XmlElement.create "KMETER_SETTINGS"
  let nCrestFactor := getParameterAsInt parameters Parameter.selCrestFactor
  let xml1 :=
    if nCrestFactor = 0 then xml.setIntAttribute conversions "CrestFactor" 20
    else xml.setIntAttribute conversions "CrestFactor" nCrestFactor
  let xml2 := xml1.setIntAttribute conversions "Expanded"
    (getParameterAsInt parameters Parameter.selExpanded)
  let xml3 := xml2.setIntAttribute conversions "Peak"
    (getParameterAsInt parameters Parameter.selPeak)
  let xml4 := xml3.setIntAttribute conversions "Hold"
    (getParameterAsInt parameters Parameter.selInfiniteHold)
  let xml5 := xml4.setIntAttribute conversions "Mono"
    (getParameterAsInt parameters Parameter.selMono)
  let xml6 := xml5.setStringAttribute conversions "ValidationFile" parameters.strValidationFile
  let xml7 := xml6.setIntAttribute conversions "ValidationSelectedChannel"
    (getParameterAsInt parameters Parameter.selValidationSelectedChannel)
  let xml8 := xml7.setIntAttribute conversions "ValidationPeakMeterLevel"
    (getParameterAsInt parameters Parameter.selValidationPeakMeterLevel)
  let xml9 := xml8.setIntAttribute conversions "ValidationAverageMeterLevel"
    (getParameterAsInt parameters Parameter.selValidationAverageMeterLevel)
  let xml10 := xml9.setIntAttribute conversions "ValidationStereoMeterValue"
    (getParameterAsInt parameters Parameter.selValidationStereoMeterValue)
  xml10.setIntAttribute conversions "ValidationPhaseCorrelation"
    (getParameterAsInt parameters Parameter.selValidationPhaseCorrelation)

/-- The values that `setParameterFromInt` stores as they are: `0`, `12`, `14`, `20`
for the crest factor, every value for the validation selected channel, `0` and `1`
for every other parameter. -/
def Admissible (nIndex : Parameter) (nValue : Int) : Prop :=
  if nIndex = Parameter.selCrestFactor then
    nValue = 0 ∨ nValue = 12 ∨ nValue = 14 ∨ nValue = 20
  else if nIndex = Parameter.selValidationSelectedChannel then True
  else nValue = 0 ∨ nValue = 1

/-- String conversions that yield the empty text and the integer `0`. -/
def trivialConversions : StringConversions :=
  { fromInt := fun _ => "", getIntValue := fun _ => 0 }

/-! ## `MeterSegment` -/

/-- The peak marker of a meter segment: `PEAK_MARKER_NONE`, `PEAK_MARKER_PEAK` or
`PEAK_MARKER_AVERAGE`; the constants are declared in `meter_segment.h`, which is not
part of the sources. -/
inductive PeakMarker where
  | PEAK_MARKER_NONE
  | PEAK_MARKER_PEAK
  | PEAK_MARKER_AVERAGE
deriving DecidableEq

/-- The members of `MeterSegment`. -/
structure MeterSegment (α : Type) where
  displayPeakMeter : Bool
  fLowerThreshold : α
  fThresholdRange : α
  fUpperThreshold : α
  nPeakMarker : PeakMarker
  fBrightness : α
  fHue : α

/-- Embedding of the constructor `MeterSegment::MeterSegment` (the component name is
not modelled). -/
def newMeterSegment [LinearOrderedField α] (fThreshold fRange : α) (bDisplayPeakMeter : Bool)
    (nColor : Int) : MeterSegment α :=
  { displayPeakMeter := bDisplayPeakMeter
    fLowerThreshold := fThreshold
    fThresholdRange := fRange
    fUpperThreshold := fThreshold + fRange
    nPeakMarker := PeakMarker.PEAK_MARKER_NONE
    fBrightness := 0.0
    fHue := if nColor = 0 then 0.0 else if nColor = 1 then 0.18 else 0.3 }

/-- The four levels handed to `MeterSegment::setLevels`. -/
structure Levels (α : Type) where
  fPeakLevel : α
  fAverageLevel : α
  fPeakLevelPeak : α
  fAverageLevelPeak : α

/-- The result of `MeterSegment::setLevels`: the segment afterwards, the division
evaluated for the brightness as the pair `(dividend, divisor)` (`none` when no
division is evaluated), and whether `repaint ()` is called. -/
structure SetLevelsResult (α : Type) where
  segment : MeterSegment α
  division : Option (α × α)
  repaint : Bool

/-- Embedding of `MeterSegment::setLevels`. -/
def setLevels [LinearOrderedField α] (segment : MeterSegment α) (levels : Levels α) :
    SetLevelsResult α :=
  let fBrightnessOld := segment.fBrightness
  let nPeakMarkerOld := segment.nPeakMarker
  let brightness : α × Option (α × α) :=
    if levels.fAverageLevel ≥ segment.fUpperThreshold then (0.97, none)
    else if segment.displayPeakMeter ∧ levels.fPeakLevel > segment.fLowerThreshold ∧
        levels.fPeakLevel ≤ segment.fUpperThreshold then (0.97, none)
    else if levels.fAverageLevel ≤ segment.fLowerThreshold then (0.25, none)
    else
      let fBrightness :=
        (levels.fAverageLevel - segment.fLowerThreshold) / segment.fThresholdRange
      (fBrightness * 0.72 + 0.25,
        some (levels.fAverageLevel - segment.fLowerThreshold, segment.fThresholdRange))
  let nPeakMarker :=
    if segment.displayPeakMeter ∧ levels.fPeakLevelPeak > segment.fLowerThreshold ∧
        levels.fPeakLevelPeak ≤ segment.fUpperThreshold then PeakMarker.PEAK_MARKER_PEAK
    else if levels.fAverageLevelPeak > segment.fLowerThreshold ∧
        levels.fAverageLevelPeak ≤ segment.fUpperThreshold then
      PeakMarker.PEAK_MARKER_AVERAGE
    else PeakMarker.PEAK_MARKER_NONE
  { segment := { segment with fBrightness := brightness.1, nPeakMarker := nPeakMarker }
    division := brightness.2
    repaint := decide (brightness.1 ≠ fBrightnessOld ∨ nPeakMarker ≠ nPeakMarkerOld) }

/-- A segment after a sequence of `setLevels` calls. -/
def setLevelsAll [LinearOrderedField α] (segment : MeterSegment α)
    (calls : List (Levels α)) : MeterSegment α :=
  calls.foldl (fun current levels => (setLevels current levels).segment) segment

/-! ## The meter bar (`meter_bar.cpp`) -/

/-- The arguments of one `new MeterSegment (name, nThreshold * 0.1f, nRange * 0.1f, nColor)`
call of the `MeterBar` constructor, threshold and range still as integers in 0.1 dB
steps. -/
structure SegmentArgs where
  nThreshold : Int
  nRange : Int
  nColor : Int
deriving DecidableEq

/-- The members of a `MeterBar`. `MeterArray` holds, for each segment, the arguments it
was created with. -/
structure MeterBar where
  isExpanded : Bool
  nMeterCrestFactor : Int
  nLimitTopBars : Int
  nLimitRedBars : Int
  nLimitAmberBars : Int
  nLimitGreenBars_1 : Int
  nLimitGreenBars_2 : Int
  nNumberOfBars : Int
  nPosX : Int
  nPosY : Int
  nWidth : Int
  nMainSegmentHeight : Int
  justifyMeter : String
  MeterArray : List SegmentArgs

/-- The local variables of the loop of the `MeterBar` constructor, with the segments
created so far. -/
structure SegmentLoop where
  nThreshold : Int
  nKmeterLevel : Int
  MeterArray : List SegmentArgs

/-- One pass of the loop `for (int n = 0; n < nNumberOfBars; n++)` of the `MeterBar`
constructor. -/
def segmentLoop (bar : MeterBar) (state : SegmentLoop) (_n : Nat) : SegmentLoop :=
  let nRange : Int :=
    if bar.isExpanded then 1
    else if state.nKmeterLevel > bar.nLimitTopBars then 5
    else if state.nKmeterLevel > bar.nLimitGreenBars_1 then 10
    else if state.nKmeterLevel > bar.nLimitGreenBars_2 then 60
    else 100
  let nColor : Int :=
    if state.nKmeterLevel > bar.nLimitRedBars then 0
    else if state.nKmeterLevel > bar.nLimitAmberBars then 1
    else 2
  let nThreshold := state.nThreshold - nRange
  let nKmeterLevel := state.nKmeterLevel - nRange
  { nThreshold := nThreshold
    nKmeterLevel := nKmeterLevel
    MeterArray := state.MeterArray ++
      [{ nThreshold := nThreshold, nRange := nRange, nColor := nColor }] }

/-- The constructor `MeterBar::MeterBar (componentName, posX, posY, Width, nCrestFactor,
bExpanded, nSegmentHeight, justify)`; the component name only labels the segments. -/
def newMeterBar (posX posY Width nCrestFactor : Int) (bExpanded : Bool)
    (nSegmentHeight : Int) (justify : String) : MeterBar :=
  let bar : MeterBar :=
    { isExpanded := bExpanded, nMeterCrestFactor := 0, nLimitTopBars := 0,
      nLimitRedBars := 0, nLimitAmberBars := 0, nLimitGreenBars_1 := 0,
      nLimitGreenBars_2 := 0, nNumberOfBars := 0, nPosX := 0, nPosY := 0, nWidth := 0,
      nMainSegmentHeight := 0, justifyMeter := "", MeterArray := [] }
  let bar : MeterBar :=
    if nCrestFactor = 0 then
      { bar with nMeterCrestFactor := 0, nLimitTopBars := -20, nLimitRedBars := -40,
                 nLimitAmberBars := -120, nLimitGreenBars_1 := -400,
                 nLimitGreenBars_2 := -400 }
    else if nCrestFactor = 12 then
      { bar with nMeterCrestFactor := 120, nLimitTopBars := 100, nLimitRedBars := 40,
                 nLimitAmberBars := 0, nLimitGreenBars_1 := -300,
                 nLimitGreenBars_2 := -300 }
    else if nCrestFactor = 14 then
      { bar with nMeterCrestFactor := 140, nLimitTopBars := 120, nLimitRedBars := 40,
                 nLimitAmberBars := 0, nLimitGreenBars_1 := -300,
                 nLimitGreenBars_2 := -300 }
    else
      { bar with nMeterCrestFactor := 200, nLimitTopBars := 180, nLimitRedBars := 40,
                 nLimitAmberBars := 0, nLimitGreenBars_1 := -240,
                 nLimitGreenBars_2 := -300 }
  let bar : MeterBar :=
    { bar with nNumberOfBars :=
        if bar.isExpanded then 134
        else if nCrestFactor = 0 then 47
        else if nCrestFactor = 12 then 48
        else if nCrestFactor = 14 then 50
        else 51 }
  let bar : MeterBar :=
    { bar with nPosX := posX, nPosY := posY, nWidth := Width,
               nMainSegmentHeight := nSegmentHeight, justifyMeter := justify }
  let nThreshold : Int :=
    if bar.isExpanded ∧ bar.nMeterCrestFactor > 80 then 80 - bar.nMeterCrestFactor else 0
  let loop := (List.range bar.nNumberOfBars.toNat).foldl (segmentLoop bar)
    { nThreshold := nThreshold, nKmeterLevel := nThreshold + bar.nMeterCrestFactor,
      MeterArray := [] }
  { bar with MeterArray := loop.MeterArray }

/-- The arguments of one `setBounds (x, y, width, height)` call. -/
structure Bounds where
  x : Int
  y : Int
  width : Int
  height : Int
deriving DecidableEq

/-- What one pass of the loop of `MeterBar::visibilityChanged` gives a segment: the
bounds set, the `segment_height` by which `y` advances, and `zone`, the branch of the
width chain that was taken (0 above the red limit, 1 above the amber limit, 2 below). -/
structure SegmentLayout where
  bounds : Bounds
  segment_height : Int
  zone : Int
deriving DecidableEq

/-- The local variables of the loop of `MeterBar::visibilityChanged`, with the segments
laid out so far. -/
structure LayoutLoop where
  y : Int
  nKmeterLevel : Int
  segments : List SegmentLayout

/-- One pass of the loop `for (int n = 0; n < nNumberOfBars; n++)` of
`MeterBar::visibilityChanged`. The product `nWidth * 0.85f` is taken exactly, in the
rationals, and `(int)` truncates it. -/
def layoutLoop (bar : MeterBar) (state : LayoutLoop) (n : Nat) : LayoutLoop :=
  let nRange : Int :=
    if bar.isExpanded then 1
    else if state.nKmeterLevel > bar.nLimitTopBars then 5
    else if state.nKmeterLevel > bar.nLimitGreenBars_1 then 10
    else if state.nKmeterLevel > bar.nLimitGreenBars_2 then 60
    else 100
  let placement : Int × Int × Int :=
    if state.nKmeterLevel > bar.nLimitRedBars then (bar.nWidth, 0, 0)
    else if state.nKmeterLevel > bar.nLimitAmberBars then
      if bar.justifyMeter = "left" then
        (truncate ((bar.nWidth : ℚ) * 0.85),
          bar.nWidth - truncate ((bar.nWidth : ℚ) * 0.85), 1)
      else if bar.justifyMeter = "right" then (truncate ((bar.nWidth : ℚ) * 0.85), 0, 1)
      else (bar.nWidth, 0, 1)
    else
      if bar.justifyMeter = "left" then
        (truncate ((bar.nWidth : ℚ) * 0.75),
          bar.nWidth - truncate ((bar.nWidth : ℚ) * 0.75), 2)
      else if bar.justifyMeter = "right" then (truncate ((bar.nWidth : ℚ) * 0.75), 0, 2)
      else (bar.nWidth, 0, 2)
  let segment_height : Int :=
    if bar.isExpanded then bar.nMainSegmentHeight
    else if state.nKmeterLevel > bar.nLimitTopBars then bar.nMainSegmentHeight
    else if state.nKmeterLevel > bar.nLimitGreenBars_1 then 2 * bar.nMainSegmentHeight
    else if state.nKmeterLevel > bar.nLimitGreenBars_2 then 6 * bar.nMainSegmentHeight
    else if (n : Int) = bar.nNumberOfBars - 1 then
      if bar.nMeterCrestFactor = 0 then 14 * bar.nMainSegmentHeight
      else if bar.nMeterCrestFactor = 120 then 20 * bar.nMainSegmentHeight
      else if bar.nMeterCrestFactor = 140 then 16 * bar.nMainSegmentHeight
      else 10 * bar.nMainSegmentHeight
    else 10 * bar.nMainSegmentHeight
  { y := state.y + segment_height
    nKmeterLevel := state.nKmeterLevel - nRange
    segments := state.segments ++
      [{ bounds := { x := placement.2.1, y := state.y, width := placement.1,
                     height := segment_height + 1 }
         segment_height := segment_height
         zone := placement.2.2 }] }

/-- The bounds that `MeterBar::visibilityChanged` sets: those of the bar itself and
those of each segment. -/
structure BarLayout where
  bounds : Bounds
  segments : List SegmentLayout

/-- The method `MeterBar::visibilityChanged ()`. -/
def visibilityChanged (bar : MeterBar) : BarLayout :=
  let width := bar.nWidth
  let height := 134 * bar.nMainSegmentHeight + 1
  let loop := (List.range bar.nNumberOfBars.toNat).foldl (layoutLoop bar)
    { y := 0, nKmeterLevel := bar.nMeterCrestFactor, segments := [] }
  { bounds := { x := bar.nPosX, y := bar.nPosY, width := width, height := height }
    segments := loop.segments }

/-- A list of segments tiles the levels from `top` down to `low`: each segment has a
positive range, its upper threshold is the lower threshold of the one before it (`top`
for the first), and `low` is the lower threshold of the last one. -/
def Tiled : Int → List SegmentArgs → Int → Prop
  | top, [], low => low = top
  | top, s :: rest, low =>
    0 < s.nRange ∧ s.nThreshold + s.nRange = top ∧ Tiled s.nThreshold rest low

/-- A list of laid-out segments is stacked from `top` down to `bottom`: each segment
starts where the one before it ended (at `top` for the first), its bounds are one pixel
higher than its `segment_height`, and `bottom` is where the last one ends. -/
def Stacked : Int → List SegmentLayout → Int → Prop
  | top, [], bottom => bottom = top
  | top, s :: rest, bottom =>
    s.bounds.y = top ∧ s.bounds.height = s.segment_height + 1 ∧
      Stacked (top + s.segment_height) rest bottom

/-! ## Binary32 arithmetic -/

/-- A finite binary32 number, `mantissa * 2 ^ exponent`.  The operations below return
it in canonical form: `2 ^ 23 ≤ |mantissa| < 2 ^ 24` with `exponent ≥ -149`, or
`|mantissa| < 2 ^ 23` with `exponent = -149` (zero and the denormal numbers).
Infinities, NaN and the sign of zero are not part of the model. -/
structure Binary32 where
  mantissa : Int
  exponent : Int
deriving DecidableEq

/-- The rational number that a binary32 number stands for. -/
def Binary32.toRat (x : Binary32) : ℚ :=
  x.mantissa * (2 : ℚ) ^ x.exponent

/-- The integer nearest to `n / d`, the even one of the two when `n / d` lies half way
between them (`d > 0`). -/
def roundHalfEven (n d : Nat) : Nat :=
  if 2 * (n % d) < d then n / d
  else if d < 2 * (n % d) then n / d + 1
  else if (n / d) % 2 = 0 then n / d
  else n / d + 1

/-- The number of binary digits of `n`: by halving at most `fuel` times. -/
def bitLength : Nat → Nat → Nat
  | 0, _ => 0
  | fuel + 1, n => if n = 0 then 0 else bitLength fuel (n / 2) + 1

/-- The exponent `e` with `2 ^ e ≤ p / q < 2 ^ (e + 1)`, for `p > 0` and `q > 0`. -/
def binade (p q : Nat) : Int :=
  if bitLength q q ≤ bitLength p p then
    if q * 2 ^ (bitLength p p - bitLength q q) ≤ p then
      ((bitLength p p - bitLength q q : Nat) : Int)
    else ((bitLength p p - bitLength q q : Nat) : Int) - 1
  else
    if q ≤ p * 2 ^ (bitLength q q - bitLength p p) then
      -((bitLength q q - bitLength p p : Nat) : Int)
    else -((bitLength q q - bitLength p p : Nat) : Int) - 1

/-- Rounding to binary32, to nearest and ties to even, of the number
`± (p / q) * 2 ^ k` (`q > 0`): 24 significant bits, and below `2 ^ -126` the fixed
spacing `2 ^ -149` of the denormal numbers.  Overflow to infinity is not modelled. -/
def roundBinary32 (negative : Bool) (p q : Nat) (k : Int) : Binary32 :=
  if p = 0 then { mantissa := 0, exponent := -149 }
  else
    let shift : Int := max (binade p q + k) (-126) - 23
    let n : Nat :=
      if shift ≤ k then roundHalfEven (p * 2 ^ (k - shift).toNat) q
      else roundHalfEven p (q * 2 ^ (shift - k).toNat)
    if n = 2 ^ 24 then
      { mantissa := if negative then -(2 ^ 23) else 2 ^ 23, exponent := shift + 1 }
    else { mantissa := if negative then -(n : Int) else (n : Int), exponent := shift }

/-- A decimal literal such as `0.0001f`: the binary32 number nearest to `p / q`. -/
def Binary32.literal (p q : Nat) : Binary32 :=
  roundBinary32 false p q 0

/-- The binary32 product. -/
def Binary32.mul (x y : Binary32) : Binary32 :=
  roundBinary32 (decide (x.mantissa * y.mantissa < 0)) (x.mantissa * y.mantissa).natAbs 1
    (x.exponent + y.exponent)

/-- The binary32 sum. -/
def Binary32.add (x y : Binary32) : Binary32 :=
  roundBinary32
    (decide (x.mantissa * 2 ^ (x.exponent - min x.exponent y.exponent).toNat +
      y.mantissa * 2 ^ (y.exponent - min x.exponent y.exponent).toNat < 0))
    (x.mantissa * 2 ^ (x.exponent - min x.exponent y.exponent).toNat +
      y.mantissa * 2 ^ (y.exponent - min x.exponent y.exponent).toNat).natAbs 1
    (min x.exponent y.exponent)

/-- The binary32 number `-x`. -/
def Binary32.neg (x : Binary32) : Binary32 :=
  { mantissa := -x.mantissa, exponent := x.exponent }

/-- The binary32 difference. -/
def Binary32.sub (x y : Binary32) : Binary32 :=
  x.add y.neg

/-- The binary32 quotient, for a divisor other than zero. -/
def Binary32.div (x y : Binary32) : Binary32 :=
  roundBinary32 (decide (x.mantissa * y.mantissa < 0)) x.mantissa.natAbs y.mantissa.natAbs
    (x.exponent - y.exponent)

/-- The comparison `x <= y` of two binary32 numbers. -/
def Binary32.le (x y : Binary32) : Bool :=
  decide (x.mantissa * 2 ^ (x.exponent - min x.exponent y.exponent).toNat ≤
    y.mantissa * 2 ^ (y.exponent - min x.exponent y.exponent).toNat)

/-- The comparison `x < y` of two binary32 numbers. -/
def Binary32.lt (x y : Binary32) : Bool :=
  decide (x.mantissa * 2 ^ (x.exponent - min x.exponent y.exponent).toNat <
    y.mantissa * 2 ^ (y.exponent - min x.exponent y.exponent).toNat)

/-- The greatest `root` below `2 ^ bits` with `root * root ≤ n`, on top of the bits
already set in `root`: the integer square root, one binary digit at a time. -/
def sqrtBits : Nat → Nat → Nat → Nat
  | 0, _, root => root
  | bit + 1, n, root =>
    if (root + 2 ^ bit) * (root + 2 ^ bit) ≤ n then sqrtBits bit n (root + 2 ^ bit)
    else sqrtBits bit n root

/-- The binary32 square root `sqrt (x)` of a positive number, correctly rounded.  With
`shift` the exponent of the last place of the result, `root` is the integer part of
`2 * sqrt (x) / 2 ^ shift`, so its last bit tells on which side of the half way point
the square root lies. -/
def Binary32.sqrt (x : Binary32) : Binary32 :=
  if x.mantissa ≤ 0 then { mantissa := 0, exponent := -149 }
  else
    let shift : Int := (binade x.mantissa.natAbs 1 + x.exponent) / 2 - 23
    let n : Nat :=
      if 0 ≤ x.exponent + 2 - 2 * shift then
        x.mantissa.natAbs * 2 ^ (x.exponent + 2 - 2 * shift).toNat
      else x.mantissa.natAbs / 2 ^ (2 * shift - 2 - x.exponent).toNat
    let root := sqrtBits 25 n 0
    let m : Nat :=
      if root % 2 = 0 then root / 2
      else if root * root = n ∧ 0 ≤ x.exponent + 2 - 2 * shift then
        if (root / 2) % 2 = 0 then root / 2 else root / 2 + 1
      else root / 2 + 1
    if m = 2 ^ 24 then { mantissa := 2 ^ 23, exponent := shift + 1 }
    else { mantissa := (m : Int), exponent := shift }

/-- The correlation loop of `processBufferChunk` in binary32: every product and every
sum is rounded. -/
def correlationSumsBinary32 (ring : RingBuffer Binary32) (uChunkSize uPreDelay : Nat) :
    CorrelationSums Binary32 :=
  (List.range uChunkSize).foldl
    (fun acc uSample =>
      let ringbuffer_left := ring.getSample 0 uSample uPreDelay
      let ringbuffer_right := ring.getSample 1 uSample uPreDelay
      { sum_of_product := acc.sum_of_product.add (ringbuffer_left.mul ringbuffer_right)
        sum_of_squares_left :=
          acc.sum_of_squares_left.add (ringbuffer_left.mul ringbuffer_left)
        sum_of_squares_right :=
          acc.sum_of_squares_right.add (ringbuffer_right.mul ringbuffer_right)
        reads := acc.reads ++ [(0, uSample, uPreDelay), (1, uSample, uPreDelay)] })
    { sum_of_product := Binary32.literal 0 1, sum_of_squares_left := Binary32.literal 0 1,
      sum_of_squares_right := Binary32.literal 0 1, reads := [] }

/-- The phase correlation block of `processBufferChunk` in binary32, the arithmetic of
its `float` variables: the same branches as `phaseCorrelation`, with the product of
the sums, the square root and the quotient rounded. -/
def phaseCorrelationBinary32 (bMono : Bool) (rms0 rms1 : Binary32)
    (ring : RingBuffer Binary32) (uChunkSize uPreDelay : Nat) : PhaseResult Binary32 :=
  if bMono then
    { fPhaseCorrelation := Binary32.literal 1 1, reads := [], rootOf := none }
  else if (Binary32.literal 1 10000).le rms0 ∨ (Binary32.literal 1 10000).le rms1 then
    let sums := correlationSumsBinary32 ring uChunkSize uPreDelay
    let fSumsOfSquares := sums.sum_of_squares_left.mul sums.sum_of_squares_right
    if (Binary32.literal 0 1).lt fSumsOfSquares then
      { fPhaseCorrelation := sums.sum_of_product.div fSumsOfSquares.sqrt
        reads := sums.reads
        rootOf := some fSumsOfSquares }
    else
      { fPhaseCorrelation := Binary32.literal 1 1, reads := sums.reads, rootOf := none }
  else
    { fPhaseCorrelation := Binary32.literal 1 1, reads := [], rootOf := none }

/-- The stereo meter block of `processBufferChunk` in binary32: the same branches as
`stereoMeter`, with the quotient and the difference rounded. -/
def stereoMeterBinary32 (rms0 rms1 : Binary32) : StereoResult Binary32 :=
  if rms0.lt (Binary32.literal 1 10000) ∧ rms1.lt (Binary32.literal 1 10000) then
    { fStereoMeterValue := Binary32.literal 0 1, division := none }
  else if rms0.le rms1 then
    { fStereoMeterValue := (Binary32.literal 1 1).sub (rms0.div rms1)
      division := some (rms0, rms1) }
  else
    { fStereoMeterValue := (rms1.div rms0).sub (Binary32.literal 1 1)
      division := some (rms1, rms0) }

/-- A ring buffer whose chunk of 1024 samples is silent but for one click: the left
sample `0.3f` and the right sample `-0.03f` at index 0.  The magnitudes are `0.3f`
and `0.03f`, the RMS levels `0.3f / 32 = 0.009375f` and `0.03f / 32 = 0.0009375f`. -/
def clickRing : RingBuffer Binary32 :=
  { getSample := fun channel index _ =>
      if index = 0 then
        if channel = 0 then Binary32.literal 3 10
        else (Binary32.literal 3 100).neg
      else Binary32.literal 0 1
    getMagnitude := fun channel _ _ =>
      if channel = 0 then Binary32.literal 3 10 else Binary32.literal 3 100
    getRMSLevel := fun channel _ _ =>
      if channel = 0 then Binary32.literal 3 320 else Binary32.literal 3 3200 }

/-! ## The stereo meter value -/

section Stereo

variable [LinearOrderedField α]

/-- The stereo meter block when both RMS levels are below the floor. -/
theorem stereoMeter_forced (rms0 rms1 : α) (h : rms0 < 0.0001 ∧ rms1 < 0.0001) :
    stereoMeter rms0 rms1 = { fStereoMeterValue := 0, division := none } := by
  simp [stereoMeter, h]

/-- The stereo meter block when the right level is at least the left level. -/
theorem stereoMeter_right (rms0 rms1 : α) (h : ¬ (rms0 < 0.0001 ∧ rms1 < 0.0001))
    (hge : rms1 ≥ rms0) :
    stereoMeter rms0 rms1 =
      { fStereoMeterValue := 1 - rms0 / rms1, division := some (rms0, rms1) } := by
  simp [stereoMeter, h, hge]

/-- The stereo meter block when the left level is the larger one. -/
theorem stereoMeter_left (rms0 rms1 : α) (h : ¬ (rms0 < 0.0001 ∧ rms1 < 0.0001))
    (hlt : ¬ rms1 ≥ rms0) :
    stereoMeter rms0 rms1 =
      { fStereoMeterValue := rms1 / rms0 - 1, division := some (rms1, rms0) } := by
  simp [stereoMeter, h, hlt]

/-- When the right level is the larger one and not both levels are below the floor,
the divisor `rms1` is at least `0.0001`. -/
theorem floor_le_right (rms0 rms1 : α) (h : ¬ (rms0 < 0.0001 ∧ rms1 < 0.0001))
    (hge : rms1 ≥ rms0) : (0.0001 : α) ≤ rms1 := by
  by_contra hlt
  push_neg at hlt
  exact h ⟨lt_of_le_of_lt hge hlt, hlt⟩

/-- When the left level is the larger one and not both levels are below the floor,
the divisor `rms0` is at least `0.0001`. -/
theorem floor_le_left (rms0 rms1 : α) (h : ¬ (rms0 < 0.0001 ∧ rms1 < 0.0001))
    (hlt : ¬ rms1 ≥ rms0) : (0.0001 : α) ≤ rms0 := by
  by_contra hlt0
  push_neg at hlt hlt0
  exact h ⟨hlt0, lt_trans hlt hlt0⟩

/-- The floor `0.0001` is positive. -/
theorem floor_pos : (0 : α) < 0.0001 := by norm_num

/-- Claim C4 fails as stated: for left level `1` and right level `1/2` the balance is
not forced to `0` and the right level is not the larger one, yet the value is
`1/2 / 1 - 1 = -1/2`, not `1 / (1/2) - 1 = 1`. -/
theorem stereoMeter_left_quotient_counterexample :
    ¬ ((1 : ℚ) < 0.0001 ∧ (1 / 2 : ℚ) < 0.0001) ∧ ¬ ((1 / 2 : ℚ) ≥ 1) ∧
      (stereoMeter (1 : ℚ) (1 / 2)).fStereoMeterValue = -1 / 2 ∧
      (stereoMeter (1 : ℚ) (1 / 2)).fStereoMeterValue ≠ (1 : ℚ) / (1 / 2) - 1 := by
  norm_num [stereoMeter]

/-- Claim C4, amended: whenever the balance is not forced to `0` (not both RMS levels
are below `0.0001`), the raw stereo balance is `1 - Lrms / Rrms` when `Rrms ≥ Lrms`
and `Rrms / Lrms - 1` otherwise. -/
theorem stereoMeter_value_formula (rms0 rms1 : α)
    (h : ¬ (rms0 < 0.0001 ∧ rms1 < 0.0001)) :
    (stereoMeter rms0 rms1).fStereoMeterValue =
      if rms1 ≥ rms0 then 1 - rms0 / rms1 else rms1 / rms0 - 1 := by
  by_cases hge : rms1 ≥ rms0
  · rw [stereoMeter_right rms0 rms1 h hge, if_pos hge]
  · rw [stereoMeter_left rms0 rms1 h hge, if_neg hge]

/-- Claim C4, amended, at left level `1` and right level `1/2`. -/
theorem stereoMeter_value_formula_witness :
    ¬ ((1 : ℚ) < 0.0001 ∧ (1 / 2 : ℚ) < 0.0001) ∧
      (stereoMeter (1 : ℚ) (1 / 2)).fStereoMeterValue =
        if (1 / 2 : ℚ) ≥ 1 then 1 - 1 / (1 / 2) else (1 / 2) / 1 - 1 :=
  ⟨by norm_num, stereoMeter_value_formula (1 : ℚ) (1 / 2) (by norm_num)⟩

/-- Claim C5 fails as stated: the non-negative levels `0.00005` (left) and `0` (right)
have `Lrms > Rrms`, but both are below the floor, so the balance is `0`, which is
not negative. -/
theorem stereoMeter_negative_counterexample :
    (0 : ℚ) ≤ 0.00005 ∧ (0 : ℚ) ≤ 0 ∧ (0.00005 : ℚ) > 0 ∧
      ¬ ((stereoMeter (0.00005 : ℚ) 0).fStereoMeterValue < 0) := by
  norm_num [stereoMeter]

/-- Claim C5, amended: for every pair of non-negative RMS levels the raw stereo
balance lies in `[-1, 1]`, is non-negative when `Rrms ≥ Lrms`, is non-positive when
`Lrms > Rrms` and negative when moreover `Lrms ≥ 0.0001` (when both levels are below
`0.0001` it is `0`), and the division it performs has a divisor of at least
`0.0001`, hence not zero. -/
theorem stereoMeter_range_sign_divisor (rms0 rms1 : α) (h0 : 0 ≤ rms0) (h1 : 0 ≤ rms1) :
    (-1 ≤ (stereoMeter rms0 rms1).fStereoMeterValue ∧
        (stereoMeter rms0 rms1).fStereoMeterValue ≤ 1) ∧
      (rms1 ≥ rms0 → 0 ≤ (stereoMeter rms0 rms1).fStereoMeterValue) ∧
      (rms0 > rms1 → (stereoMeter rms0 rms1).fStereoMeterValue ≤ 0) ∧
      (rms0 > rms1 → rms0 ≥ 0.0001 → (stereoMeter rms0 rms1).fStereoMeterValue < 0) ∧
      (∀ dividend divisor, (stereoMeter rms0 rms1).division = some (dividend, divisor) →
        divisor ≥ 0.0001 ∧ divisor ≠ 0) := by
  by_cases h : rms0 < 0.0001 ∧ rms1 < 0.0001
  · rw [stereoMeter_forced rms0 rms1 h]
    refine ⟨⟨by norm_num, by norm_num⟩, fun _ => le_refl _, fun _ => le_refl _, ?_, ?_⟩
    · intro _ hfloor
      exact absurd h.1 (not_lt.mpr hfloor)
    · intro dividend divisor hd
      simp at hd
  · by_cases hge : rms1 ≥ rms0
    · have hfloor := floor_le_right rms0 rms1 h hge
      have hpos : (0 : α) < rms1 := lt_of_lt_of_le floor_pos hfloor
      have hq0 : 0 ≤ rms0 / rms1 := div_nonneg h0 h1
      have hq1 : rms0 / rms1 ≤ 1 := (div_le_one hpos).mpr hge
      rw [stereoMeter_right rms0 rms1 h hge]
      refine ⟨⟨by simp only; linarith, by simp only; linarith⟩,
        fun _ => by simp only; linarith, fun hgt => absurd hge (not_le.mpr hgt),
        fun hgt _ => absurd hge (not_le.mpr hgt), ?_⟩
      intro dividend divisor hd
      simp only [Option.some.injEq, Prod.mk.injEq] at hd
      rw [← hd.2]
      exact ⟨hfloor, ne_of_gt hpos⟩
    · have hfloor := floor_le_left rms0 rms1 h hge
      have hpos : (0 : α) < rms0 := lt_of_lt_of_le floor_pos hfloor
      have hlt : rms1 < rms0 := not_le.mp hge
      have hq0 : 0 ≤ rms1 / rms0 := div_nonneg h1 h0
      have hq1 : rms1 / rms0 < 1 := (div_lt_one hpos).mpr hlt
      rw [stereoMeter_left rms0 rms1 h hge]
      refine ⟨⟨by simp only; linarith, by simp only; linarith⟩,
        fun hge2 => absurd hge2 hge, fun _ => by simp only; linarith,
        fun _ _ => by simp only; linarith, ?_⟩
      intro dividend divisor hd
      simp only [Option.some.injEq, Prod.mk.injEq] at hd
      rw [← hd.2]
      exact ⟨hfloor, ne_of_gt hpos⟩

/-- Claim C5, amended, at left level `1` and right level `1/2`. -/
theorem stereoMeter_range_sign_divisor_witness :
    (0 : ℚ) ≤ 1 ∧ (0 : ℚ) ≤ 1 / 2 ∧
      (-1 ≤ (stereoMeter (1 : ℚ) (1 / 2)).fStereoMeterValue ∧
        (stereoMeter (1 : ℚ) (1 / 2)).fStereoMeterValue ≤ 1) ∧
      (stereoMeter (1 : ℚ) (1 / 2)).fStereoMeterValue < 0 ∧
      ((1 : ℚ) ≥ 0.0001 ∧ (1 : ℚ) ≠ 0) :=
  ⟨by norm_num, by norm_num,
    (stereoMeter_range_sign_divisor (1 : ℚ) (1 / 2) (by norm_num) (by norm_num)).1,
    (stereoMeter_range_sign_divisor (1 : ℚ) (1 / 2) (by norm_num) (by norm_num)).2.2.2.1
      (by norm_num) (by norm_num),
    (stereoMeter_range_sign_divisor (1 : ℚ) (1 / 2) (by norm_num) (by norm_num)).2.2.2.2
      (1 / 2) 1 (by norm_num [stereoMeter])⟩

/-- Claim C6 fails as stated: with the left level `0.00005` below the floor and the
right level `1`, the balance is `1 - 0.00005 / 1 = 0.99995`, not `0`. -/
theorem stereoMeter_either_below_counterexample :
    (0.00005 : ℚ) < 0.0001 ∧
      (stereoMeter (0.00005 : ℚ) 1).fStereoMeterValue = 0.99995 ∧
      (stereoMeter (0.00005 : ℚ) 1).fStereoMeterValue ≠ 0 := by
  norm_num [stereoMeter]

/-- Claim C6, amended: the raw stereo balance is `0` whenever both channels' RMS
levels are below the floor `0.0001`. -/
theorem stereoMeter_both_below (rms0 rms1 : α) (h0 : rms0 < 0.0001) (h1 : rms1 < 0.0001) :
    (stereoMeter rms0 rms1).fStereoMeterValue = 0 := by
  rw [stereoMeter_forced rms0 rms1 ⟨h0, h1⟩]

/-- Claim C6, amended, at left level `0.00005` and right level `0`. -/
theorem stereoMeter_both_below_witness :
    (0.00005 : ℚ) < 0.0001 ∧ (0 : ℚ) < 0.0001 ∧
      (stereoMeter (0.00005 : ℚ) 0).fStereoMeterValue = 0 :=
  ⟨by norm_num, by norm_num,
    stereoMeter_both_below (0.00005 : ℚ) 0 (by norm_num) (by norm_num)⟩

/-- Claim C8, amended: when the quotient and the difference of the block are taken in
exact arithmetic, then for every pair of strictly positive RMS levels the raw stereo
balance is strictly between `-1` and `1`, and the values `-1` and `1` are produced
only when one of the two RMS levels is exactly `0`. -/
theorem stereoMeter_strict_range (rms0 rms1 : α) :
    (0 < rms0 → 0 < rms1 →
        -1 < (stereoMeter rms0 rms1).fStereoMeterValue ∧
          (stereoMeter rms0 rms1).fStereoMeterValue < 1) ∧
      ((stereoMeter rms0 rms1).fStereoMeterValue = -1 ∨
          (stereoMeter rms0 rms1).fStereoMeterValue = 1 → rms0 = 0 ∨ rms1 = 0) := by
  by_cases h : rms0 < 0.0001 ∧ rms1 < 0.0001
  · rw [stereoMeter_forced rms0 rms1 h]
    refine ⟨fun _ _ => ⟨by norm_num, by norm_num⟩, ?_⟩
    intro hv
    rcases hv with hv | hv
    · norm_num at hv
    · norm_num at hv
  · by_cases hge : rms1 ≥ rms0
    · have hfloor := floor_le_right rms0 rms1 h hge
      have hpos : (0 : α) < rms1 := lt_of_lt_of_le floor_pos hfloor
      have hq1 : rms0 / rms1 ≤ 1 := (div_le_one hpos).mpr hge
      rw [stereoMeter_right rms0 rms1 h hge]
      refine ⟨fun hp0 _ => ?_, ?_⟩
      · have hq0 : 0 < rms0 / rms1 := div_pos hp0 hpos
        exact ⟨by simp only; linarith, by simp only; linarith⟩
      · intro hv
        simp only at hv
        rcases hv with hv | hv
        · exfalso; linarith
        · have hq : rms0 / rms1 = 0 := by linarith
          rcases div_eq_zero_iff.mp hq with hz | hz
          · exact Or.inl hz
          · exact Or.inr hz
    · have hfloor := floor_le_left rms0 rms1 h hge
      have hpos : (0 : α) < rms0 := lt_of_lt_of_le floor_pos hfloor
      have hlt : rms1 < rms0 := not_le.mp hge
      have hq1 : rms1 / rms0 < 1 := (div_lt_one hpos).mpr hlt
      rw [stereoMeter_left rms0 rms1 h hge]
      refine ⟨fun _ hp1 => ?_, ?_⟩
      · have hq0 : 0 < rms1 / rms0 := div_pos hp1 hpos
        exact ⟨by simp only; linarith, by simp only; linarith⟩
      · intro hv
        simp only at hv
        rcases hv with hv | hv
        · have hq : rms1 / rms0 = 0 := by linarith
          rcases div_eq_zero_iff.mp hq with hz | hz
          · exact Or.inr hz
          · exact Or.inl hz
        · exfalso; linarith

/-- Claim C8, amended, at the levels `(1, 2)`, and at `(0, 1)` where the value `1` is
reached. -/
theorem stereoMeter_strict_range_witness :
    ((0 : ℚ) < 1 ∧ (0 : ℚ) < 2 ∧
        -1 < (stereoMeter (1 : ℚ) 2).fStereoMeterValue ∧
          (stereoMeter (1 : ℚ) 2).fStereoMeterValue < 1) ∧
      ((stereoMeter (0 : ℚ) 1).fStereoMeterValue = 1 ∧ ((0 : ℚ) = 0 ∨ (1 : ℚ) = 0)) :=
  ⟨⟨by norm_num, by norm_num,
      (stereoMeter_strict_range (1 : ℚ) 2).1 (by norm_num) (by norm_num)⟩,
    by norm_num [stereoMeter],
    (stereoMeter_strict_range (0 : ℚ) 1).2 (Or.inr (by norm_num [stereoMeter]))⟩

end Stereo

/-! ## `countOverflows` as a count -/

section Count
variable [LinearOrderedField α]

/-- One more iteration of the loop of `countOverflows`. -/
theorem countOverflows_succ (ring : RingBuffer α) (channel length pre_delay : Nat) :
    countOverflows ring channel (length + 1) pre_delay =
      if ring.getSample channel length pre_delay < -0.9999 ∨
          ring.getSample channel length pre_delay > 0.9999 then
        countOverflows ring channel length pre_delay + 1
      else countOverflows ring channel length pre_delay := by
  simp only [countOverflows, List.range_succ, List.foldl_append, List.foldl_cons, List.foldl_nil]

/-- The loop of `countOverflows` counts the samples below `-0.9999` or above `0.9999`. -/
theorem countOverflows_eq_card (ring : RingBuffer α) (channel length pre_delay : Nat) :
    countOverflows ring channel length pre_delay =
      (((Finset.range length).filter (fun i =>
        ring.getSample channel i pre_delay < -0.9999 ∨
          ring.getSample channel i pre_delay > 0.9999)).card : Int) := by
  induction length with
  | zero => simp [countOverflows]
  | succ n ih =>
    rw [countOverflows_succ, ih, Finset.range_succ, Finset.filter_insert]
    by_cases h : ring.getSample channel n pre_delay < -0.9999 ∨
        ring.getSample channel n pre_delay > 0.9999
    · rw [if_pos h, if_pos h, Finset.card_insert_of_not_mem (by simp)]
      push_cast
      rfl
    · rw [if_neg h, if_neg h]

/-- The result of `countOverflows` lies between `0` and `length`. -/
theorem countOverflows_bounds (ring : RingBuffer α) (channel length pre_delay : Nat) :
    0 ≤ countOverflows ring channel length pre_delay ∧
      countOverflows ring channel length pre_delay ≤ (length : Int) := by
  rw [countOverflows_eq_card]
  refine ⟨Int.natCast_nonneg _, ?_⟩
  have h := Finset.card_filter_le (Finset.range length) (fun i =>
    ring.getSample channel i pre_delay < -0.9999 ∨ ring.getSample channel i pre_delay > 0.9999)
  rw [Finset.card_range] at h
  exact_mod_cast h

/-- Claim C2 fails as stated: a one-sample window holding exactly `0.9999` has one
sample of magnitude greater than or equal to `0.9999`, but `countOverflows` returns
`0`, because it compares strictly. -/
theorem countOverflows_counterexample :
    countOverflows (constantRing (0.9999 : ℚ)) 0 1 0 = 0 ∧
      ((Finset.range 1).filter (fun i =>
        |(constantRing (0.9999 : ℚ)).getSample 0 i 0| ≥ 0.9999)).card = 1 := by
  constructor
  · norm_num [countOverflows, constantRing]
  · have habs : |(0.9999 : ℚ)| = 0.9999 := abs_of_pos (by norm_num)
    simp [constantRing, habs]

/-- Claim C2, amended: for every ring buffer content, channel, length and pre-delay,
`countOverflows` returns the number of indices `i` in `[0, length)` whose sample
`getSample (channel, i, pre_delay)` has magnitude strictly greater than `0.9999`. -/
theorem countOverflows_strict (ring : RingBuffer α) (channel length pre_delay : Nat) :
    countOverflows ring channel length pre_delay =
      (((Finset.range length).filter (fun i =>
        |ring.getSample channel i pre_delay| > 0.9999)).card : Int) := by
  rw [countOverflows_eq_card]
  congr 2
  apply Finset.filter_congr
  intro i _
  constructor
  · rintro (h | h)
    · exact lt_abs.mpr (Or.inr (by linarith))
    · exact lt_abs.mpr (Or.inl h)
  · intro h
    rcases lt_abs.mp h with h | h
    · exact Or.inr h
    · exact Or.inl (by linarith)
end Count

/-! ## The correlation sums -/

section Corr
variable [LinearOrderedField α]
/-- One more iteration of the correlation loop. -/
theorem correlationSums_succ (ring : RingBuffer α) (n pre : Nat) :
    correlationSums ring (n + 1) pre =
      { sum_of_product := (correlationSums ring n pre).sum_of_product +
          ring.getSample 0 n pre * ring.getSample 1 n pre
        sum_of_squares_left := (correlationSums ring n pre).sum_of_squares_left +
          ring.getSample 0 n pre * ring.getSample 0 n pre
        sum_of_squares_right := (correlationSums ring n pre).sum_of_squares_right +
          ring.getSample 1 n pre * ring.getSample 1 n pre
        reads := (correlationSums ring n pre).reads ++ [(0, n, pre), (1, n, pre)] } := by
  simp only [correlationSums, List.range_succ, List.foldl_append, List.foldl_cons, List.foldl_nil]

/-- The accumulators of the correlation loop are the sums over the chunk window. -/
theorem correlationSums_eq_sum (ring : RingBuffer α) (n pre : Nat) :
    (correlationSums ring n pre).sum_of_product =
        ∑ i in Finset.range n, ring.getSample 0 i pre * ring.getSample 1 i pre ∧
      (correlationSums ring n pre).sum_of_squares_left =
        ∑ i in Finset.range n, ring.getSample 0 i pre * ring.getSample 0 i pre ∧
      (correlationSums ring n pre).sum_of_squares_right =
        ∑ i in Finset.range n, ring.getSample 1 i pre * ring.getSample 1 i pre := by
  induction n with
  | zero => simp [correlationSums]
  | succ n ih =>
    rw [correlationSums_succ]
    simp only [Finset.sum_range_succ, ih.1, ih.2.1, ih.2.2, and_self]
end Corr

/-- Cauchy-Schwarz: the quotient of the correlation block lies in `[-1, 1]`. -/
theorem phaseCorrelation_quotient_range (ring : RingBuffer ℝ) (n pre : Nat)
    (hpos : (correlationSums ring n pre).sum_of_squares_left *
      (correlationSums ring n pre).sum_of_squares_right > 0) :
    -1 ≤ (correlationSums ring n pre).sum_of_product /
        Real.sqrt ((correlationSums ring n pre).sum_of_squares_left *
          (correlationSums ring n pre).sum_of_squares_right) ∧
      (correlationSums ring n pre).sum_of_product /
        Real.sqrt ((correlationSums ring n pre).sum_of_squares_left *
          (correlationSums ring n pre).sum_of_squares_right) ≤ 1 := by
  obtain ⟨hp, hl, hr⟩ := correlationSums_eq_sum ring n pre
  have hcs : (correlationSums ring n pre).sum_of_product ^ 2 ≤
      (correlationSums ring n pre).sum_of_squares_left *
        (correlationSums ring n pre).sum_of_squares_right := by
    rw [hp, hl, hr]
    have := Finset.sum_mul_sq_le_sq_mul_sq (Finset.range n)
      (fun i => ring.getSample 0 i pre) (fun i => ring.getSample 1 i pre)
    simpa [sq] using this
  have habs := Real.abs_le_sqrt hcs
  have hsq : 0 < Real.sqrt ((correlationSums ring n pre).sum_of_squares_left *
      (correlationSums ring n pre).sum_of_squares_right) := Real.sqrt_pos.mpr hpos
  rw [abs_le] at habs
  constructor
  · rw [le_div_iff₀ hsq]; linarith [habs.1]
  · rw [div_le_iff₀ hsq]; linarith [habs.2]

/-- The phase correlation block yields a value in `[-1, 1]` on the reals. -/
theorem phaseCorrelation_block_range (bMono : Bool) (rms0 rms1 : ℝ) (ring : RingBuffer ℝ)
    (n pre : Nat) :
    -1 ≤ (phaseCorrelation Real.sqrt bMono rms0 rms1 ring n pre).fPhaseCorrelation ∧
      (phaseCorrelation Real.sqrt bMono rms0 rms1 ring n pre).fPhaseCorrelation ≤ 1 := by
  simp only [phaseCorrelation]
  split_ifs with h1 h2 h3
  · norm_num
  · exact phaseCorrelation_quotient_range ring n pre h3
  · norm_num
  · norm_num


/-! ## The level arrays and the channel loop -/

/-- After setting entry `i` of an array of at least `i` entries, entry `i` exists. -/
theorem arraySet_length_gt (arr : List α) (i : Nat) (v : α) (h : i ≤ arr.length) :
    i + 1 ≤ (arraySet arr i v).length := by
  unfold arraySet
  split_ifs with hlt
  · simpa using hlt
  · simp; omega

section Arrays
variable [Zero α]

/-- Reading back the entry just set, for an index not beyond the end of the array. -/
theorem arrayGet_arraySet_self (arr : List α) (i : Nat) (v : α) (h : i ≤ arr.length) :
    arrayGet (arraySet arr i v) i = v := by
  unfold arrayGet arraySet
  split_ifs with hlt
  · simp [List.getD_eq_getElem?_getD, List.getElem?_set, hlt]
  · have hi : i = arr.length := le_antisymm h (not_lt.mp hlt)
    subst hi
    simp [List.getD_eq_getElem?_getD]

/-- Setting an entry leaves the entries before it unchanged. -/
theorem arrayGet_arraySet_of_lt (arr : List α) (i j : Nat) (v : α) (hj : j < i)
    (h : i ≤ arr.length) : arrayGet (arraySet arr i v) j = arrayGet arr j := by
  unfold arrayGet arraySet
  have hjl : j < arr.length := lt_of_lt_of_le hj h
  split_ifs with hlt
  · simp [List.getD_eq_getElem?_getD, List.getElem?_set, Nat.ne_of_gt hj]
  · simp [List.getD_eq_getElem?_getD, List.getElem?_append_left hjl]

/-- Setting entry `k` extends an array filled up to `k`. -/
theorem filled_step {arr : List α} {k : Nat} {f : Nat → α} (hf : Filled arr k f) (v : α)
    (hv : v = f k) : Filled (arraySet arr k v) (k + 1) f := by
  refine ⟨arraySet_length_gt arr k v hf.1, ?_⟩
  intro j hj
  rcases Nat.lt_succ_iff_lt_or_eq.mp hj with hlt | heq
  · rw [arrayGet_arraySet_of_lt arr k j v hlt hf.1]
    exact hf.2 j hlt
  · subst heq
    rw [arrayGet_arraySet_self arr j v hf.1, hv]

/-- Every array is filled up to `0`. -/
theorem filled_zero (arr : List α) (f : Nat → α) : Filled arr 0 f :=
  ⟨Nat.zero_le _, fun j hj => absurd hj (Nat.not_lt_zero j)⟩

end Arrays

section Loop
variable [LinearOrderedField α]

/-- Channel 0 is always measured. -/
theorem sourceChannel_zero (bMono : Bool) : sourceChannel bMono 0 = 0 := by
  simp [sourceChannel]

/-- Channel 1 of a signal mixed down to mono takes the levels of channel 0. -/
theorem sourceChannel_copy (bMono : Bool) (k : Nat) (h : bMono = true ∧ k = 1) :
    sourceChannel bMono k = 0 := by
  simp [sourceChannel, h.1, h.2]

/-- Every other channel is measured itself. -/
theorem sourceChannel_measured (bMono : Bool) (k : Nat) (h : ¬ (bMono = true ∧ k = 1)) :
    sourceChannel bMono k = k := by
  unfold sourceChannel
  rw [if_neg h]

/-- One iteration of the channel loop preserves the loop invariant. -/
theorem channelInv_step (components : Components α) (bMono : Bool)
    (uChunkSize uPreDelay : Nat) (p : Processor α) (k : Nat) (s : ChunkState α)
    (h : ChannelInv components bMono uChunkSize uPreDelay p k s) :
    ChannelInv components bMono uChunkSize uPreDelay p (k + 1)
      (processChannel components bMono uChunkSize uPreDelay s k) := by
  obtain ⟨hcalls, hring, htime, hst, hpk, htp, hrms, havg, hov⟩ := h
  by_cases hm : bMono = true ∧ k = 1
  · have hk : 0 < k := by omega
    have hsrc := sourceChannel_copy bMono k hm
    have e1 := filled_step hpk (arrayGet s.processor.arrPeakLevels 0)
      (by rw [hpk.2 0 hk]; simp only [hsrc, sourceChannel_zero])
    have e2 := filled_step htp (arrayGet s.processor.arrTruePeakLevels 0)
      (by rw [htp.2 0 hk]; simp only [hsrc, sourceChannel_zero])
    have e3 := filled_step hrms (arrayGet s.processor.arrRmsLevels 0)
      (by rw [hrms.2 0 hk]; simp only [hsrc, sourceChannel_zero])
    have e4 := filled_step havg (arrayGet s.processor.arrAverageLevelsFiltered 0)
      (by rw [havg.2 0 hk]; simp only [hsrc, sourceChannel_zero])
    have e5 := filled_step hov (arrayGet s.processor.arrOverflows 0)
      (by rw [hov.2 0 hk]; simp only [hsrc, sourceChannel_zero])
    simp only [processChannel, if_pos hm]
    refine ⟨?_, hring, htime, hst, e1, e2, e3, e4, e5⟩
    rw [hcalls, List.range_succ, List.map_append, List.map_singleton, expectedCall,
      e1.2 k (Nat.lt_succ_self k), e2.2 k (Nat.lt_succ_self k), e3.2 k (Nat.lt_succ_self k),
      e4.2 k (Nat.lt_succ_self k), e5.2 k (Nat.lt_succ_self k), htime]
  · have hsrc := sourceChannel_measured bMono k hm
    have e1 := filled_step hpk (s.processor.pRingBufferInput.getMagnitude k uChunkSize uPreDelay)
      (by simp only [hsrc, hring])
    have e2 := filled_step htp (components.truePeakLevel s.processor.pRingBufferInput uPreDelay k)
      (by simp only [hsrc, hring])
    have e3 := filled_step hrms (s.processor.pRingBufferInput.getRMSLevel k uChunkSize uPreDelay)
      (by simp only [hsrc, hring])
    have e4 := filled_step havg (components.averageLevel s.processor.pRingBufferInput 0 k)
      (by simp only [hsrc, hring])
    have e5 := filled_step hov (countOverflows s.processor.pRingBufferInput k uChunkSize uPreDelay)
      (by simp only [hsrc, hring])
    simp only [processChannel, if_neg hm]
    refine ⟨?_, hring, htime, hst, e1, e2, e3, e4, e5⟩
    rw [hcalls, List.range_succ, List.map_append, List.map_singleton, expectedCall,
      e1.2 k (Nat.lt_succ_self k), e2.2 k (Nat.lt_succ_self k), e3.2 k (Nat.lt_succ_self k),
      e4.2 k (Nat.lt_succ_self k), e5.2 k (Nat.lt_succ_self k), htime]

/-- The loop invariant holds after the channel loop. -/
theorem channelLoop_inv (components : Components α) (bMono : Bool)
    (uChunkSize uPreDelay : Nat) (p : Processor α) (n : Nat) :
    ChannelInv components bMono uChunkSize uPreDelay p n
      (channelLoop components bMono uChunkSize uPreDelay p n) := by
  unfold channelLoop
  induction n with
  | zero =>
    exact ⟨by simp, rfl, rfl, rfl, filled_zero _ _, filled_zero _ _, filled_zero _ _,
      filled_zero _ _, filled_zero _ _⟩
  | succ n ih =>
    rw [List.range_succ, List.foldl_append, List.foldl_cons, List.foldl_nil]
    exact channelInv_step components bMono uChunkSize uPreDelay p n _ ih

end Loop

/-! ## `processBufferChunk` : the calls made on the meter ballistics -/

section Chunk

variable [LinearOrderedField α]

/-- The state of the channel loop inside `processBufferChunk`. -/
theorem processBufferChunk_inv (sqrt : α → α) (components : Components α) (p : Processor α)
    (uChunkSize : Nat) :
    ChannelInv components p.selMono uChunkSize (uChunkSize / 2)
      (chunkStart components p uChunkSize) p.numInputChannels
      { processor := (processBufferChunk sqrt components p uChunkSize).processor
        calls := (List.range p.numInputChannels).map
          (expectedCall components p.selMono uChunkSize (uChunkSize / 2)
            (inputRing components p) ((uChunkSize : α) / p.sampleRate)) } := by
  have h := channelLoop_inv components p.selMono uChunkSize (uChunkSize / 2)
    (chunkStart components p uChunkSize) p.numInputChannels
  have hp : (processBufferChunk sqrt components p uChunkSize).processor =
      (channelLoop components p.selMono uChunkSize (uChunkSize / 2)
        (chunkStart components p uChunkSize) p.numInputChannels).processor := by
    simp only [processBufferChunk]
    split_ifs <;> rfl
  rw [hp]
  exact ⟨rfl, h.2⟩

/-- The calls of `processBufferChunk`: one `updateChannel` per channel, followed for a
stereo signal by `setPhaseCorrelation` and `setStereoMeterValue`. -/
theorem processBufferChunk_calls (sqrt : α → α) (components : Components α)
    (p : Processor α) (uChunkSize : Nat) :
    (processBufferChunk sqrt components p uChunkSize).calls =
      (List.range p.numInputChannels).map
          (expectedCall components p.selMono uChunkSize (uChunkSize / 2)
            (inputRing components p) ((uChunkSize : α) / p.sampleRate)) ++
        if p.isStereo = true then
          [BallisticsCall.setPhaseCorrelation ((uChunkSize : α) / p.sampleRate)
              (phaseCorrelation sqrt p.selMono
                (arrayGet (processBufferChunk sqrt components p uChunkSize).processor.arrRmsLevels 0)
                (arrayGet (processBufferChunk sqrt components p uChunkSize).processor.arrRmsLevels 1)
                (inputRing components p) uChunkSize (uChunkSize / 2)).fPhaseCorrelation,
            BallisticsCall.setStereoMeterValue ((uChunkSize : α) / p.sampleRate)
              (stereoMeter
                (arrayGet (processBufferChunk sqrt components p uChunkSize).processor.arrRmsLevels 0)
                (arrayGet (processBufferChunk sqrt components p uChunkSize).processor.arrRmsLevels 1)).fStereoMeterValue]
        else [] := by
  obtain ⟨hcalls, hring, htime, hst, _⟩ :=
    channelLoop_inv components p.selMono uChunkSize (uChunkSize / 2)
      (chunkStart components p uChunkSize) p.numInputChannels
  simp only [processBufferChunk]
  generalize channelLoop components p.selMono uChunkSize (uChunkSize / 2)
    (chunkStart components p uChunkSize) p.numInputChannels = st at hcalls hring htime hst ⊢
  have hst2 : st.processor.isStereo = p.isStereo := hst
  have hring2 : st.processor.pRingBufferInput = inputRing components p := hring
  have htime2 : st.processor.fProcessedSeconds = (uChunkSize : α) / p.sampleRate := htime
  have hcalls2 : st.calls = (List.range p.numInputChannels).map
      (expectedCall components p.selMono uChunkSize (uChunkSize / 2)
        (inputRing components p) ((uChunkSize : α) / p.sampleRate)) := hcalls
  rw [hst2]
  by_cases hs : p.isStereo = true
  · simp only [hs, if_true, hring2, htime2, hcalls2]
  · simp only [hs, if_false, hcalls2, List.append_nil]
    simp

/-- The samples read by the correlation loop of `processBufferChunk`. -/
theorem processBufferChunk_reads (sqrt : α → α) (components : Components α)
    (p : Processor α) (uChunkSize : Nat) :
    (processBufferChunk sqrt components p uChunkSize).correlationReads =
      if p.isStereo = true then
        (phaseCorrelation sqrt p.selMono
          (arrayGet (processBufferChunk sqrt components p uChunkSize).processor.arrRmsLevels 0)
          (arrayGet (processBufferChunk sqrt components p uChunkSize).processor.arrRmsLevels 1)
          (inputRing components p) uChunkSize (uChunkSize / 2)).reads
      else [] := by
  obtain ⟨_, hring, _, hst, _⟩ :=
    channelLoop_inv components p.selMono uChunkSize (uChunkSize / 2)
      (chunkStart components p uChunkSize) p.numInputChannels
  simp only [processBufferChunk]
  generalize channelLoop components p.selMono uChunkSize (uChunkSize / 2)
    (chunkStart components p uChunkSize) p.numInputChannels = st at hring hst ⊢
  have hst2 : st.processor.isStereo = p.isStereo := hst
  have hring2 : st.processor.pRingBufferInput = inputRing components p := hring
  rw [hst2]
  by_cases hs : p.isStereo = true
  · simp only [hs, if_true, hring2]
  · simp only [hs, if_false]
    simp

/-- The `setPhaseCorrelation` calls of `processBufferChunk`. -/
theorem mem_calls_setPhaseCorrelation (sqrt : α → α) (components : Components α)
    (p : Processor α) (uChunkSize : Nat) (t v : α) :
    BallisticsCall.setPhaseCorrelation t v ∈
        (processBufferChunk sqrt components p uChunkSize).calls ↔
      p.isStereo = true ∧ t = (uChunkSize : α) / p.sampleRate ∧
        v = (phaseCorrelation sqrt p.selMono
          (arrayGet (processBufferChunk sqrt components p uChunkSize).processor.arrRmsLevels 0)
          (arrayGet (processBufferChunk sqrt components p uChunkSize).processor.arrRmsLevels 1)
          (inputRing components p) uChunkSize (uChunkSize / 2)).fPhaseCorrelation := by
  rw [processBufferChunk_calls]
  by_cases hs : p.isStereo = true
  · simp [hs, expectedCall]
  · simp [hs, expectedCall]

/-- The `setStereoMeterValue` calls of `processBufferChunk`. -/
theorem mem_calls_setStereoMeterValue (sqrt : α → α) (components : Components α)
    (p : Processor α) (uChunkSize : Nat) (t v : α) :
    BallisticsCall.setStereoMeterValue t v ∈
        (processBufferChunk sqrt components p uChunkSize).calls ↔
      p.isStereo = true ∧ t = (uChunkSize : α) / p.sampleRate ∧
        v = (stereoMeter
          (arrayGet (processBufferChunk sqrt components p uChunkSize).processor.arrRmsLevels 0)
          (arrayGet (processBufferChunk sqrt components p uChunkSize).processor.arrRmsLevels
            1)).fStereoMeterValue := by
  rw [processBufferChunk_calls]
  by_cases hs : p.isStereo = true
  · simp [hs, expectedCall]
  · simp [hs, expectedCall]

/-- The `updateChannel` calls of `processBufferChunk`. -/
theorem mem_calls_updateChannel (sqrt : α → α) (components : Components α)
    (p : Processor α) (uChunkSize nChannel : Nat) (t pk tp rms avg : α) (n : Int) :
    BallisticsCall.updateChannel nChannel t pk tp rms avg n ∈
        (processBufferChunk sqrt components p uChunkSize).calls ↔
      nChannel < p.numInputChannels ∧
        BallisticsCall.updateChannel nChannel t pk tp rms avg n =
          expectedCall components p.selMono uChunkSize (uChunkSize / 2)
            (inputRing components p) ((uChunkSize : α) / p.sampleRate) nChannel := by
  rw [processBufferChunk_calls]
  by_cases hs : p.isStereo = true
  · rw [if_pos hs]
    simp only [List.mem_append, List.mem_map, List.mem_range, List.mem_cons,
      List.mem_singleton, reduceCtorEq, or_false, List.not_mem_nil]
    constructor
    · rintro ⟨k, hk, hcall⟩
      have hk2 : k = nChannel := by
        simp only [expectedCall, BallisticsCall.updateChannel.injEq] at hcall
        exact hcall.1
      subst hk2
      exact ⟨hk, hcall.symm⟩
    · rintro ⟨hk, hcall⟩
      exact ⟨nChannel, hk, hcall.symm⟩
  · rw [if_neg hs, List.append_nil]
    simp only [List.mem_map, List.mem_range]
    constructor
    · rintro ⟨k, hk, hcall⟩
      have hk2 : k = nChannel := by
        simp only [expectedCall, BallisticsCall.updateChannel.injEq] at hcall
        exact hcall.1
      subst hk2
      exact ⟨hk, hcall.symm⟩
    · rintro ⟨hk, hcall⟩
      exact ⟨nChannel, hk, hcall.symm⟩

/-- After the channel loop, the RMS level stored for a measured channel is the
RMS level of that channel over the chunk window. -/
theorem processBufferChunk_rms (sqrt : α → α) (components : Components α) (p : Processor α)
    (uChunkSize nChannel : Nat) (h : nChannel < p.numInputChannels) :
    arrayGet (processBufferChunk sqrt components p uChunkSize).processor.arrRmsLevels nChannel =
      (inputRing components p).getRMSLevel (sourceChannel p.selMono nChannel) uChunkSize
        (uChunkSize / 2) := by
  obtain ⟨_, _, _, _, _, _, hrms, _⟩ := processBufferChunk_inv sqrt components p uChunkSize
  exact hrms.2 nChannel h

end Chunk

/-! ## The claims about `processBufferChunk` -/

/-- Claim C1, amended: when the sums, the product, the square root and the quotient of
the block are taken in exact real arithmetic, then for every chunk of left and right
samples (taken as real numbers), every Mono setting and every pair of RMS levels, the
phase correlation block yields a value in `[-1, 1]`, and every value that
`processBufferChunk` hands to `setPhaseCorrelation` lies in `[-1, 1]`. -/
theorem phaseCorrelation_in_range :
    (∀ (bMono : Bool) (rms0 rms1 : ℝ) (ring : RingBuffer ℝ) (uChunkSize uPreDelay : Nat),
        -1 ≤ (phaseCorrelation Real.sqrt bMono rms0 rms1 ring uChunkSize
            uPreDelay).fPhaseCorrelation ∧
          (phaseCorrelation Real.sqrt bMono rms0 rms1 ring uChunkSize
            uPreDelay).fPhaseCorrelation ≤ 1) ∧
      ∀ (components : Components ℝ) (p : Processor ℝ) (uChunkSize : Nat) (t v : ℝ),
        BallisticsCall.setPhaseCorrelation t v ∈
            (processBufferChunk Real.sqrt components p uChunkSize).calls →
          -1 ≤ v ∧ v ≤ 1 := by
  refine ⟨phaseCorrelation_block_range, ?_⟩
  intro components p uChunkSize t v h
  obtain ⟨_, _, hv⟩ := (mem_calls_setPhaseCorrelation Real.sqrt components p uChunkSize t v).mp h
  rw [hv]
  exact phaseCorrelation_block_range _ _ _ _ _ _

/-- Claim C1, amended, at a stereo chunk of twenty samples with Mono off. -/
theorem phaseCorrelation_in_range_witness :
    ∃ t v : ℝ,
      BallisticsCall.setPhaseCorrelation t v ∈
          (processBufferChunk Real.sqrt exampleComponents
            (exampleProcessor false overflowRing) 20).calls ∧
        -1 ≤ v ∧ v ≤ 1 :=
  ⟨_, _,
    (mem_calls_setPhaseCorrelation Real.sqrt exampleComponents
      (exampleProcessor false overflowRing) 20 _ _).mpr ⟨rfl, rfl, rfl⟩,
    phaseCorrelation_in_range.2 exampleComponents (exampleProcessor false overflowRing) 20 _ _
      ((mem_calls_setPhaseCorrelation Real.sqrt exampleComponents
        (exampleProcessor false overflowRing) 20 _ _).mpr ⟨rfl, rfl, rfl⟩)⟩

/-- Claim C10: when Mono is off and the left and the right sample are identical at every
index of the chunk window, the phase correlation (in exact real arithmetic) is exactly
`1` for every pair of RMS levels, and every value that `processBufferChunk` hands to
`setPhaseCorrelation` is exactly `1`. -/
theorem phaseCorrelation_identical_channels (components : Components ℝ) (p : Processor ℝ)
    (uChunkSize : Nat) (hm : p.selMono = false)
    (hid : ∀ i, i < uChunkSize →
      (inputRing components p).getSample 0 i (uChunkSize / 2) =
        (inputRing components p).getSample 1 i (uChunkSize / 2)) :
    (∀ rms0 rms1 : ℝ,
        (phaseCorrelation Real.sqrt p.selMono rms0 rms1 (inputRing components p) uChunkSize
          (uChunkSize / 2)).fPhaseCorrelation = 1) ∧
      ∀ t v : ℝ,
        BallisticsCall.setPhaseCorrelation t v ∈
            (processBufferChunk Real.sqrt components p uChunkSize).calls →
          v = 1 := by
  have hblock : ∀ rms0 rms1 : ℝ,
      (phaseCorrelation Real.sqrt p.selMono rms0 rms1 (inputRing components p) uChunkSize
        (uChunkSize / 2)).fPhaseCorrelation = 1 := by
    intro rms0 rms1
    obtain ⟨hp, hl, hr⟩ :=
      correlationSums_eq_sum (inputRing components p) uChunkSize (uChunkSize / 2)
    have hpl : (correlationSums (inputRing components p) uChunkSize
          (uChunkSize / 2)).sum_of_product =
        (correlationSums (inputRing components p) uChunkSize
          (uChunkSize / 2)).sum_of_squares_left := by
      rw [hp, hl]
      apply Finset.sum_congr rfl
      intro i hi
      rw [hid i (Finset.mem_range.mp hi)]
    have hrl : (correlationSums (inputRing components p) uChunkSize
          (uChunkSize / 2)).sum_of_squares_right =
        (correlationSums (inputRing components p) uChunkSize
          (uChunkSize / 2)).sum_of_squares_left := by
      rw [hr, hl]
      apply Finset.sum_congr rfl
      intro i hi
      rw [hid i (Finset.mem_range.mp hi)]
    have hnonneg : 0 ≤ (correlationSums (inputRing components p) uChunkSize
        (uChunkSize / 2)).sum_of_squares_left := by
      rw [hl]
      exact Finset.sum_nonneg (fun i _ => mul_self_nonneg _)
    rw [hm]
    simp only [phaseCorrelation, Bool.false_eq_true, if_false, hpl, hrl]
    split_ifs with h1 h2
    · simp only
      rw [Real.sqrt_mul_self hnonneg]
      have hne : (correlationSums (inputRing components p) uChunkSize
          (uChunkSize / 2)).sum_of_squares_left ≠ 0 := by
        intro hz
        rw [hz] at h2
        simp at h2
      exact div_self hne
    · rfl
    · rfl
  refine ⟨hblock, ?_⟩
  intro t v h
  obtain ⟨_, _, hv⟩ := (mem_calls_setPhaseCorrelation Real.sqrt components p uChunkSize t v).mp h
  rw [hv]
  exact hblock _ _

/-- Claim C10 at a stereo chunk of twenty samples, identical on both channels, with Mono off. -/
theorem phaseCorrelation_identical_channels_witness :
    (∃ t v : ℝ,
        BallisticsCall.setPhaseCorrelation t v ∈
          (processBufferChunk Real.sqrt exampleComponents
            (exampleProcessor false overflowRing) 20).calls) ∧
      ∀ t v : ℝ,
        BallisticsCall.setPhaseCorrelation t v ∈
            (processBufferChunk Real.sqrt exampleComponents
              (exampleProcessor false overflowRing) 20).calls →
          v = 1 :=
  ⟨⟨_, _,
      (mem_calls_setPhaseCorrelation Real.sqrt exampleComponents
        (exampleProcessor false overflowRing) 20 _ _).mpr ⟨rfl, rfl, rfl⟩⟩,
    (phaseCorrelation_identical_channels exampleComponents
      (exampleProcessor false overflowRing) 20 rfl (fun _ _ => rfl)).2⟩

section ChunkClaims

variable [LinearOrderedField α]

/-- Claim C3: for every chunk and every channel that is not the mono-copied channel 1,
`processBufferChunk` calls `updateChannel` for that channel, and the overflow count of
every such call equals the number of samples in the chunk window that exceed `0.9999`
or fall below `-0.9999`. -/
theorem updateChannel_overflow_count (sqrt : α → α) (components : Components α)
    (p : Processor α) (uChunkSize nChannel : Nat) (hch : nChannel < p.numInputChannels)
    (hcopy : ¬ (p.selMono = true ∧ nChannel = 1)) :
    (∃ t pk tp rms avg : α,
        BallisticsCall.updateChannel nChannel t pk tp rms avg
            (((Finset.range uChunkSize).filter (fun i =>
              (inputRing components p).getSample nChannel i (uChunkSize / 2) > 0.9999 ∨
                (inputRing components p).getSample nChannel i (uChunkSize / 2) <
                  -0.9999)).card : Int) ∈
          (processBufferChunk sqrt components p uChunkSize).calls) ∧
      ∀ (t pk tp rms avg : α) (n : Int),
        BallisticsCall.updateChannel nChannel t pk tp rms avg n ∈
            (processBufferChunk sqrt components p uChunkSize).calls →
          n = (((Finset.range uChunkSize).filter (fun i =>
              (inputRing components p).getSample nChannel i (uChunkSize / 2) > 0.9999 ∨
                (inputRing components p).getSample nChannel i (uChunkSize / 2) <
                  -0.9999)).card : Int) := by
  have hcount : countOverflows (inputRing components p)
        (sourceChannel p.selMono nChannel) uChunkSize (uChunkSize / 2) =
      (((Finset.range uChunkSize).filter (fun i =>
        (inputRing components p).getSample nChannel i (uChunkSize / 2) > 0.9999 ∨
          (inputRing components p).getSample nChannel i (uChunkSize / 2) <
            -0.9999)).card : Int) := by
    rw [sourceChannel_measured p.selMono nChannel hcopy, countOverflows_eq_card]
    congr 2
    apply Finset.filter_congr
    intro i _
    exact or_comm
  constructor
  · refine ⟨(uChunkSize : α) / p.sampleRate,
      (inputRing components p).getMagnitude (sourceChannel p.selMono nChannel) uChunkSize
        (uChunkSize / 2),
      components.truePeakLevel (inputRing components p) (uChunkSize / 2)
        (sourceChannel p.selMono nChannel),
      (inputRing components p).getRMSLevel (sourceChannel p.selMono nChannel) uChunkSize
        (uChunkSize / 2),
      components.averageLevel (inputRing components p) 0 (sourceChannel p.selMono nChannel), ?_⟩
    rw [mem_calls_updateChannel, ← hcount]
    exact ⟨hch, rfl⟩
  · intro t pk tp rms avg n h
    obtain ⟨_, hcall⟩ :=
      (mem_calls_updateChannel sqrt components p uChunkSize nChannel t pk tp rms avg n).mp h
    simp only [expectedCall, BallisticsCall.updateChannel.injEq] at hcall
    rw [hcall.2.2.2.2.2.2, hcount]

/-- The scenario of claim C3: in a window of twenty samples of which exactly three are
beyond `±0.9999`, the overflow count handed to `updateChannel` is exactly `3`. -/
theorem updateChannel_overflow_count_witness :
    (∃ t pk tp rms avg : ℚ,
        BallisticsCall.updateChannel 0 t pk tp rms avg 3 ∈
          (processBufferChunk id exampleComponents
            (exampleProcessor false overflowRing) 20).calls) ∧
      ∀ (t pk tp rms avg : ℚ) (n : Int),
        BallisticsCall.updateChannel 0 t pk tp rms avg n ∈
            (processBufferChunk id exampleComponents
              (exampleProcessor false overflowRing) 20).calls →
          n = 3 := by
  have hcard : (((Finset.range 20).filter (fun i =>
      (inputRing exampleComponents (exampleProcessor false (overflowRing : RingBuffer ℚ))).getSample
          0 i (20 / 2) > 0.9999 ∨
        (inputRing exampleComponents (exampleProcessor false (overflowRing : RingBuffer ℚ))).getSample
          0 i (20 / 2) < -0.9999)).card : Int) = 3 := by
    have hset : (Finset.range 20).filter (fun i =>
        (inputRing exampleComponents
            (exampleProcessor false (overflowRing : RingBuffer ℚ))).getSample 0 i (20 / 2) >
            0.9999 ∨
          (inputRing exampleComponents
            (exampleProcessor false (overflowRing : RingBuffer ℚ))).getSample 0 i (20 / 2) <
            -0.9999) = {0, 1, 2} := by
      have hring : inputRing exampleComponents
          (exampleProcessor false (overflowRing : RingBuffer ℚ)) = overflowRing := rfl
      rw [hring]
      ext i
      simp only [Finset.mem_filter, Finset.mem_range, Finset.mem_insert, Finset.mem_singleton,
        overflowRing]
      constructor
      · rintro ⟨_, h⟩
        by_contra hne
        push_neg at hne
        simp only [hne.1, hne.2.1, hne.2.2, if_false] at h
        split_ifs at h <;> norm_num at h
      · rintro (h | h | h) <;> subst h <;> norm_num
    rw [hset]
    rfl
  have h := updateChannel_overflow_count id exampleComponents
    (exampleProcessor false (overflowRing : RingBuffer ℚ)) 20 0 (by decide) (by simp)
  rw [hcard] at h
  exact h

/-- Claim C9: for stereo input with Mono on, the phase correlation block yields exactly
`1` and reads no sample, for every ring buffer content and every pair of RMS levels;
`processBufferChunk` hands exactly `1` to `setPhaseCorrelation` and its correlation
loop reads no sample. -/
theorem mono_phaseCorrelation_one (sqrt : α → α) (components : Components α)
    (p : Processor α) (uChunkSize : Nat) (hst : p.isStereo = true) (hm : p.selMono = true) :
    (∀ (rms0 rms1 : α) (ring : RingBuffer α) (uPreDelay : Nat),
        (phaseCorrelation sqrt p.selMono rms0 rms1 ring uChunkSize uPreDelay).fPhaseCorrelation =
            1 ∧
          (phaseCorrelation sqrt p.selMono rms0 rms1 ring uChunkSize uPreDelay).reads = []) ∧
      (∃ t, BallisticsCall.setPhaseCorrelation t 1 ∈
        (processBufferChunk sqrt components p uChunkSize).calls) ∧
      (∀ t v, BallisticsCall.setPhaseCorrelation t v ∈
          (processBufferChunk sqrt components p uChunkSize).calls → v = 1) ∧
      (processBufferChunk sqrt components p uChunkSize).correlationReads = [] := by
  have hblock : ∀ (rms0 rms1 : α) (ring : RingBuffer α) (uPreDelay : Nat),
      phaseCorrelation sqrt p.selMono rms0 rms1 ring uChunkSize uPreDelay =
        { fPhaseCorrelation := 1, reads := [], rootOf := none } := by
    intro rms0 rms1 ring uPreDelay
    simp [phaseCorrelation, hm]
  refine ⟨fun rms0 rms1 ring uPreDelay => by rw [hblock]; exact ⟨rfl, rfl⟩, ?_, ?_, ?_⟩
  · refine ⟨(uChunkSize : α) / p.sampleRate, ?_⟩
    rw [mem_calls_setPhaseCorrelation, hblock]
    exact ⟨hst, rfl, rfl⟩
  · intro t v h
    obtain ⟨_, _, hv⟩ := (mem_calls_setPhaseCorrelation sqrt components p uChunkSize t v).mp h
    rw [hv, hblock]
  · rw [processBufferChunk_reads, if_pos hst, hblock]

/-- Claim C9 at a stereo chunk of twenty samples with Mono on. -/
theorem mono_phaseCorrelation_one_witness :
    (∃ t : ℚ, BallisticsCall.setPhaseCorrelation t 1 ∈
        (processBufferChunk id exampleComponents
          (exampleProcessor true overflowRing) 20).calls) ∧
      (processBufferChunk id exampleComponents
        (exampleProcessor true (overflowRing : RingBuffer ℚ)) 20).correlationReads = [] :=
  ⟨(mono_phaseCorrelation_one id exampleComponents
      (exampleProcessor true (overflowRing : RingBuffer ℚ)) 20 rfl rfl).2.1,
    (mono_phaseCorrelation_one id exampleComponents
      (exampleProcessor true (overflowRing : RingBuffer ℚ)) 20 rfl rfl).2.2.2⟩

/-- Claim C7: for stereo input (two input channels) with Mono on, `processBufferChunk`
stores the RMS level of channel 0 for channel 1 as well, the stereo meter block
either is forced to `0` (level below `0.0001`) or divides the level `x ≥ 0.0001` by
itself, and the value handed to `setStereoMeterValue` is exactly `0`. -/
theorem mono_stereoMeterValue_zero (sqrt : α → α) (components : Components α)
    (p : Processor α) (uChunkSize : Nat) (hst : p.isStereo = true)
    (hn : p.numInputChannels = 2) (hm : p.selMono = true) :
    (arrayGet (processBufferChunk sqrt components p uChunkSize).processor.arrRmsLevels 0 =
          (inputRing components p).getRMSLevel 0 uChunkSize (uChunkSize / 2) ∧
        arrayGet (processBufferChunk sqrt components p uChunkSize).processor.arrRmsLevels 1 =
          (inputRing components p).getRMSLevel 0 uChunkSize (uChunkSize / 2)) ∧
      (∀ x : α,
        ((stereoMeter x x).division = none ∧ x < 0.0001) ∨
          ((stereoMeter x x).division = some (x, x) ∧ x ≥ 0.0001 ∧
            (stereoMeter x x).fStereoMeterValue = 1 - x / x)) ∧
      (∃ t, BallisticsCall.setStereoMeterValue t 0 ∈
        (processBufferChunk sqrt components p uChunkSize).calls) ∧
      ∀ t v, BallisticsCall.setStereoMeterValue t v ∈
        (processBufferChunk sqrt components p uChunkSize).calls → v = 0 := by
  have h0 := processBufferChunk_rms sqrt components p uChunkSize 0 (by omega)
  have h1 := processBufferChunk_rms sqrt components p uChunkSize 1 (by omega)
  rw [sourceChannel_zero] at h0
  rw [sourceChannel_copy p.selMono 1 ⟨hm, rfl⟩] at h1
  have hsame : ∀ x : α, (stereoMeter x x).fStereoMeterValue = 0 := by
    intro x
    by_cases hx : x < 0.0001 ∧ x < 0.0001
    · rw [stereoMeter_forced x x hx]
    · rw [stereoMeter_right x x hx (le_refl x)]
      have hpos : (0 : α) < x := lt_of_lt_of_le floor_pos (floor_le_right x x hx (le_refl x))
      simp only
      rw [div_self (ne_of_gt hpos), sub_self]
  refine ⟨⟨h0, h1⟩, ?_, ?_, ?_⟩
  · intro x
    by_cases hx : x < 0.0001 ∧ x < 0.0001
    · left
      rw [stereoMeter_forced x x hx]
      exact ⟨rfl, hx.1⟩
    · right
      rw [stereoMeter_right x x hx (le_refl x)]
      exact ⟨rfl, floor_le_right x x hx (le_refl x), rfl⟩
  · refine ⟨(uChunkSize : α) / p.sampleRate, ?_⟩
    rw [mem_calls_setStereoMeterValue, h0, h1, hsame]
    exact ⟨hst, rfl, rfl⟩
  · intro t v h
    obtain ⟨_, _, hv⟩ := (mem_calls_setStereoMeterValue sqrt components p uChunkSize t v).mp h
    rw [hv, h0, h1, hsame]

/-- Claim C7 at a stereo chunk of twenty samples with Mono on. -/
theorem mono_stereoMeterValue_zero_witness :
    (∃ t : ℚ, BallisticsCall.setStereoMeterValue t 0 ∈
        (processBufferChunk id exampleComponents
          (exampleProcessor true overflowRing) 20).calls) ∧
      ∀ t v : ℚ, BallisticsCall.setStereoMeterValue t v ∈
        (processBufferChunk id exampleComponents
          (exampleProcessor true overflowRing) 20).calls → v = 0 :=
  ⟨(mono_stereoMeterValue_zero id exampleComponents
      (exampleProcessor true (overflowRing : RingBuffer ℚ)) 20 rfl rfl rfl).2.2.1,
    (mono_stereoMeterValue_zero id exampleComponents
      (exampleProcessor true (overflowRing : RingBuffer ℚ)) 20 rfl rfl rfl).2.2.2⟩

end ChunkClaims

/-! ## The phase correlation formula and its guard -/

section PhaseFormula

variable [LinearOrderedField α]

/-- The samples read by the correlation loop: for each index of the chunk window the
left and then the right sample, all with the pre-delay of the loop. -/
theorem correlationSums_reads (ring : RingBuffer α) (n pre : Nat) :
    (correlationSums ring n pre).reads =
      (List.range n).flatMap (fun i => [(0, i, pre), (1, i, pre)]) := by
  induction n with
  | zero => simp [correlationSums]
  | succ n ih =>
    rw [correlationSums_succ]
    simp only [ih, List.range_succ, List.flatMap_append, List.flatMap_cons, List.flatMap_nil,
      List.append_nil]

/-- The phase correlation block when Mono is off and one RMS level reaches the floor. -/
theorem phaseCorrelation_measured (sqrt : α → α) (rms0 rms1 : α) (ring : RingBuffer α)
    (n pre : Nat) (hrms : rms0 ≥ 0.0001 ∨ rms1 ≥ 0.0001) :
    phaseCorrelation sqrt false rms0 rms1 ring n pre =
      if (correlationSums ring n pre).sum_of_squares_left *
          (correlationSums ring n pre).sum_of_squares_right > 0 then
        { fPhaseCorrelation := (correlationSums ring n pre).sum_of_product /
            sqrt ((correlationSums ring n pre).sum_of_squares_left *
              (correlationSums ring n pre).sum_of_squares_right)
          reads := (correlationSums ring n pre).reads
          rootOf := some ((correlationSums ring n pre).sum_of_squares_left *
            (correlationSums ring n pre).sum_of_squares_right) }
      else
        { fPhaseCorrelation := 1, reads := (correlationSums ring n pre).reads, rootOf := none } := by
  simp only [phaseCorrelation, Bool.false_eq_true, if_false, if_pos hrms]

/-- The sums of squares of the correlation loop, written with squares. -/
theorem correlationSums_eq_sum_sq (ring : RingBuffer α) (n pre : Nat) :
    (correlationSums ring n pre).sum_of_squares_left =
        ∑ i in Finset.range n, ring.getSample 0 i pre ^ 2 ∧
      (correlationSums ring n pre).sum_of_squares_right =
        ∑ i in Finset.range n, ring.getSample 1 i pre ^ 2 := by
  obtain ⟨_, hl, hr⟩ := correlationSums_eq_sum ring n pre
  rw [hl, hr]
  simp only [sq, and_self]

/-- Claim C11: when Mono is off, at least one RMS level is at least `0.0001` and the
product of the sums of squares over the chunk window is positive, the phase
correlation is the sum of the products divided by the square root of that product,
the sums running over the `uChunkSize` samples read with the pre-delay
`uChunkSize / 2`; this is the value that `processBufferChunk` hands to
`setPhaseCorrelation`. -/
theorem phaseCorrelation_formula (sqrt : α → α) (ring : RingBuffer α) (uChunkSize : Nat)
    (rms0 rms1 : α) (hrms : rms0 ≥ 0.0001 ∨ rms1 ≥ 0.0001)
    (hpos : (∑ i in Finset.range uChunkSize, ring.getSample 0 i (uChunkSize / 2) ^ 2) *
      (∑ i in Finset.range uChunkSize, ring.getSample 1 i (uChunkSize / 2) ^ 2) > 0) :
    (phaseCorrelation sqrt false rms0 rms1 ring uChunkSize (uChunkSize / 2)).fPhaseCorrelation =
        (∑ i in Finset.range uChunkSize,
            ring.getSample 0 i (uChunkSize / 2) * ring.getSample 1 i (uChunkSize / 2)) /
          sqrt ((∑ i in Finset.range uChunkSize, ring.getSample 0 i (uChunkSize / 2) ^ 2) *
            (∑ i in Finset.range uChunkSize, ring.getSample 1 i (uChunkSize / 2) ^ 2)) ∧
      (phaseCorrelation sqrt false rms0 rms1 ring uChunkSize (uChunkSize / 2)).reads =
        (List.range uChunkSize).flatMap
          (fun i => [(0, i, uChunkSize / 2), (1, i, uChunkSize / 2)]) ∧
      ∀ (components : Components α) (p : Processor α), p.selMono = false →
        inputRing components p = ring →
        arrayGet (processBufferChunk sqrt components p uChunkSize).processor.arrRmsLevels 0 =
          rms0 →
        arrayGet (processBufferChunk sqrt components p uChunkSize).processor.arrRmsLevels 1 =
          rms1 →
        ∀ t v, BallisticsCall.setPhaseCorrelation t v ∈
            (processBufferChunk sqrt components p uChunkSize).calls →
          v = (∑ i in Finset.range uChunkSize,
              ring.getSample 0 i (uChunkSize / 2) * ring.getSample 1 i (uChunkSize / 2)) /
            sqrt ((∑ i in Finset.range uChunkSize, ring.getSample 0 i (uChunkSize / 2) ^ 2) *
              (∑ i in Finset.range uChunkSize, ring.getSample 1 i (uChunkSize / 2) ^ 2)) := by
  obtain ⟨hp, _, _⟩ := correlationSums_eq_sum ring uChunkSize (uChunkSize / 2)
  obtain ⟨hl, hr⟩ := correlationSums_eq_sum_sq ring uChunkSize (uChunkSize / 2)
  have hpos2 : (correlationSums ring uChunkSize (uChunkSize / 2)).sum_of_squares_left *
      (correlationSums ring uChunkSize (uChunkSize / 2)).sum_of_squares_right > 0 := by
    rw [hl, hr]
    exact hpos
  have hblock := phaseCorrelation_measured sqrt rms0 rms1 ring uChunkSize (uChunkSize / 2) hrms
  rw [if_pos hpos2] at hblock
  have hval : (phaseCorrelation sqrt false rms0 rms1 ring uChunkSize
        (uChunkSize / 2)).fPhaseCorrelation =
      (∑ i in Finset.range uChunkSize,
          ring.getSample 0 i (uChunkSize / 2) * ring.getSample 1 i (uChunkSize / 2)) /
        sqrt ((∑ i in Finset.range uChunkSize, ring.getSample 0 i (uChunkSize / 2) ^ 2) *
          (∑ i in Finset.range uChunkSize, ring.getSample 1 i (uChunkSize / 2) ^ 2)) := by
    rw [hblock]
    simp only
    rw [hp, hl, hr]
  refine ⟨hval, ?_, ?_⟩
  · rw [hblock]
    exact correlationSums_reads ring uChunkSize (uChunkSize / 2)
  · intro components p hm hring h0 h1 t v hmem
    obtain ⟨_, _, hv⟩ := (mem_calls_setPhaseCorrelation sqrt components p uChunkSize t v).mp hmem
    rw [hv, hm, hring, h0, h1]
    exact hval

end PhaseFormula

/-- Claim C11 on the reals, at a stereo chunk of two samples `1, -1` on both channels
whose stored RMS levels are `1/2`. -/
theorem phaseCorrelation_formula_witness :
    (phaseCorrelation Real.sqrt false (1 / 2) (1 / 2) (overflowRing : RingBuffer ℝ) 2
        (2 / 2)).fPhaseCorrelation =
        (∑ i in Finset.range 2,
            (overflowRing : RingBuffer ℝ).getSample 0 i (2 / 2) *
              (overflowRing : RingBuffer ℝ).getSample 1 i (2 / 2)) /
          Real.sqrt ((∑ i in Finset.range 2,
              (overflowRing : RingBuffer ℝ).getSample 0 i (2 / 2) ^ 2) *
            (∑ i in Finset.range 2,
              (overflowRing : RingBuffer ℝ).getSample 1 i (2 / 2) ^ 2)) ∧
      ∀ t v : ℝ, BallisticsCall.setPhaseCorrelation t v ∈
          (processBufferChunk Real.sqrt exampleComponents
            (exampleProcessor false overflowRing) 2).calls →
        v = (∑ i in Finset.range 2,
            (overflowRing : RingBuffer ℝ).getSample 0 i (2 / 2) *
              (overflowRing : RingBuffer ℝ).getSample 1 i (2 / 2)) /
          Real.sqrt ((∑ i in Finset.range 2,
              (overflowRing : RingBuffer ℝ).getSample 0 i (2 / 2) ^ 2) *
            (∑ i in Finset.range 2,
              (overflowRing : RingBuffer ℝ).getSample 1 i (2 / 2) ^ 2)) :=
  ⟨(phaseCorrelation_formula Real.sqrt (overflowRing : RingBuffer ℝ) 2 (1 / 2) (1 / 2)
      (Or.inl (by norm_num))
      (by simp [Finset.sum_range_succ, overflowRing])).1,
    (phaseCorrelation_formula Real.sqrt (overflowRing : RingBuffer ℝ) 2 (1 / 2) (1 / 2)
      (Or.inl (by norm_num))
      (by simp [Finset.sum_range_succ, overflowRing])).2.2
      exampleComponents (exampleProcessor false overflowRing) rfl rfl
      (by rw [processBufferChunk_rms Real.sqrt exampleComponents
          (exampleProcessor false overflowRing) 2 0 (by decide)]; exact rfl)
      (by rw [processBufferChunk_rms Real.sqrt exampleComponents
          (exampleProcessor false overflowRing) 2 1 (by decide)]; exact rfl)⟩

/-- Claim C12: whenever the product of the two sums of squares over the chunk window is
zero or negative, the phase correlation is exactly `1`, also as handed to
`setPhaseCorrelation`; the square root and the division are evaluated only on that
product when it is strictly positive, and then the divisor is not zero. -/
theorem phaseCorrelation_guard (bMono : Bool) (rms0 rms1 : ℝ) (ring : RingBuffer ℝ)
    (uChunkSize uPreDelay : Nat) :
    ((∑ i in Finset.range uChunkSize, ring.getSample 0 i uPreDelay ^ 2) *
          (∑ i in Finset.range uChunkSize, ring.getSample 1 i uPreDelay ^ 2) ≤ 0 →
        (phaseCorrelation Real.sqrt bMono rms0 rms1 ring uChunkSize
          uPreDelay).fPhaseCorrelation = 1) ∧
      (∀ x, (phaseCorrelation Real.sqrt bMono rms0 rms1 ring uChunkSize uPreDelay).rootOf =
          some x →
        x = (∑ i in Finset.range uChunkSize, ring.getSample 0 i uPreDelay ^ 2) *
            (∑ i in Finset.range uChunkSize, ring.getSample 1 i uPreDelay ^ 2) ∧
          0 < x ∧ Real.sqrt x ≠ 0) ∧
      ((phaseCorrelation Real.sqrt bMono rms0 rms1 ring uChunkSize uPreDelay).rootOf = none →
        (phaseCorrelation Real.sqrt bMono rms0 rms1 ring uChunkSize
          uPreDelay).fPhaseCorrelation = 1) ∧
      ∀ (components : Components ℝ) (p : Processor ℝ) (t v : ℝ),
        (∑ i in Finset.range uChunkSize,
            (inputRing components p).getSample 0 i (uChunkSize / 2) ^ 2) *
          (∑ i in Finset.range uChunkSize,
            (inputRing components p).getSample 1 i (uChunkSize / 2) ^ 2) ≤ 0 →
        BallisticsCall.setPhaseCorrelation t v ∈
            (processBufferChunk Real.sqrt components p uChunkSize).calls →
          v = 1 := by
  have hle : ∀ (b : Bool) (r0 r1 : ℝ) (rg : RingBuffer ℝ) (pre : Nat),
      (∑ i in Finset.range uChunkSize, rg.getSample 0 i pre ^ 2) *
          (∑ i in Finset.range uChunkSize, rg.getSample 1 i pre ^ 2) ≤ 0 →
        (phaseCorrelation Real.sqrt b r0 r1 rg uChunkSize pre).fPhaseCorrelation = 1 := by
    intro b r0 r1 rg pre h
    obtain ⟨hl, hr⟩ := correlationSums_eq_sum_sq rg uChunkSize pre
    simp only [phaseCorrelation]
    split_ifs with h1 h2 h3
    · rfl
    · rw [hl, hr] at h3
      exact absurd h3 (not_lt.mpr h)
    · rfl
    · rfl
  obtain ⟨hl, hr⟩ := correlationSums_eq_sum_sq ring uChunkSize uPreDelay
  refine ⟨hle bMono rms0 rms1 ring uPreDelay, ?_, ?_, ?_⟩
  · intro x hx
    simp only [phaseCorrelation] at hx
    split_ifs at hx with h1 h2 h3
    · simp only [Option.some.injEq] at hx
      rw [← hx]
      refine ⟨by rw [hl, hr], h3, ?_⟩
      exact ne_of_gt (Real.sqrt_pos.mpr h3)
  · intro hnone
    simp only [phaseCorrelation] at hnone ⊢
    split_ifs at hnone ⊢ with h1 h2 h3
    · rfl
    · rfl
    · rfl
  · intro components p t v hprod hmem
    obtain ⟨_, _, hv⟩ :=
      (mem_calls_setPhaseCorrelation Real.sqrt components p uChunkSize t v).mp hmem
    rw [hv]
    exact hle _ _ _ _ _ hprod

/-- Claim C12 at a silent stereo chunk of four samples with Mono off: the product of the
sums of squares is `0` and the value is `1`. -/
theorem phaseCorrelation_guard_witness :
    (∑ i in Finset.range 4, (constantRing (0 : ℝ)).getSample 0 i 2 ^ 2) *
          (∑ i in Finset.range 4, (constantRing (0 : ℝ)).getSample 1 i 2 ^ 2) ≤ 0 ∧
      (phaseCorrelation Real.sqrt false 1 1 (constantRing (0 : ℝ)) 4 2).fPhaseCorrelation = 1 :=
  ⟨by simp [constantRing],
    (phaseCorrelation_guard false 1 1 (constantRing (0 : ℝ)) 4 2).1 (by simp [constantRing])⟩

/-! ## Elapsed time and pre-delays of one chunk -/

section ChunkTiming

variable [LinearOrderedField α]

/-- Claim C17: within one `processBufferChunk` call every call on the meter ballistics
(`updateChannel` for every channel, `setPhaseCorrelation`, `setStereoMeterValue`)
carries the same elapsed time `uChunkSize / sampleRate`; for a positive chunk size and
a sample rate from 44100 to 192000 it is strictly positive, and for chunk size 1024 it
lies between `1024 / 192000` and `1024 / 44100`. -/
theorem elapsed_time_uniform (sqrt : α → α) (components : Components α) (p : Processor α)
    (uChunkSize : Nat) :
    (∀ call, call ∈ (processBufferChunk sqrt components p uChunkSize).calls →
        callTime call = (uChunkSize : α) / p.sampleRate) ∧
      (0 < uChunkSize → 44100 ≤ p.sampleRate → p.sampleRate ≤ 192000 →
        0 < (uChunkSize : α) / p.sampleRate) ∧
      (uChunkSize = 1024 → 44100 ≤ p.sampleRate → p.sampleRate ≤ 192000 →
        (1024 : α) / 192000 ≤ (uChunkSize : α) / p.sampleRate ∧
          (uChunkSize : α) / p.sampleRate ≤ 1024 / 44100) := by
  refine ⟨?_, ?_, ?_⟩
  · intro call hmem
    cases call with
    | updateChannel k t pk tp rms avg n =>
      obtain ⟨_, hcall⟩ :=
        (mem_calls_updateChannel sqrt components p uChunkSize k t pk tp rms avg n).mp hmem
      simp only [expectedCall, BallisticsCall.updateChannel.injEq] at hcall
      exact hcall.2.1
    | setPhaseCorrelation t v =>
      exact ((mem_calls_setPhaseCorrelation sqrt components p uChunkSize t v).mp hmem).2.1
    | setStereoMeterValue t v =>
      exact ((mem_calls_setStereoMeterValue sqrt components p uChunkSize t v).mp hmem).2.1
  · intro hn hlo _
    have hrate : (0 : α) < p.sampleRate := lt_of_lt_of_le (by norm_num) hlo
    exact div_pos (Nat.cast_pos.mpr hn) hrate
  · intro hn hlo hhi
    have hrate : (0 : α) < p.sampleRate := lt_of_lt_of_le (by norm_num) hlo
    subst hn
    constructor
    · rw [div_le_div_iff₀ (by norm_num) hrate]
      push_cast
      nlinarith
    · rw [div_le_div_iff₀ hrate (by norm_num)]
      push_cast
      nlinarith

/-- Claim C17 at a stereo chunk of 1024 samples at 44100 Hz. -/
theorem elapsed_time_uniform_witness :
    (∃ t v : ℚ, BallisticsCall.setStereoMeterValue t v ∈
        (processBufferChunk id exampleComponents
          (exampleProcessor false overflowRing) 1024).calls ∧
        callTime (BallisticsCall.setStereoMeterValue t v) = ((1024 : Nat) : ℚ) / 44100) ∧
      (0 : ℚ) < ((1024 : Nat) : ℚ) / 44100 ∧
      ((1024 : ℚ) / 192000 ≤ ((1024 : Nat) : ℚ) / 44100 ∧
        ((1024 : Nat) : ℚ) / 44100 ≤ 1024 / 44100) :=
  ⟨⟨_, _,
      (mem_calls_setStereoMeterValue id exampleComponents
        (exampleProcessor false (overflowRing : RingBuffer ℚ)) 1024 _ _).mpr ⟨rfl, rfl, rfl⟩,
      (elapsed_time_uniform id exampleComponents
        (exampleProcessor false (overflowRing : RingBuffer ℚ)) 1024).1 _
        ((mem_calls_setStereoMeterValue id exampleComponents
          (exampleProcessor false (overflowRing : RingBuffer ℚ)) 1024 _ _).mpr
            ⟨rfl, rfl, rfl⟩)⟩,
    (elapsed_time_uniform id exampleComponents
      (exampleProcessor false (overflowRing : RingBuffer ℚ)) 1024).2.1
        (by decide) (by norm_num [exampleProcessor]) (by norm_num [exampleProcessor]),
    (elapsed_time_uniform id exampleComponents
      (exampleProcessor false (overflowRing : RingBuffer ℚ)) 1024).2.2
        rfl (by norm_num [exampleProcessor]) (by norm_num [exampleProcessor])⟩

/-- Claim C18: in `processBufferChunk` the sample peak, the true peak, the RMS level and
the overflow count handed to `updateChannel` are read from the input ring buffer with
the pre-delay `uChunkSize / 2` (integer division), the filtered average with the
pre-delay `0`, and every sample read by the correlation loop is read with the
pre-delay `uChunkSize / 2`. -/
theorem measurement_pre_delays (sqrt : α → α) (components : Components α) (p : Processor α)
    (uChunkSize : Nat) :
    (∀ (k : Nat) (t pk tp rms avg : α) (n : Int),
        BallisticsCall.updateChannel k t pk tp rms avg n ∈
            (processBufferChunk sqrt components p uChunkSize).calls →
          pk = (inputRing components p).getMagnitude (sourceChannel p.selMono k) uChunkSize
              (uChunkSize / 2) ∧
            tp = components.truePeakLevel (inputRing components p) (uChunkSize / 2)
              (sourceChannel p.selMono k) ∧
            rms = (inputRing components p).getRMSLevel (sourceChannel p.selMono k) uChunkSize
              (uChunkSize / 2) ∧
            avg = components.averageLevel (inputRing components p) 0
              (sourceChannel p.selMono k) ∧
            n = countOverflows (inputRing components p) (sourceChannel p.selMono k) uChunkSize
              (uChunkSize / 2)) ∧
      ∀ channel index pre_delay,
        (channel, index, pre_delay) ∈
            (processBufferChunk sqrt components p uChunkSize).correlationReads →
          pre_delay = uChunkSize / 2 := by
  constructor
  · intro k t pk tp rms avg n hmem
    obtain ⟨_, hcall⟩ :=
      (mem_calls_updateChannel sqrt components p uChunkSize k t pk tp rms avg n).mp hmem
    simp only [expectedCall, BallisticsCall.updateChannel.injEq] at hcall
    exact ⟨hcall.2.2.1, hcall.2.2.2.1, hcall.2.2.2.2.1, hcall.2.2.2.2.2.1, hcall.2.2.2.2.2.2⟩
  · intro channel index pre_delay hmem
    rw [processBufferChunk_reads] at hmem
    split_ifs at hmem with hs
    · have hsub : ∀ (b : Bool) (r0 r1 : α) (rg : RingBuffer α) (pre : Nat),
          (channel, index, pre_delay) ∈ (phaseCorrelation sqrt b r0 r1 rg uChunkSize pre).reads →
            pre_delay = pre := by
        intro b r0 r1 rg pre h
        simp only [phaseCorrelation] at h
        split_ifs at h with h1 h2 h3
        · simp at h
        · simp only [correlationSums_reads, List.mem_flatMap, List.mem_range, List.mem_cons,
            Prod.mk.injEq, List.mem_singleton, List.not_mem_nil, or_false] at h
          obtain ⟨i, _, hi | hi⟩ := h
          · exact hi.2.2
          · exact hi.2.2
        · simp only [correlationSums_reads, List.mem_flatMap, List.mem_range, List.mem_cons,
            Prod.mk.injEq, List.mem_singleton, List.not_mem_nil, or_false] at h
          obtain ⟨i, _, hi | hi⟩ := h
          · exact hi.2.2
          · exact hi.2.2
        · simp at h
      exact hsub _ _ _ _ _ hmem
    · simp at hmem

/-- Claim C18 at a stereo chunk of twenty samples with Mono off: the first sample read
by the correlation loop, and the overflow count of channel 0. -/
theorem measurement_pre_delays_witness :
    ((0, 0, 10) ∈ (processBufferChunk id exampleComponents
        (exampleProcessor false (overflowRing : RingBuffer ℚ)) 20).correlationReads ∧
      (10 : Nat) = 20 / 2) ∧
      ∀ (t pk tp rms avg : ℚ) (n : Int),
        BallisticsCall.updateChannel 0 t pk tp rms avg n ∈
            (processBufferChunk id exampleComponents
              (exampleProcessor false (overflowRing : RingBuffer ℚ)) 20).calls →
          n = countOverflows (overflowRing : RingBuffer ℚ) 0 20 (20 / 2) := by
  have h := measurement_pre_delays id exampleComponents
    (exampleProcessor false (overflowRing : RingBuffer ℚ)) 20
  have hmem : (0, 0, 10) ∈ (processBufferChunk id exampleComponents
      (exampleProcessor false (overflowRing : RingBuffer ℚ)) 20).correlationReads := by
    have hst : (exampleProcessor false (overflowRing : RingBuffer ℚ)).isStereo = true := rfl
    have hm : (exampleProcessor false (overflowRing : RingBuffer ℚ)).selMono = false := rfl
    have hrms : arrayGet (processBufferChunk id exampleComponents
        (exampleProcessor false (overflowRing : RingBuffer ℚ)) 20).processor.arrRmsLevels 0 ≥
          0.0001 := by
      rw [processBufferChunk_rms id exampleComponents _ 20 0 (by decide)]
      norm_num [inputRing, exampleProcessor, overflowRing]
    rw [processBufferChunk_reads, if_pos hst, hm,
      phaseCorrelation_measured id _ _ _ 20 (20 / 2) (Or.inl hrms)]
    split_ifs <;>
    · simp only [correlationSums_reads, List.mem_flatMap, List.mem_range]
      exact ⟨0, by decide, by simp⟩
  refine ⟨⟨hmem, h.2 0 0 10 hmem⟩, ?_⟩
  intro t pk tp rms avg n hcall
  exact (h.1 0 t pk tp rms avg n hcall).2.2.2.2

end ChunkTiming

/-! ## Overflow tally and maximum peak over a session -/

section Session

variable [LinearOrderedField α]

/-- Every overflow count that `processBufferChunk` hands to `updateChannel` lies between
`0` and the chunk size. -/
theorem updateChannel_overflows_bounds (sqrt : α → α) (components : Components α)
    (p : Processor α) (uChunkSize k : Nat) (t pk tp rms avg : α) (n : Int)
    (h : BallisticsCall.updateChannel k t pk tp rms avg n ∈
      (processBufferChunk sqrt components p uChunkSize).calls) :
    0 ≤ n ∧ n ≤ (uChunkSize : Int) := by
  obtain ⟨_, hcall⟩ :=
    (mem_calls_updateChannel sqrt components p uChunkSize k t pk tp rms avg n).mp h
  simp only [expectedCall, BallisticsCall.updateChannel.injEq] at hcall
  rw [hcall.2.2.2.2.2.2]
  exact countOverflows_bounds _ _ _ _

/-- One call whose overflow count is not negative lowers neither total. -/
theorem applyCall_mono (nChannel : Nat) (totals : ChannelTotals α) (call : BallisticsCall α)
    (h : ∀ k t pk tp rms avg n, call = BallisticsCall.updateChannel k t pk tp rms avg n →
      0 ≤ n) :
    totals.overflowCount ≤ (applyCall nChannel totals call).overflowCount ∧
      totals.maximumPeakLevel ≤ (applyCall nChannel totals call).maximumPeakLevel := by
  cases call with
  | updateChannel k t pk tp rms avg n =>
    have hn := h k t pk tp rms avg n rfl
    simp only [applyCall]
    split_ifs
    · simp only [updateChannelTotals]
      exact ⟨by omega, le_max_left _ _⟩
    · exact ⟨le_refl _, le_refl _⟩
  | setPhaseCorrelation t v => exact ⟨le_refl _, le_refl _⟩
  | setStereoMeterValue t v => exact ⟨le_refl _, le_refl _⟩

/-- A sequence of calls whose overflow counts are not negative lowers neither total. -/
theorem totalsAfter_mono (nChannel : Nat) (calls : List (BallisticsCall α)) :
    ∀ totals : ChannelTotals α,
      (∀ k t pk tp rms avg n,
        BallisticsCall.updateChannel k t pk tp rms avg n ∈ calls → 0 ≤ n) →
      totals.overflowCount ≤ (totalsAfter nChannel totals calls).overflowCount ∧
        totals.maximumPeakLevel ≤ (totalsAfter nChannel totals calls).maximumPeakLevel := by
  induction calls with
  | nil => intro totals _; exact ⟨le_refl _, le_refl _⟩
  | cons call rest ih =>
    intro totals h
    have h1 := applyCall_mono nChannel totals call (by
      intro k t pk tp rms avg n hc
      exact h k t pk tp rms avg n (by rw [hc]; exact List.mem_cons_self _ _))
    have h2 := ih (applyCall nChannel totals call) (by
      intro k t pk tp rms avg n hc
      exact h k t pk tp rms avg n (List.mem_cons_of_mem _ hc))
    simp only [totalsAfter, List.foldl_cons] at h2 ⊢
    exact ⟨le_trans h1.1 h2.1, le_trans h1.2 h2.2⟩

/-- Every overflow count in the calls of a session is not negative. -/
theorem sessionCalls_overflows_nonneg (sqrt : α → α) (chunks : List (ChunkInput α))
    (k : Nat) (t pk tp rms avg : α) (n : Int)
    (h : BallisticsCall.updateChannel k t pk tp rms avg n ∈ sessionCalls sqrt chunks) :
    0 ≤ n := by
  simp only [sessionCalls, List.mem_flatMap] at h
  obtain ⟨chunk, _, hmem⟩ := h
  exact (updateChannel_overflows_bounds sqrt chunk.components chunk.processor chunk.uChunkSize
    k t pk tp rms avg n hmem).1

/-- Claim C19: every per-chunk increment produced by `countOverflows` lies between `0`
and the chunk length, also as handed to `updateChannel`; hence over any sequence of
chunks without `reset ()`, accumulating it with `overflowCount += overflowsInChunk`
never lowers the count, and the running maximum `maximumPeakLevel` never decreases. -/
theorem session_totals_monotone (sqrt : α → α) (nChannel : Nat) (totals : ChannelTotals α)
    (earlier later : List (ChunkInput α)) :
    (∀ (ring : RingBuffer α) (channel length pre_delay : Nat),
        0 ≤ countOverflows ring channel length pre_delay ∧
          countOverflows ring channel length pre_delay ≤ (length : Int)) ∧
      (∀ (components : Components α) (p : Processor α) (uChunkSize k : Nat)
          (t pk tp rms avg : α) (n : Int),
        BallisticsCall.updateChannel k t pk tp rms avg n ∈
            (processBufferChunk sqrt components p uChunkSize).calls →
          0 ≤ n ∧ n ≤ (uChunkSize : Int)) ∧
      (totalsAfter nChannel totals (sessionCalls sqrt earlier)).overflowCount ≤
        (totalsAfter nChannel totals (sessionCalls sqrt (earlier ++ later))).overflowCount ∧
      (totalsAfter nChannel totals (sessionCalls sqrt earlier)).maximumPeakLevel ≤
        (totalsAfter nChannel totals
          (sessionCalls sqrt (earlier ++ later))).maximumPeakLevel := by
  refine ⟨countOverflows_bounds, updateChannel_overflows_bounds sqrt, ?_⟩
  have happ : totalsAfter nChannel totals (sessionCalls sqrt (earlier ++ later)) =
      totalsAfter nChannel (totalsAfter nChannel totals (sessionCalls sqrt earlier))
        (sessionCalls sqrt later) := by
    simp only [totalsAfter, sessionCalls, List.flatMap_append, List.foldl_append]
  rw [happ]
  exact totalsAfter_mono nChannel (sessionCalls sqrt later) _
    (sessionCalls_overflows_nonneg sqrt later)

/-- Claim C19 on a session of two chunks of twenty samples, each with three overflows on
channel 0: the count handed over lies between `0` and `20`, and the tally after the
first chunk is at most the tally after both. -/
theorem session_totals_monotone_witness :
    (∃ t pk tp rms avg : ℚ, BallisticsCall.updateChannel 0 t pk tp rms avg
        (countOverflows (overflowRing : RingBuffer ℚ) 0 20 (20 / 2)) ∈
          (processBufferChunk id exampleComponents
            (exampleProcessor false (overflowRing : RingBuffer ℚ)) 20).calls ∧
        0 ≤ countOverflows (overflowRing : RingBuffer ℚ) 0 20 (20 / 2) ∧
        countOverflows (overflowRing : RingBuffer ℚ) 0 20 (20 / 2) ≤ ((20 : Nat) : Int)) ∧
      (totalsAfter 0 ({ maximumPeakLevel := 0, overflowCount := 0 } : ChannelTotals ℚ)
          (sessionCalls id
            [{ components := exampleComponents
               processor := exampleProcessor false overflowRing
               uChunkSize := 20 }])).overflowCount ≤
        (totalsAfter 0 ({ maximumPeakLevel := 0, overflowCount := 0 } : ChannelTotals ℚ)
          (sessionCalls id
            ([{ components := exampleComponents
                processor := exampleProcessor false overflowRing
                uChunkSize := 20 }] ++
             [{ components := exampleComponents
                processor := exampleProcessor false overflowRing
                uChunkSize := 20 }]))).overflowCount := by
  have h := session_totals_monotone (id : ℚ → ℚ) 0
    ({ maximumPeakLevel := 0, overflowCount := 0 } : ChannelTotals ℚ)
    [{ components := exampleComponents
       processor := exampleProcessor false overflowRing
       uChunkSize := 20 }]
    [{ components := exampleComponents
       processor := exampleProcessor false overflowRing
       uChunkSize := 20 }]
  have hmem : BallisticsCall.updateChannel 0 (((20 : Nat) : ℚ) / 44100)
      ((overflowRing : RingBuffer ℚ).getMagnitude 0 20 (20 / 2))
      (exampleComponents.truePeakLevel (overflowRing : RingBuffer ℚ) (20 / 2) 0)
      ((overflowRing : RingBuffer ℚ).getRMSLevel 0 20 (20 / 2))
      (exampleComponents.averageLevel (overflowRing : RingBuffer ℚ) 0 0)
      (countOverflows (overflowRing : RingBuffer ℚ) 0 20 (20 / 2)) ∈
        (processBufferChunk id exampleComponents
          (exampleProcessor false (overflowRing : RingBuffer ℚ)) 20).calls :=
    (mem_calls_updateChannel id exampleComponents
      (exampleProcessor false (overflowRing : RingBuffer ℚ)) 20 0 _ _ _ _ _ _).mpr
        ⟨by decide, rfl⟩
  exact ⟨⟨_, _, _, _, _, hmem, h.2.1 _ _ _ _ _ _ _ _ _ _ hmem⟩, h.2.2.1⟩

end Session

/-! ## `prepareToPlay` and `processBlock` : the sample rate check -/

section Prepare

variable [LinearOrderedField α] [FloorRing α]

/-- The result of `prepareToPlay` for a sample rate outside `44100 .. 192000`. -/
theorem prepareToPlay_rejected (host : Host) (fMeterMinimumDecibel : α) (plugin : Plugin α)
    (sampleRate : α) (samplesPerBlock : Int)
    (h : sampleRate < 44100 ∨ sampleRate > 192000) :
    prepareToPlay host fMeterMinimumDecibel plugin sampleRate samplesPerBlock =
      { plugin with bSampleRateIsValid := false } := by
  simp only [prepareToPlay, if_pos h]

/-- The size given to the ring buffers is the larger of the block size and `1024`. -/
theorem ringBufferSize_eq_max (samplesPerBlock : Int) :
    (ringBufferSize samplesPerBlock : Int) = max samplesPerBlock 1024 := by
  unfold ringBufferSize nTrakmeterBufferSize
  split_ifs with h
  · rw [Int.toNat_of_nonneg (by omega), max_eq_left (by omega)]
  · rw [Int.toNat_of_nonneg (by omega), max_eq_right (by omega)]

/-- Claim C13: for every sample rate accepted by `prepareToPlay` (44100 to 192000), the
oversampling factor given to `TruePeakMeter` is `8` below 88200 Hz, `4` from 88200 Hz
and below 176400 Hz, and `2` from 176400 Hz. -/
theorem prepareToPlay_oversampling (host : Host) (fMeterMinimumDecibel : α)
    (plugin : Plugin α) (sampleRate : α) (samplesPerBlock : Int)
    (hlo : 44100 ≤ sampleRate) (hhi : sampleRate ≤ 192000) :
    (prepareToPlay host fMeterMinimumDecibel plugin sampleRate samplesPerBlock).pTruePeakMeter =
      some
        { oversamplingRate :=
            if sampleRate < 88200 then 8 else if sampleRate < 176400 then 4 else 2
          channels := host.numInputChannels
          bufferSize := 1024 } := by
  have hvalid : ¬ (sampleRate < 44100 ∨ sampleRate > 192000) := by
    rintro (h | h)
    · exact absurd hlo (not_le.mpr h)
    · exact absurd hhi (not_le.mpr h)
  simp only [prepareToPlay, if_neg hvalid, oversamplingRate, nTrakmeterBufferSize]
  by_cases h1 : sampleRate < 88200
  · have h2 : ¬ sampleRate ≥ 176400 := by
      intro h; linarith
    have h3 : ¬ sampleRate ≥ 88200 := not_le.mpr h1
    rw [if_pos h1, if_neg h2, if_neg h3]
  · by_cases h2 : sampleRate < 176400
    · have h3 : ¬ sampleRate ≥ 176400 := not_le.mpr h2
      have h4 : sampleRate ≥ 88200 := not_lt.mp h1
      rw [if_neg h1, if_pos h2, if_neg h3, if_pos h4]
      rfl
    · have h3 : sampleRate ≥ 176400 := not_lt.mp h2
      rw [if_neg h1, if_neg h2, if_pos h3]
      rfl

/-- Claim C13 at 96000 Hz, where the factor is `4`. -/
theorem prepareToPlay_oversampling_witness :
    (44100 : ℚ) ≤ 96000 ∧ (96000 : ℚ) ≤ 192000 ∧
      (prepareToPlay stereoHost (-90) (freshPlugin : Plugin ℚ) 96000 512).pTruePeakMeter =
        some { oversamplingRate := 4, channels := 2, bufferSize := 1024 } := by
  refine ⟨by norm_num, by norm_num, ?_⟩
  have h := prepareToPlay_oversampling stereoHost (-90) (freshPlugin : Plugin ℚ) 96000 512
    (by norm_num) (by norm_num)
  rw [h]
  norm_num [stereoHost]

/-- Claim C14: `prepareToPlay` marks the sample rate as valid if and only if
`44100 ≤ sampleRate ≤ 192000`; for any other rate it only sets `bSampleRateIsValid`
to `false`: the meter ballistics, the measurement components, the ring buffers,
`nSamplesInBuffer` and every other member are left as they were. -/
theorem prepareToPlay_validity (host : Host) (fMeterMinimumDecibel : α) (plugin : Plugin α)
    (sampleRate : α) (samplesPerBlock : Int) :
    ((prepareToPlay host fMeterMinimumDecibel plugin sampleRate
          samplesPerBlock).bSampleRateIsValid = true ↔
        44100 ≤ sampleRate ∧ sampleRate ≤ 192000) ∧
      (¬ (44100 ≤ sampleRate ∧ sampleRate ≤ 192000) →
        prepareToPlay host fMeterMinimumDecibel plugin sampleRate samplesPerBlock =
            { plugin with bSampleRateIsValid := false } ∧
          (prepareToPlay host fMeterMinimumDecibel plugin sampleRate
            samplesPerBlock).pMeterBallistics = plugin.pMeterBallistics ∧
          (prepareToPlay host fMeterMinimumDecibel plugin sampleRate
            samplesPerBlock).pAverageLevelFiltered = plugin.pAverageLevelFiltered ∧
          (prepareToPlay host fMeterMinimumDecibel plugin sampleRate
            samplesPerBlock).pTruePeakMeter = plugin.pTruePeakMeter ∧
          (prepareToPlay host fMeterMinimumDecibel plugin sampleRate
            samplesPerBlock).pRingBufferInput = plugin.pRingBufferInput ∧
          (prepareToPlay host fMeterMinimumDecibel plugin sampleRate
            samplesPerBlock).pRingBufferOutput = plugin.pRingBufferOutput ∧
          (prepareToPlay host fMeterMinimumDecibel plugin sampleRate
            samplesPerBlock).nSamplesInBuffer = plugin.nSamplesInBuffer) := by
  by_cases h : sampleRate < 44100 ∨ sampleRate > 192000
  · have hnot : ¬ (44100 ≤ sampleRate ∧ sampleRate ≤ 192000) := by
      rintro ⟨hlo, hhi⟩
      rcases h with h | h
      · exact absurd hlo (not_le.mpr h)
      · exact absurd hhi (not_le.mpr h)
    rw [prepareToPlay_rejected host fMeterMinimumDecibel plugin sampleRate samplesPerBlock h]
    refine ⟨⟨fun hv => ?_, fun hv => absurd hv hnot⟩, fun _ => ⟨rfl, rfl, rfl, rfl, rfl, rfl, rfl⟩⟩
    simp at hv
  · have hin : 44100 ≤ sampleRate ∧ sampleRate ≤ 192000 := by
      push_neg at h
      exact h
    refine ⟨⟨fun _ => hin, fun _ => ?_⟩, fun hnot => absurd hin hnot⟩
    simp only [prepareToPlay, if_neg h]

/-- Claim C14 at 22050 Hz, which is rejected, after a first call at 48000 Hz. -/
theorem prepareToPlay_validity_witness :
    ¬ ((44100 : ℚ) ≤ 22050 ∧ (22050 : ℚ) ≤ 192000) ∧
      prepareToPlay stereoHost (-90)
          (prepareToPlay stereoHost (-90) (freshPlugin : Plugin ℚ) 48000 512) 22050 512 =
        { prepareToPlay stereoHost (-90) (freshPlugin : Plugin ℚ) 48000 512 with
          bSampleRateIsValid := false } :=
  ⟨by norm_num,
    ((prepareToPlay_validity stereoHost (-90)
      (prepareToPlay stereoHost (-90) (freshPlugin : Plugin ℚ) 48000 512) 22050 512).2
        (by norm_num)).1⟩

/-- Claim C16: for every host block size, once the sample rate is accepted, the capacity
given to both ring buffers equals `max (samplesPerBlock, 1024)`, hence is at least the
host block size and at least the chunk size `1024`. -/
theorem prepareToPlay_ring_capacity (host : Host) (fMeterMinimumDecibel : α)
    (plugin : Plugin α) (sampleRate : α) (samplesPerBlock : Int)
    (hlo : 44100 ≤ sampleRate) (hhi : sampleRate ≤ 192000) :
    (prepareToPlay host fMeterMinimumDecibel plugin sampleRate
          samplesPerBlock).pRingBufferInput =
        some
          { isInput := true
            channels := host.numInputChannels
            length := ringBufferSize samplesPerBlock
            preDelay := 1024
            chunkSize := 1024
            hasCallback := true } ∧
      (prepareToPlay host fMeterMinimumDecibel plugin sampleRate
          samplesPerBlock).pRingBufferOutput =
        some
          { isInput := false
            channels := host.numInputChannels
            length := ringBufferSize samplesPerBlock
            preDelay := 1024
            chunkSize := 1024
            hasCallback := false } ∧
      (ringBufferSize samplesPerBlock : Int) = max samplesPerBlock 1024 ∧
      samplesPerBlock ≤ (ringBufferSize samplesPerBlock : Int) ∧
      1024 ≤ (ringBufferSize samplesPerBlock : Int) := by
  have hvalid : ¬ (sampleRate < 44100 ∨ sampleRate > 192000) := by
    rintro (h | h)
    · exact absurd hlo (not_le.mpr h)
    · exact absurd hhi (not_le.mpr h)
  have hsize := ringBufferSize_eq_max samplesPerBlock
  refine ⟨?_, ?_, hsize, ?_, ?_⟩
  · simp only [prepareToPlay, if_neg hvalid, nTrakmeterBufferSize]
  · simp only [prepareToPlay, if_neg hvalid, nTrakmeterBufferSize]
  · rw [hsize]
    exact le_max_left _ _
  · rw [hsize]
    exact le_max_right _ _

/-- Claim C16 at 48000 Hz with a host block of 4096 samples: both capacities are 4096. -/
theorem prepareToPlay_ring_capacity_witness :
    (44100 : ℚ) ≤ 48000 ∧ (48000 : ℚ) ≤ 192000 ∧
      (prepareToPlay stereoHost (-90) (freshPlugin : Plugin ℚ) 48000 4096).pRingBufferInput =
        some
          { isInput := true
            channels := 2
            length := 4096
            preDelay := 1024
            chunkSize := 1024
            hasCallback := true } ∧
      (prepareToPlay stereoHost (-90) (freshPlugin : Plugin ℚ) 48000 4096).pRingBufferOutput =
        some
          { isInput := false
            channels := 2
            length := 4096
            preDelay := 1024
            chunkSize := 1024
            hasCallback := false } :=
  ⟨by norm_num, by norm_num,
    (prepareToPlay_ring_capacity stereoHost (-90) (freshPlugin : Plugin ℚ) 48000 4096
      (by norm_num) (by norm_num)).1,
    (prepareToPlay_ring_capacity stereoHost (-90) (freshPlugin : Plugin ℚ) 48000 4096
      (by norm_num) (by norm_num)).2.1⟩

end Prepare

/-! ## `processBlock` with an invalid sample rate -/

section Block

variable [LinearOrderedField α]

/-- The loop that clears the channels `0 .. numChannels - 1` of a buffer. -/
theorem clearLoop_sample (numSamples : Nat) (buffer : AudioBuffer α) (numChannels c i : Nat) :
    ((List.range numChannels).foldl
        (fun b nChannel => b.clear nChannel 0 numSamples) buffer).sample c i =
      if c < numChannels ∧ i < numSamples then 0 else buffer.sample c i := by
  induction numChannels with
  | zero => simp
  | succ n ih =>
    rw [List.range_succ, List.foldl_append, List.foldl_cons, List.foldl_nil]
    generalize (List.range n).foldl (fun b nChannel => b.clear nChannel 0 numSamples) buffer =
      cleared at ih
    simp only [AudioBuffer.clear, ih, Nat.zero_le, true_and, Nat.zero_add]
    by_cases hc : c = n
    · subst hc
      by_cases hi : i < numSamples
      · simp [hi]
      · simp [hi]
    · by_cases hlt : c < n
      · have h1 : c < n + 1 := by omega
        simp [hc, hlt, h1]
      · have h1 : ¬ c < n + 1 := by omega
        simp [hc, hlt, h1]

/-- The loop that clears channels keeps the size of the buffer. -/
theorem clearLoop_size (numSamples : Nat) (buffer : AudioBuffer α) (numChannels : Nat) :
    ((List.range numChannels).foldl
        (fun b nChannel => b.clear nChannel 0 numSamples) buffer).numSamples =
        buffer.numSamples ∧
      ((List.range numChannels).foldl
        (fun b nChannel => b.clear nChannel 0 numSamples) buffer).numChannels =
        buffer.numChannels := by
  induction numChannels with
  | zero => simp
  | succ n ih =>
    rw [List.range_succ, List.foldl_append, List.foldl_cons, List.foldl_nil]
    generalize (List.range n).foldl (fun b nChannel => b.clear nChannel 0 numSamples) buffer =
      cleared at ih
    simp only [AudioBuffer.clear, ih, and_self]

/-- Claim C15: when the sample rate is invalid, `processBlock` sets every sample of
every main output channel of the block to zero, leaves the other samples alone, and
returns without any call on the ring buffers (no samples are added to the input ring
buffer) and without changing any member: `nSamplesInBuffer`, the attenuation level
and the level arrays are as before. -/
theorem processBlock_invalid_rate (host : Host) (externals : BlockExternals α)
    (plugin : Plugin α) (buffer : AudioBuffer α) (h : plugin.bSampleRateIsValid = false) :
    (processBlock host externals plugin buffer).plugin = plugin ∧
      (processBlock host externals plugin buffer).calls = [] ∧
      (∀ c i, c < host.numOutputChannels → i < buffer.numSamples →
        (processBlock host externals plugin buffer).buffer.sample c i = 0) ∧
      (∀ c i, ¬ (c < host.numOutputChannels ∧ i < buffer.numSamples) →
        (processBlock host externals plugin buffer).buffer.sample c i = buffer.sample c i) ∧
      (processBlock host externals plugin buffer).buffer.numSamples = buffer.numSamples ∧
      (processBlock host externals plugin buffer).buffer.numChannels = buffer.numChannels := by
  have hres : processBlock host externals plugin buffer =
      { plugin := plugin
        buffer := (List.range host.numOutputChannels).foldl
          (fun b nChannel => b.clear nChannel 0 buffer.numSamples) buffer
        calls := [] } := by
    simp [processBlock, h]
  rw [hres]
  refine ⟨rfl, rfl, ?_, ?_, (clearLoop_size _ _ _).1, (clearLoop_size _ _ _).2⟩
  · intro c i hc hi
    simp only [clearLoop_sample, if_pos (And.intro hc hi)]
  · intro c i hci
    simp only [clearLoop_sample, if_neg hci]

/-- Claim C15 at a plug-in that was never prepared, with a block of four samples `1` on
two channels: all eight samples become `0` and nothing else happens. -/
theorem processBlock_invalid_rate_witness :
    (freshPlugin : Plugin ℚ).bSampleRateIsValid = false ∧
      (processBlock stereoHost idleExternals (freshPlugin : Plugin ℚ) onesBuffer).plugin =
        freshPlugin ∧
      (processBlock stereoHost idleExternals (freshPlugin : Plugin ℚ) onesBuffer).calls = [] ∧
      (processBlock stereoHost idleExternals (freshPlugin : Plugin ℚ)
        onesBuffer).buffer.sample 1 3 = 0 :=
  ⟨rfl,
    (processBlock_invalid_rate stereoHost idleExternals (freshPlugin : Plugin ℚ) onesBuffer
      rfl).1,
    (processBlock_invalid_rate stereoHost idleExternals (freshPlugin : Plugin ℚ) onesBuffer
      rfl).2.1,
    (processBlock_invalid_rate stereoHost idleExternals (freshPlugin : Plugin ℚ) onesBuffer
      rfl).2.2.1 1 3 (by decide) (by decide)⟩

end Block

/-! ## The stored values of `KmeterPluginParameters` -/

/-- The constructor stores allowed values. -/
theorem newParameters_valid (uninitialised : Int) :
    StoredValuesValid uninitialised (newParameters uninitialised) := by
  refine ⟨Or.inr (Or.inr (Or.inr rfl)), ?_⟩
  intro nIndex h1 h2
  cases nIndex with
  | selCrestFactor => exact absurd rfl h1
  | selExpanded => exact Or.inl rfl
  | selPeak => exact Or.inl rfl
  | selInfiniteHold => exact Or.inl rfl
  | selMono => exact Or.inl rfl
  | selValidationFileName => exact Or.inr (Or.inr ⟨rfl, rfl⟩)
  | selValidationSelectedChannel => exact absurd rfl h2
  | selValidationPeakMeterLevel => exact Or.inr (Or.inl rfl)
  | selValidationAverageMeterLevel => exact Or.inr (Or.inl rfl)
  | selValidationStereoMeterValue => exact Or.inr (Or.inl rfl)
  | selValidationPhaseCorrelation => exact Or.inr (Or.inl rfl)

/-- The array `nParam` after a call of `setParameterFromInt` that changes the value. -/
theorem setParameterFromInt_changed (parameters : KmeterPluginParameters)
    (nIndex : Parameter) (nValue : Int) (hne : parameters.nParam nIndex ≠ nValue) :
    (setParameterFromInt parameters nIndex nValue).nParam =
      Function.update parameters.nParam nIndex
        (if nIndex = Parameter.selCrestFactor then
          if nValue = 0 ∨ nValue = 12 ∨ nValue = 14 then nValue else 20
        else if nIndex = Parameter.selValidationSelectedChannel then nValue
        else if nValue ≠ 0 then 1 else 0) := by
  simp only [setParameterFromInt, if_pos hne, MarkParameter]

/-- A call of `setParameterFromInt` with the value already stored changes nothing. -/
theorem setParameterFromInt_same (parameters : KmeterPluginParameters)
    (nIndex : Parameter) (nValue : Int) (heq : ¬ parameters.nParam nIndex ≠ nValue) :
    setParameterFromInt parameters nIndex nValue = parameters := by
  simp only [setParameterFromInt, if_neg heq]

/-- The call `setParameterFromInt` keeps the stored values allowed. -/
theorem setParameterFromInt_valid (uninitialised : Int) (parameters : KmeterPluginParameters)
    (nIndex : Parameter) (nValue : Int) (h : StoredValuesValid uninitialised parameters) :
    StoredValuesValid uninitialised (setParameterFromInt parameters nIndex nValue) := by
  obtain ⟨hc, ho⟩ := h
  by_cases hne : parameters.nParam nIndex ≠ nValue
  · unfold StoredValuesValid
    rw [setParameterFromInt_changed parameters nIndex nValue hne]
    refine ⟨?_, ?_⟩
    · by_cases hi : nIndex = Parameter.selCrestFactor
      · subst hi
        rw [Function.update_same, if_pos rfl]
        by_cases hv : nValue = 0 ∨ nValue = 12 ∨ nValue = 14
        · rw [if_pos hv]
          rcases hv with hv | hv | hv
          · exact Or.inl hv
          · exact Or.inr (Or.inl hv)
          · exact Or.inr (Or.inr (Or.inl hv))
        · rw [if_neg hv]
          exact Or.inr (Or.inr (Or.inr rfl))
      · rw [Function.update_noteq (Ne.symm hi)]
        exact hc
    · intro j hj1 hj2
      by_cases hij : j = nIndex
      · subst hij
        rw [Function.update_same, if_neg hj1, if_neg hj2]
        by_cases hz : nValue ≠ 0
        · rw [if_pos hz]
          exact Or.inr (Or.inl rfl)
        · rw [if_neg hz]
          exact Or.inl rfl
      · rw [Function.update_noteq hij]
        exact ho j hj1 hj2
  · rw [setParameterFromInt_same parameters nIndex nValue hne]
    exact ⟨hc, ho⟩

/-- The call `setValidationFile` does not touch the stored integers. -/
theorem setValidationFile_valid (files : FileSystem) (uninitialised : Int)
    (parameters : KmeterPluginParameters) (fileValidation : String)
    (h : StoredValuesValid uninitialised parameters) :
    StoredValuesValid uninitialised (setValidationFile files parameters fileValidation) := by
  unfold setValidationFile
  split_ifs
  · exact h
  · exact h

/-- The call `loadFromXml` keeps the stored values allowed. -/
theorem loadFromXml_valid (files : FileSystem) (uninitialised : Int)
    (parameters : KmeterPluginParameters) (xml : Option XmlElement)
    (h : StoredValuesValid uninitialised parameters) :
    StoredValuesValid uninitialised (loadFromXml files parameters xml) := by
  cases xml with
  | none => exact h
  | some xml =>
    simp only [loadFromXml]
    split_ifs
    all_goals repeat (first
      | apply setParameterFromInt_valid
      | apply setValidationFile_valid)
    all_goals exact h

/-- Claim C20: in every state of `KmeterPluginParameters` reachable from its constructor
through `setParameterFromInt`, `setParameterFromFloat`, `setParameterFromBool` and
`loadFromXml`, the stored crest factor is `0`, `12`, `14` or `20`, and every other
stored integer except the validation selected channel is `0` or `1`; the only entry
that may not have been set, the one at the index of the validation file name, is
`0` or `1` or still its never-assigned content. -/
theorem reachable_stored_values (α : Type) [LinearOrderedField α] [FloorRing α]
    (selectors : CrestSelectors) (files : FileSystem) (uninitialised : Int)
    (parameters : KmeterPluginParameters)
    (h : Reachable α selectors files uninitialised parameters) :
    (parameters.nParam Parameter.selCrestFactor = 0 ∨
        parameters.nParam Parameter.selCrestFactor = 12 ∨
        parameters.nParam Parameter.selCrestFactor = 14 ∨
        parameters.nParam Parameter.selCrestFactor = 20) ∧
      (∀ nIndex, nIndex ≠ Parameter.selCrestFactor →
        nIndex ≠ Parameter.selValidationSelectedChannel →
        nIndex ≠ Parameter.selValidationFileName →
        parameters.nParam nIndex = 0 ∨ parameters.nParam nIndex = 1) ∧
      (parameters.nParam Parameter.selValidationFileName = 0 ∨
        parameters.nParam Parameter.selValidationFileName = 1 ∨
        parameters.nParam Parameter.selValidationFileName = uninitialised) := by
  have hvalid : StoredValuesValid uninitialised parameters := by
    induction h with
    | constructed => exact newParameters_valid uninitialised
    | fromInt p nIndex nValue _ ih => exact setParameterFromInt_valid uninitialised p _ _ ih
    | fromFloat p nIndex fValue _ ih => exact setParameterFromInt_valid uninitialised p _ _ ih
    | fromBool p nIndex bValue _ ih => exact setParameterFromInt_valid uninitialised p _ _ ih
    | loaded p xml _ ih => exact loadFromXml_valid files uninitialised p xml ih
  obtain ⟨hc, ho⟩ := hvalid
  refine ⟨hc, ?_, ?_⟩
  · intro nIndex h1 h2 h3
    rcases ho nIndex h1 h2 with h0 | h0 | h0
    · exact Or.inl h0
    · exact Or.inr h0
    · exact absurd h0.1 h3
  · rcases ho Parameter.selValidationFileName (by decide) (by decide) with h0 | h0 | h0
    · exact Or.inl h0
    · exact Or.inr (Or.inl h0)
    · exact Or.inr (Or.inr h0.2)

/-- Claim C20 at the state reached by asking for the crest factor `13` and then
switching Mono on with the value `5`: the state is reachable, the crest factor stored
is `20` and Mono is `1`. -/
theorem reachable_stored_values_witness :
    Reachable ℚ standardSelectors noFiles 7
        (setParameterFromInt
          (setParameterFromInt (newParameters 7) Parameter.selCrestFactor 13)
          Parameter.selMono 5) ∧
      ((setParameterFromInt
            (setParameterFromInt (newParameters 7) Parameter.selCrestFactor 13)
            Parameter.selMono 5).nParam Parameter.selCrestFactor = 0 ∨
        (setParameterFromInt
            (setParameterFromInt (newParameters 7) Parameter.selCrestFactor 13)
            Parameter.selMono 5).nParam Parameter.selCrestFactor = 12 ∨
        (setParameterFromInt
            (setParameterFromInt (newParameters 7) Parameter.selCrestFactor 13)
            Parameter.selMono 5).nParam Parameter.selCrestFactor = 14 ∨
        (setParameterFromInt
            (setParameterFromInt (newParameters 7) Parameter.selCrestFactor 13)
            Parameter.selMono 5).nParam Parameter.selCrestFactor = 20) ∧
      ((setParameterFromInt
            (setParameterFromInt (newParameters 7) Parameter.selCrestFactor 13)
            Parameter.selMono 5).nParam Parameter.selMono = 0 ∨
        (setParameterFromInt
            (setParameterFromInt (newParameters 7) Parameter.selCrestFactor 13)
            Parameter.selMono 5).nParam Parameter.selMono = 1) :=
  ⟨Reachable.fromInt _ _ _ (Reachable.fromInt _ _ _ Reachable.constructed),
    (reachable_stored_values ℚ standardSelectors noFiles 7 _
      (Reachable.fromInt _ _ _ (Reachable.fromInt _ _ _ Reachable.constructed))).1,
    (reachable_stored_values ℚ standardSelectors noFiles 7 _
      (Reachable.fromInt _ _ _ (Reachable.fromInt _ _ _ Reachable.constructed))).2.1
        Parameter.selMono (by decide) (by decide) (by decide)⟩

/-! ## Antisymmetry of the stereo meter value -/

section StereoSymmetry

variable [LinearOrderedField α]

/-- Claim C21: the raw stereo balance is antisymmetric: for every pair of RMS levels
`(a, b)`, in particular for every pair of non-negative ones, the balance for left `a`
and right `b` is the negation of the balance for left `b` and right `a`, and it is
exactly `0` when `a = b`. -/
theorem stereoMeter_antisymmetric (a b : α) :
    (stereoMeter a b).fStereoMeterValue = -(stereoMeter b a).fStereoMeterValue ∧
      (a = b → (stereoMeter a b).fStereoMeterValue = 0) := by
  have hsame : ∀ x : α, (stereoMeter x x).fStereoMeterValue = 0 := by
    intro x
    by_cases hx : x < 0.0001 ∧ x < 0.0001
    · rw [stereoMeter_forced x x hx]
    · rw [stereoMeter_right x x hx (le_refl x)]
      have hpos : (0 : α) < x := lt_of_lt_of_le floor_pos (floor_le_right x x hx (le_refl x))
      simp only
      rw [div_self (ne_of_gt hpos), sub_self]
  refine ⟨?_, fun hab => by rw [hab]; exact hsame b⟩
  by_cases hfloor : a < 0.0001 ∧ b < 0.0001
  · rw [stereoMeter_forced a b hfloor, stereoMeter_forced b a ⟨hfloor.2, hfloor.1⟩]
    simp
  · have hfloor2 : ¬ (b < 0.0001 ∧ a < 0.0001) := fun h => hfloor ⟨h.2, h.1⟩
    rcases lt_trichotomy a b with hlt | heq | hgt
    · rw [stereoMeter_right a b hfloor (le_of_lt hlt),
        stereoMeter_left b a hfloor2 (not_le.mpr hlt)]
      simp only
      ring
    · subst heq
      rw [hsame a]
      simp
    · rw [stereoMeter_left a b hfloor (not_le.mpr hgt),
        stereoMeter_right b a hfloor2 (le_of_lt hgt)]
      simp only
      ring

/-- Claim C21 at the levels `1` and `1/2`, where the two balances are `-1/2` and `1/2`,
and at the equal levels `1` and `1`. -/
theorem stereoMeter_antisymmetric_witness :
    (stereoMeter (1 : ℚ) (1 / 2)).fStereoMeterValue =
        -(stereoMeter (1 / 2 : ℚ) 1).fStereoMeterValue ∧
      (stereoMeter (1 : ℚ) (1 / 2)).fStereoMeterValue = -1 / 2 ∧
      (stereoMeter (1 : ℚ) 1).fStereoMeterValue = 0 :=
  ⟨(stereoMeter_antisymmetric (1 : ℚ) (1 / 2)).1,
    by norm_num [stereoMeter],
    (stereoMeter_antisymmetric (1 : ℚ) 1).2 rfl⟩

end StereoSymmetry

/-! ## `processBlock` : the Mono and Flip loops -/

/-- One more iteration of the Flip loop. -/
theorem flipChannels_succ (buffer : AudioBuffer α) (n : Nat) :
    flipChannels buffer (n + 1) =
      ((flipChannels buffer n).setSample 0 n ((flipChannels buffer n).sample 1 n)).setSample
        1 n ((flipChannels buffer n).sample 0 n) := by
  simp only [flipChannels, List.range_succ, List.foldl_append, List.foldl_cons, List.foldl_nil]

/-- The samples after the Flip loop over the first `n` indices. -/
theorem flipChannels_sample (buffer : AudioBuffer α) (n c i : Nat) :
    (flipChannels buffer n).sample c i =
      if i < n ∧ c = 0 then buffer.sample 1 i
      else if i < n ∧ c = 1 then buffer.sample 0 i
      else buffer.sample c i := by
  induction n generalizing c i with
  | zero => simp [flipChannels]
  | succ n ih =>
    rw [flipChannels_succ]
    simp only [AudioBuffer.setSample, ih, lt_irrefl, false_and, if_false]
    by_cases hi : i = n
    · subst hi
      by_cases h0 : c = 0
      · simp [h0]
      · by_cases h1 : c = 1
        · simp [h1]
        · simp [h0, h1]
    · by_cases hlt : i < n
      · have h1 : i < n + 1 := by omega
        simp [hi, hlt, h1]
      · have h1 : ¬ i < n + 1 := by omega
        simp [hi, hlt, h1]

/-- The Flip loop keeps the size of the buffer. -/
theorem flipChannels_size (buffer : AudioBuffer α) (n : Nat) :
    (flipChannels buffer n).numChannels = buffer.numChannels ∧
      (flipChannels buffer n).numSamples = buffer.numSamples := by
  induction n with
  | zero => simp [flipChannels]
  | succ n ih =>
    rw [flipChannels_succ]
    simp only [AudioBuffer.setSample, ih, and_self]

/-- Flipping the first `n` indices twice restores the buffer. -/
theorem flipChannels_twice (buffer : AudioBuffer α) (n : Nat) :
    flipChannels (flipChannels buffer n) n = buffer := by
  obtain ⟨hc, hs⟩ := flipChannels_size (flipChannels buffer n) n
  obtain ⟨hc2, hs2⟩ := flipChannels_size buffer n
  have hsample : (flipChannels (flipChannels buffer n) n).sample = buffer.sample := by
    funext c i
    rw [flipChannels_sample]
    simp only [flipChannels_sample]
    by_cases hlt : i < n
    · by_cases h0 : c = 0
      · simp [hlt, h0]
      · by_cases h1 : c = 1
        · simp [hlt, h1]
        · simp [hlt, h0, h1]
    · simp [hlt]
  cases hfl : flipChannels (flipChannels buffer n) n with
  | mk nc ns smp =>
    cases buffer with
    | mk nc0 ns0 smp0 =>
      rw [hfl] at hc hs hsample
      simp only at hc hs hsample hc2 hs2
      rw [hc2] at hc
      rw [hs2] at hs
      rw [hc, hs, hsample]

section MonoFlip

variable [LinearOrderedField α]

/-- One more iteration of the Mono loop. -/
theorem mixToMono_succ (buffer : AudioBuffer α) (n : Nat) :
    mixToMono buffer (n + 1) =
      ((mixToMono buffer n).setSample 0 n
          (0.5 * ((mixToMono buffer n).sample 0 n + (mixToMono buffer n).sample 1 n))).setSample
        1 n
        (((mixToMono buffer n).setSample 0 n
          (0.5 * ((mixToMono buffer n).sample 0 n +
            (mixToMono buffer n).sample 1 n))).sample 0 n) := by
  simp only [mixToMono, List.range_succ, List.foldl_append, List.foldl_cons, List.foldl_nil]

/-- The samples after the Mono loop over the first `n` indices. -/
theorem mixToMono_sample (buffer : AudioBuffer α) (n c i : Nat) :
    (mixToMono buffer n).sample c i =
      if i < n ∧ (c = 0 ∨ c = 1) then 0.5 * (buffer.sample 0 i + buffer.sample 1 i)
      else buffer.sample c i := by
  induction n generalizing c i with
  | zero => simp [mixToMono]
  | succ n ih =>
    rw [mixToMono_succ]
    simp only [AudioBuffer.setSample, ih, lt_irrefl, false_and, if_false, and_self, if_true,
      true_and]
    by_cases hi : i = n
    · subst hi
      by_cases h0 : c = 0
      · simp [h0]
      · by_cases h1 : c = 1
        · simp [h1]
        · simp [h0, h1]
    · by_cases hlt : i < n
      · have h1 : i < n + 1 := by omega
        simp [hi, hlt, h1]
      · have h1 : ¬ i < n + 1 := by omega
        simp [hi, hlt, h1]

/-- Clearing channels from `first` on leaves the channels below `first` alone. -/
theorem clearFrom_sample (numSamples : Nat) (count : Nat) :
    ∀ (buffer : AudioBuffer α) (first c i : Nat), c < first →
      ((List.range' first count).foldl
          (fun b nChannel => b.clear nChannel 0 numSamples) buffer).sample c i =
        buffer.sample c i := by
  induction count with
  | zero => intro buffer first c i _; simp
  | succ k ih =>
    intro buffer first c i hc
    rw [List.range'_succ, List.foldl_cons, ih _ (first + 1) c i (by omega)]
    simp only [AudioBuffer.clear]
    rw [if_neg]
    intro h
    omega

/-- The block that `processBlock` hands to `pRingBufferInput->addSamples` when the
sample rate is valid and there is an input channel. -/
theorem processBlock_fedBlocks (host : Host) (externals : BlockExternals α)
    (plugin : Plugin α) (buffer : AudioBuffer α) (hvalid : plugin.bSampleRateIsValid = true)
    (hin : 1 ≤ host.numInputChannels) :
    fedBlocks (processBlock host externals plugin buffer).calls =
      [if plugin.isStereo = true then
          if host.selMono = true then
            mixToMono (stageInput host externals plugin buffer) buffer.numSamples
          else if host.selFlip = true then
            flipChannels (stageInput host externals plugin buffer) buffer.numSamples
          else stageInput host externals plugin buffer
        else stageInput host externals plugin buffer] := by
  have hnot : ¬ host.numInputChannels < 1 := by omega
  simp only [processBlock, hvalid, not_true_eq_false, if_false, if_neg hnot, stageInput]
  by_cases hplayer : plugin.audioFilePlayer = true
  · simp [hplayer, fedBlocks]
  · simp [hplayer, fedBlocks]

/-- Claim C22: for stereo input with Mono on, the block that `processBlock` feeds to the
input ring buffer has, at every sample index, left and right equal to
`0.5 * (L + R)` of the block entering the stereo stage, whatever Flip is; with Mono
off and Flip on the two channels are exchanged; flipping twice restores the block.
The block entering the stereo stage is the host block on both channels when no
validation file is played and the bus has two input channels. -/
theorem processBlock_mono_flip (host : Host) (externals : BlockExternals α)
    (plugin : Plugin α) (buffer : AudioBuffer α) (hvalid : plugin.bSampleRateIsValid = true)
    (hin : 1 ≤ host.numInputChannels) (hst : plugin.isStereo = true) :
    (host.selMono = true →
        ∃ fed, fedBlocks (processBlock host externals plugin buffer).calls = [fed] ∧
          ∀ i, i < buffer.numSamples →
            fed.sample 0 i = 0.5 * ((stageInput host externals plugin buffer).sample 0 i +
              (stageInput host externals plugin buffer).sample 1 i) ∧
            fed.sample 1 i = 0.5 * ((stageInput host externals plugin buffer).sample 0 i +
              (stageInput host externals plugin buffer).sample 1 i)) ∧
      (host.selMono = false → host.selFlip = true →
        ∃ fed, fedBlocks (processBlock host externals plugin buffer).calls = [fed] ∧
          (∀ i, i < buffer.numSamples →
            fed.sample 0 i = (stageInput host externals plugin buffer).sample 1 i ∧
            fed.sample 1 i = (stageInput host externals plugin buffer).sample 0 i) ∧
          flipChannels fed buffer.numSamples = stageInput host externals plugin buffer) ∧
      (plugin.audioFilePlayer = false → host.numInputChannels = 2 →
        ∀ i, (stageInput host externals plugin buffer).sample 0 i = buffer.sample 0 i ∧
          (stageInput host externals plugin buffer).sample 1 i = buffer.sample 1 i) := by
  have hfed := processBlock_fedBlocks host externals plugin buffer hvalid hin
  rw [if_pos hst] at hfed
  refine ⟨?_, ?_, ?_⟩
  · intro hmono
    rw [if_pos hmono] at hfed
    refine ⟨_, hfed, ?_⟩
    intro i hi
    simp [mixToMono_sample, hi]
  · intro hmono hflip
    have hmono2 : ¬ host.selMono = true := by simp [hmono]
    rw [if_neg hmono2, if_pos hflip] at hfed
    refine ⟨_, hfed, ?_, flipChannels_twice _ _⟩
    intro i hi
    simp [flipChannels_sample, hi]
  · intro hplayer hnum i
    simp only [stageInput, hplayer, Bool.false_eq_true, if_false, hnum]
    exact ⟨clearFrom_sample _ _ _ 2 0 i (by decide), clearFrom_sample _ _ _ 2 1 i (by decide)⟩

end MonoFlip

/-- Claim C22 at a prepared stereo plug-in with Mono on and a block whose left channel
is `0, 1, 2, 3` and whose right channel is `10`: at index `1` both fed samples are
`11/2`. -/
theorem processBlock_mono_flip_witness :
    ∃ fed : AudioBuffer ℚ,
      fedBlocks (processBlock { stereoHost with selMono := true } idleExternals
          ({ freshPlugin with bSampleRateIsValid := true, isStereo := true } : Plugin ℚ)
          rampBuffer).calls = [fed] ∧
        fed.sample 0 1 = 11 / 2 ∧ fed.sample 1 1 = 11 / 2 := by
  have h := processBlock_mono_flip { stereoHost with selMono := true } idleExternals
    ({ freshPlugin with bSampleRateIsValid := true, isStereo := true } : Plugin ℚ)
    rampBuffer rfl (by decide) rfl
  obtain ⟨fed, hfed, hsample⟩ := h.1 rfl
  have hstage := h.2.2 rfl rfl 1
  have h1 := hsample 1 (by decide)
  rw [hstage.1, hstage.2] at h1
  refine ⟨fed, hfed, ?_, ?_⟩
  · rw [h1.1]
    norm_num [rampBuffer]
  · rw [h1.2]
    norm_num [rampBuffer]

/-! ## `processBlock` : the number of buffered samples -/

section BufferCount

variable [LinearOrderedField α]

/-- One `processBlock` call keeps the counting invariant: the sample rate stays valid,
`nSamplesInBuffer` is the number of samples fed to the input ring buffer modulo
`1024`, and every pre-delay used on the output ring buffer lies in `[1, 1024]`. -/
theorem processBlock_count_step (host : Host) (externals : BlockExternals α)
    (plugin : Plugin α) (buffer : AudioBuffer α) (calls : List (BlockCall α))
    (hvalid : plugin.bSampleRateIsValid = true)
    (hcount : plugin.nSamplesInBuffer = (((fedLengths calls).sum : Nat) : Int) % 1024)
    (hpre : ∀ d, d ∈ outputPreDelays calls → 1 ≤ d ∧ d ≤ 1024) :
    (processBlock host externals plugin buffer).plugin.bSampleRateIsValid = true ∧
      (processBlock host externals plugin buffer).plugin.nSamplesInBuffer =
        (((fedLengths (calls ++ (processBlock host externals plugin buffer).calls)).sum : Nat) :
          Int) % 1024 ∧
      (∀ d, d ∈ outputPreDelays (calls ++ (processBlock host externals plugin buffer).calls) →
        1 ≤ d ∧ d ≤ 1024) ∧
      (fedLengths (processBlock host externals plugin buffer).calls).sum =
        if 1 ≤ host.numInputChannels then buffer.numSamples else 0 := by
  by_cases hin : host.numInputChannels < 1
  · have hres : processBlock host externals plugin buffer =
        { plugin := plugin, buffer := buffer, calls := [] } := by
      simp [processBlock, hvalid, hin]
    rw [hres]
    have hnot : ¬ 1 ≤ host.numInputChannels := by omega
    simp only [List.append_nil, if_neg hnot]
    exact ⟨hvalid, hcount, hpre, by simp [fedLengths]⟩
  · have hge : 1 ≤ host.numInputChannels := by omega
    have hmod : Int.tmod (plugin.nSamplesInBuffer + (buffer.numSamples : Int))
          nTrakmeterBufferSize =
        (plugin.nSamplesInBuffer + (buffer.numSamples : Int)) % 1024 := by
      have h0 : 0 ≤ plugin.nSamplesInBuffer := by
        rw [hcount]
        exact Int.emod_nonneg _ (by decide)
      exact Int.tmod_eq_emod (by omega) (by decide)
    have hlen : fedLengths (processBlock host externals plugin buffer).calls =
        [buffer.numSamples] := by
      simp only [processBlock, hvalid, not_true_eq_false, if_false, if_neg hin]
      by_cases hplayer : plugin.audioFilePlayer = true
      · simp [hplayer, fedLengths]
      · simp [hplayer, fedLengths]
    have hdel : outputPreDelays (processBlock host externals plugin buffer).calls =
        [1024 - (plugin.nSamplesInBuffer + (buffer.numSamples : Int)) % 1024] := by
      simp only [processBlock, hvalid, not_true_eq_false, if_false, if_neg hin, hmod]
      by_cases hplayer : plugin.audioFilePlayer = true
      · simp [hplayer, outputPreDelays, nTrakmeterBufferSize]
      · simp [hplayer, outputPreDelays, nTrakmeterBufferSize]
    have hn : (processBlock host externals plugin buffer).plugin.nSamplesInBuffer =
        (plugin.nSamplesInBuffer + (buffer.numSamples : Int)) % 1024 := by
      simp only [processBlock, hvalid, not_true_eq_false, if_false, if_neg hin, hmod]
    have hv : (processBlock host externals plugin buffer).plugin.bSampleRateIsValid = true := by
      simp only [processBlock, hvalid, not_true_eq_false, if_false, if_neg hin]
    refine ⟨hv, ?_, ?_, ?_⟩
    · rw [hn, hcount]
      simp only [fedLengths, List.filterMap_append, List.sum_append] at hlen ⊢
      rw [hlen]
      simp only [List.sum_cons, List.sum_nil, Nat.add_zero]
      push_cast
      rw [Int.emod_add_emod]
    · intro d hd
      simp only [outputPreDelays, List.filterMap_append, List.mem_append] at hd hdel hpre
      rcases hd with hd | hd
      · exact hpre d hd
      · rw [hdel] at hd
        simp only [List.mem_singleton] at hd
        have h1 := Int.emod_nonneg (plugin.nSamplesInBuffer + (buffer.numSamples : Int))
          (show (1024 : Int) ≠ 0 by decide)
        have h2 := Int.emod_lt_of_pos (plugin.nSamplesInBuffer + (buffer.numSamples : Int))
          (show (0 : Int) < 1024 by decide)
        omega
    · rw [hlen, if_pos hge]
      simp

/-- The counting invariant over a sequence of `processBlock` calls. -/
theorem processBlocks_count (blocks : List (BlockInput α)) :
    ∀ session : BlockSession α,
      session.plugin.bSampleRateIsValid = true →
      session.plugin.nSamplesInBuffer =
        (((fedLengths session.calls).sum : Nat) : Int) % 1024 →
      (∀ d, d ∈ outputPreDelays session.calls → 1 ≤ d ∧ d ≤ 1024) →
      (blocks.foldl
          (fun session block =>
            { plugin := (processBlock block.host block.externals session.plugin
                block.buffer).plugin
              calls := session.calls ++ (processBlock block.host block.externals
                session.plugin block.buffer).calls })
          session).plugin.nSamplesInBuffer =
          (((fedLengths (blocks.foldl
            (fun session block =>
              { plugin := (processBlock block.host block.externals session.plugin
                  block.buffer).plugin
                calls := session.calls ++ (processBlock block.host block.externals
                  session.plugin block.buffer).calls })
            session).calls).sum : Nat) : Int) % 1024 ∧
        (∀ d, d ∈ outputPreDelays (blocks.foldl
            (fun session block =>
              { plugin := (processBlock block.host block.externals session.plugin
                  block.buffer).plugin
                calls := session.calls ++ (processBlock block.host block.externals
                  session.plugin block.buffer).calls })
            session).calls → 1 ≤ d ∧ d ≤ 1024) ∧
        ((∀ block, block ∈ blocks → 1 ≤ block.host.numInputChannels) →
          (fedLengths (blocks.foldl
            (fun session block =>
              { plugin := (processBlock block.host block.externals session.plugin
                  block.buffer).plugin
                calls := session.calls ++ (processBlock block.host block.externals
                  session.plugin block.buffer).calls })
            session).calls).sum =
            (fedLengths session.calls).sum +
              (blocks.map (fun block => block.buffer.numSamples)).sum) := by
  induction blocks with
  | nil =>
    intro session _ hcount hpre
    exact ⟨hcount, hpre, fun _ => by simp⟩
  | cons block rest ih =>
    intro session hvalid hcount hpre
    obtain ⟨hv, hc, hp, hsum⟩ := processBlock_count_step block.host block.externals
      session.plugin block.buffer session.calls hvalid hcount hpre
    rw [List.foldl_cons]
    obtain ⟨h1, h2, h3⟩ := ih
      { plugin := (processBlock block.host block.externals session.plugin block.buffer).plugin
        calls := session.calls ++
          (processBlock block.host block.externals session.plugin block.buffer).calls }
      hv hc hp
    refine ⟨h1, h2, ?_⟩
    intro hall
    rw [h3 (fun b hb => hall b (List.mem_cons_of_mem _ hb))]
    have hblock : 1 ≤ block.host.numInputChannels := hall block (List.mem_cons_self _ _)
    rw [if_pos hblock] at hsum
    simp only [fedLengths, List.filterMap_append, List.sum_append, List.map_cons,
      List.sum_cons] at hsum ⊢
    rw [hsum]
    omega

/-- Claim C23: after `prepareToPlay` with a valid sample rate and any sequence of
`processBlock` calls, `nSamplesInBuffer` equals the number of samples fed to the
input ring buffer modulo `1024` (the total of the block lengths when every call
sees at least one input channel), so `0 ≤ nSamplesInBuffer < 1024`, and every
pre-delay `1024 - nSamplesInBuffer` used to read the output ring buffer lies in
`[1, 1024]`. -/
theorem buffered_samples_count [FloorRing α] (host : Host) (fMeterMinimumDecibel : α)
    (plugin : Plugin α) (sampleRate : α) (samplesPerBlock : Int)
    (hlo : 44100 ≤ sampleRate) (hhi : sampleRate ≤ 192000) (blocks : List (BlockInput α)) :
    (processBlocks (prepareToPlay host fMeterMinimumDecibel plugin sampleRate samplesPerBlock)
          blocks).plugin.nSamplesInBuffer =
        (((fedLengths (processBlocks
          (prepareToPlay host fMeterMinimumDecibel plugin sampleRate samplesPerBlock)
          blocks).calls).sum : Nat) : Int) % 1024 ∧
      0 ≤ (processBlocks
        (prepareToPlay host fMeterMinimumDecibel plugin sampleRate samplesPerBlock)
        blocks).plugin.nSamplesInBuffer ∧
      (processBlocks
        (prepareToPlay host fMeterMinimumDecibel plugin sampleRate samplesPerBlock)
        blocks).plugin.nSamplesInBuffer < 1024 ∧
      (∀ d, d ∈ outputPreDelays (processBlocks
          (prepareToPlay host fMeterMinimumDecibel plugin sampleRate samplesPerBlock)
          blocks).calls → 1 ≤ d ∧ d ≤ 1024) ∧
      ((∀ block, block ∈ blocks → 1 ≤ block.host.numInputChannels) →
        (fedLengths (processBlocks
          (prepareToPlay host fMeterMinimumDecibel plugin sampleRate samplesPerBlock)
          blocks).calls).sum =
          (blocks.map (fun block => block.buffer.numSamples)).sum) := by
  have hvalid : ¬ (sampleRate < 44100 ∨ sampleRate > 192000) := by
    rintro (h | h)
    · exact absurd hlo (not_le.mpr h)
    · exact absurd hhi (not_le.mpr h)
  have hv : (prepareToPlay host fMeterMinimumDecibel plugin sampleRate
      samplesPerBlock).bSampleRateIsValid = true := by
    simp only [prepareToPlay, if_neg hvalid]
  have hn : (prepareToPlay host fMeterMinimumDecibel plugin sampleRate
      samplesPerBlock).nSamplesInBuffer = 0 := by
    simp only [prepareToPlay, if_neg hvalid]
  obtain ⟨h1, h2, h3⟩ := processBlocks_count blocks
    { plugin := prepareToPlay host fMeterMinimumDecibel plugin sampleRate samplesPerBlock
      calls := [] }
    hv (by rw [hn]; simp [fedLengths]) (by intro d hd; simp [outputPreDelays] at hd)
  have h1b : (processBlocks
        (prepareToPlay host fMeterMinimumDecibel plugin sampleRate samplesPerBlock)
        blocks).plugin.nSamplesInBuffer =
      (((fedLengths (processBlocks
        (prepareToPlay host fMeterMinimumDecibel plugin sampleRate samplesPerBlock)
        blocks).calls).sum : Nat) : Int) % 1024 := h1
  refine ⟨h1b, ?_, ?_, h2, ?_⟩
  · rw [h1b]
    exact Int.emod_nonneg _ (by decide)
  · rw [h1b]
    exact Int.emod_lt_of_pos _ (by decide)
  · intro hall
    have h := h3 hall
    simp only [fedLengths, List.filterMap_nil, List.sum_nil, Nat.zero_add] at h
    exact h

/-- Claim C23 at 48000 Hz after two blocks of four samples: eight samples are buffered
and the last pre-delay used is `1016`. -/
theorem buffered_samples_count_witness :
    (44100 : ℚ) ≤ 48000 ∧ (48000 : ℚ) ≤ 192000 ∧
      (processBlocks (prepareToPlay stereoHost (-90) (freshPlugin : Plugin ℚ) 48000 512)
          [{ host := stereoHost, externals := idleExternals, buffer := onesBuffer },
           { host := stereoHost, externals := idleExternals, buffer := onesBuffer }]
        ).plugin.nSamplesInBuffer = 8 ∧
      (1 : Int) ≤ 1016 ∧ (1016 : Int) ≤ 1024 := by
  have h := buffered_samples_count stereoHost (-90) (freshPlugin : Plugin ℚ) 48000 512
    (by norm_num) (by norm_num)
    [{ host := stereoHost, externals := idleExternals, buffer := onesBuffer },
     { host := stereoHost, externals := idleExternals, buffer := onesBuffer }]
  have hsum := h.2.2.2.2 (by
    intro block hb
    simp only [List.mem_cons, List.mem_singleton, List.not_mem_nil, or_false, or_self] at hb
    rw [hb]
    decide)
  have hn := h.1
  rw [hsum] at hn
  have hmem : (1016 : Int) ∈ outputPreDelays (processBlocks
      (prepareToPlay stereoHost (-90) (freshPlugin : Plugin ℚ) 48000 512)
      [{ host := stereoHost, externals := idleExternals, buffer := onesBuffer },
       { host := stereoHost, externals := idleExternals, buffer := onesBuffer }]).calls := by
    norm_num [processBlocks, processBlock, prepareToPlay, outputPreDelays, stereoHost,
      freshPlugin, onesBuffer, idleExternals, nTrakmeterBufferSize]
    decide
  exact ⟨by norm_num, by norm_num, by rw [hn]; decide, h.2.2.2.1 1016 hmem⟩

end BufferCount

/-! ## `translateParameterToInt` after `translateParameterToFloat` -/

section Translate

variable [LinearOrderedField α] [FloorRing α]

/-- Truncating an integer plus one half gives the integer, when it is not negative. -/
theorem truncate_add_half (z : Int) (hz : 0 ≤ z) : truncate ((z : α) + 0.5) = z := by
  have h0 : (0 : α) ≤ (z : α) + 0.5 := by
    have : (0 : α) ≤ (z : α) := by exact_mod_cast hz
    linarith [show (0 : α) ≤ 0.5 by norm_num]
  unfold truncate
  rw [if_pos h0, Int.floor_eq_iff]
  constructor
  · linarith [show (0 : α) ≤ 0.5 by norm_num]
  · linarith [show (0.5 : α) < 1 by norm_num]

end Translate

/-- Claim C24: with the selectors `selNormal, selK12, selK14, selK20 = 0, 1, 2, 3` and
`nNumCrestFactors = 4`, `translateParameterToInt` undoes `translateParameterToFloat`
(in exact arithmetic) for the crest factor with a value in `{0, 12, 14, 20}`, for
every on/off parameter with a value in `{0, 1}`, and for the validation selected
channel with every value from `-1` to `99`. -/
theorem translate_round_trip (α : Type) [LinearOrderedField α] [FloorRing α] :
    (∀ v : Int, v = 0 ∨ v = 12 ∨ v = 14 ∨ v = 20 →
        translateParameterToInt standardSelectors Parameter.selCrestFactor
          (translateParameterToFloat standardSelectors Parameter.selCrestFactor v : α) = v) ∧
      (∀ (nIndex : Parameter) (v : Int), nIndex ≠ Parameter.selCrestFactor →
        nIndex ≠ Parameter.selValidationSelectedChannel → v = 0 ∨ v = 1 →
        translateParameterToInt standardSelectors nIndex
          (translateParameterToFloat standardSelectors nIndex v : α) = v) ∧
      (∀ v : Int, -1 ≤ v → v ≤ 99 →
        translateParameterToInt standardSelectors Parameter.selValidationSelectedChannel
          (translateParameterToFloat standardSelectors
            Parameter.selValidationSelectedChannel v : α) = v) := by
  refine ⟨?_, ?_, ?_⟩
  · intro v hv
    rcases hv with hv | hv | hv | hv <;> subst hv <;>
      norm_num [translateParameterToInt, translateParameterToFloat, standardSelectors]
  · intro nIndex v h1 h2 hv
    rcases hv with hv | hv <;> subst hv <;>
      norm_num [translateParameterToInt, translateParameterToFloat, h1, h2]
  · intro v hlo _
    have hne : Parameter.selValidationSelectedChannel ≠ Parameter.selCrestFactor := by decide
    simp only [translateParameterToInt, translateParameterToFloat, if_neg hne, if_true]
    have harg : (((v : α) + 1.0) / 100.0) * 100 + 0.5 = (((v + 1 : Int)) : α) + 0.5 := by
      push_cast
      norm_num
    rw [harg, truncate_add_half (v + 1) (by omega)]
    omega

/-- Claim C24 on the rationals: the crest factor `14`, Mono switched on, and the
validation selected channel `1` (float `0.02`). -/
theorem translate_round_trip_witness :
    translateParameterToInt standardSelectors Parameter.selCrestFactor
        (translateParameterToFloat standardSelectors Parameter.selCrestFactor 14 : ℚ) = 14 ∧
      translateParameterToInt standardSelectors Parameter.selMono
        (translateParameterToFloat standardSelectors Parameter.selMono 1 : ℚ) = 1 ∧
      translateParameterToInt standardSelectors Parameter.selValidationSelectedChannel
        (translateParameterToFloat standardSelectors
          Parameter.selValidationSelectedChannel 1 : ℚ) = 1 :=
  ⟨(translate_round_trip ℚ).1 14 (Or.inr (Or.inr (Or.inl rfl))),
    (translate_round_trip ℚ).2.1 Parameter.selMono 1 (by decide) (by decide)
      (Or.inr rfl),
    (translate_round_trip ℚ).2.2 1 (by decide) (by decide)⟩

/-! ## `setParameterFromInt` : the change flag -/

/-- The change flags after a call of `setParameterFromInt` that finds another value
stored: the parameter is marked, no other flag changes. -/
theorem setParameterFromInt_flags (parameters : KmeterPluginParameters)
    (nIndex : Parameter) (nValue : Int) (hne : parameters.nParam nIndex ≠ nValue) :
    (setParameterFromInt parameters nIndex nValue).bParamChanged =
      Function.update parameters.bParamChanged nIndex true := by
  simp only [setParameterFromInt, if_pos hne, MarkParameter]

/-- An admissible value is stored as it is. -/
theorem setParameterFromInt_stores (parameters : KmeterPluginParameters)
    (nIndex : Parameter) (nValue : Int) (hadm : Admissible nIndex nValue) :
    (setParameterFromInt parameters nIndex nValue).nParam nIndex = nValue := by
  by_cases hne : parameters.nParam nIndex ≠ nValue
  · rw [setParameterFromInt_changed parameters nIndex nValue hne, Function.update_same]
    unfold Admissible at hadm
    by_cases hc : nIndex = Parameter.selCrestFactor
    · rw [if_pos hc] at hadm ⊢
      rcases hadm with h | h | h | h
      · rw [if_pos (Or.inl h)]
      · rw [if_pos (Or.inr (Or.inl h))]
      · rw [if_pos (Or.inr (Or.inr h))]
      · subst h
        simp
    · rw [if_neg hc] at hadm ⊢
      by_cases hs : nIndex = Parameter.selValidationSelectedChannel
      · rw [if_pos hs]
      · rw [if_neg hs] at hadm ⊢
        rcases hadm with h | h
        · subst h
          simp
        · subst h
          simp
  · rw [setParameterFromInt_same parameters nIndex nValue hne]
    exact not_not.mp hne

/-- A call of `setParameterFromInt` leaves the values of the other parameters alone. -/
theorem setParameterFromInt_other (parameters : KmeterPluginParameters)
    (nIndex other : Parameter) (nValue : Int) (h : other ≠ nIndex) :
    (setParameterFromInt parameters nIndex nValue).nParam other = parameters.nParam other := by
  by_cases hne : parameters.nParam nIndex ≠ nValue
  · rw [setParameterFromInt_changed parameters nIndex nValue hne, Function.update_noteq h]
  · rw [setParameterFromInt_same parameters nIndex nValue hne]

/-- Claim C25 fails as stated: after the constructor the crest factor is `20` and not
marked; `setParameterFromInt (selCrestFactor, 7)` stores `20` again, so the stored
value is unchanged, yet the parameter is marked as changed. -/
theorem setParameterFromInt_marks_counterexample :
    (setParameterFromInt (newParameters 0) Parameter.selCrestFactor 7).nParam
        Parameter.selCrestFactor =
        (newParameters 0).nParam Parameter.selCrestFactor ∧
      (newParameters 0).bParamChanged Parameter.selCrestFactor = false ∧
      (setParameterFromInt (newParameters 0) Parameter.selCrestFactor 7).bParamChanged
        Parameter.selCrestFactor = true := by
  refine ⟨by decide, rfl, by decide⟩

/-- Claim C25, amended: a call to `setParameterFromInt` whose value equals the stored
value changes nothing; a call with another value marks the parameter as changed and
leaves every other change flag alone, also when the value it stores is the one stored
before; and when the value is admissible for the parameter (`0`, `12`, `14`, `20`
for the crest factor, `0` or `1` for an on/off parameter, anything for the
validation selected channel), a call that leaves the stored value unchanged leaves
the change flags unchanged. -/
theorem setParameterFromInt_marks (parameters : KmeterPluginParameters)
    (nIndex : Parameter) (nValue : Int) :
    (parameters.nParam nIndex = nValue →
        setParameterFromInt parameters nIndex nValue = parameters) ∧
      (parameters.nParam nIndex ≠ nValue →
        (setParameterFromInt parameters nIndex nValue).bParamChanged nIndex = true ∧
          ∀ other, other ≠ nIndex →
            (setParameterFromInt parameters nIndex nValue).bParamChanged other =
              parameters.bParamChanged other) ∧
      (Admissible nIndex nValue →
        (setParameterFromInt parameters nIndex nValue).nParam nIndex =
          parameters.nParam nIndex →
        (setParameterFromInt parameters nIndex nValue).bParamChanged =
          parameters.bParamChanged) := by
  refine ⟨?_, ?_, ?_⟩
  · intro heq
    exact setParameterFromInt_same parameters nIndex nValue (not_not.mpr heq)
  · intro hne
    rw [setParameterFromInt_flags parameters nIndex nValue hne]
    exact ⟨Function.update_same _ _ _, fun other h => Function.update_noteq h _ _⟩
  · intro hadm hsame
    rw [setParameterFromInt_stores parameters nIndex nValue hadm] at hsame
    rw [setParameterFromInt_same parameters nIndex nValue (not_not.mpr hsame.symm)]

/-- Claim C25, amended, at the constructed state: asking for the crest factor `12`
marks it, asking for the crest factor `20` changes nothing. -/
theorem setParameterFromInt_marks_witness :
    (setParameterFromInt (newParameters 0) Parameter.selCrestFactor 12).bParamChanged
        Parameter.selCrestFactor = true ∧
      setParameterFromInt (newParameters 0) Parameter.selCrestFactor 20 = newParameters 0 ∧
      (setParameterFromInt (newParameters 0) Parameter.selCrestFactor 20).bParamChanged =
        (newParameters 0).bParamChanged :=
  ⟨((setParameterFromInt_marks (newParameters 0) Parameter.selCrestFactor 12).2.1
      (by decide)).1,
    (setParameterFromInt_marks (newParameters 0) Parameter.selCrestFactor 20).1 rfl,
    (setParameterFromInt_marks (newParameters 0) Parameter.selCrestFactor 20).2.2
      (Or.inr (Or.inr (Or.inr rfl))) rfl⟩

/-! ## Saving and loading the settings -/

/-- Every reachable state stores allowed values. -/
theorem reachable_valid (α : Type) [LinearOrderedField α] [FloorRing α]
    (selectors : CrestSelectors) (files : FileSystem) (uninitialised : Int)
    (parameters : KmeterPluginParameters)
    (h : Reachable α selectors files uninitialised parameters) :
    StoredValuesValid uninitialised parameters := by
  induction h with
  | constructed => exact newParameters_valid uninitialised
  | fromInt p nIndex nValue _ ih => exact setParameterFromInt_valid uninitialised p _ _ ih
  | fromFloat p nIndex fValue _ ih => exact setParameterFromInt_valid uninitialised p _ _ ih
  | fromBool p nIndex bValue _ ih => exact setParameterFromInt_valid uninitialised p _ _ ih
  | loaded p xml _ ih => exact loadFromXml_valid files uninitialised p xml ih

/-- The call `setValidationFile` leaves the array `nParam` alone. -/
theorem setValidationFile_nParam (files : FileSystem) (parameters : KmeterPluginParameters)
    (fileValidation : String) :
    (setValidationFile files parameters fileValidation).nParam = parameters.nParam := by
  unfold setValidationFile
  split_ifs <;> rfl

/-- The element written by `storeAsXml`: its tag, no `Headroom` attribute, and the
integer attributes that `loadFromXml` reads. -/
theorem storeAsXml_attributes (conversions : StringConversions)
    (s : KmeterPluginParameters) (d : Int) :
    (storeAsXml conversions s).tagName = "KMETER_SETTINGS" ∧
      (storeAsXml conversions s).hasAttribute "Headroom" = false ∧
      (storeAsXml conversions s).getIntAttribute "CrestFactor" d =
        (if s.nParam Parameter.selCrestFactor = 0 then 20
          else s.nParam Parameter.selCrestFactor) ∧
      (storeAsXml conversions s).getIntAttribute "Expanded" d =
        s.nParam Parameter.selExpanded ∧
      (storeAsXml conversions s).getIntAttribute "Peak" d = s.nParam Parameter.selPeak ∧
      (storeAsXml conversions s).getIntAttribute "Hold" d =
        s.nParam Parameter.selInfiniteHold ∧
      (storeAsXml conversions s).getIntAttribute "Mono" d = s.nParam Parameter.selMono ∧
      (storeAsXml conversions s).getIntAttribute "ValidationSelectedChannel" d =
        s.nParam Parameter.selValidationSelectedChannel ∧
      (storeAsXml conversions s).getIntAttribute "ValidationPeakMeterLevel" d =
        s.nParam Parameter.selValidationPeakMeterLevel ∧
      (storeAsXml conversions s).getIntAttribute "ValidationAverageMeterLevel" d =
        s.nParam Parameter.selValidationAverageMeterLevel ∧
      (storeAsXml conversions s).getIntAttribute "ValidationStereoMeterValue" d =
        s.nParam Parameter.selValidationStereoMeterValue ∧
      (storeAsXml conversions s).getIntAttribute "ValidationPhaseCorrelation" d =
        s.nParam Parameter.selValidationPhaseCorrelation := by
  by_cases hc : s.nParam Parameter.selCrestFactor = 0
  · simp [storeAsXml, XmlElement.create, XmlElement.setIntAttribute,
      XmlElement.setStringAttribute, XmlElement.getIntAttribute, XmlElement.hasAttribute,
      getParameterAsInt, hc]
  · simp [storeAsXml, XmlElement.create, XmlElement.setIntAttribute,
      XmlElement.setStringAttribute, XmlElement.getIntAttribute, XmlElement.hasAttribute,
      getParameterAsInt, hc]

/-- The values stored after `loadFromXml` reads an element whose integer attributes
are admissible for their parameters and that has no `Headroom` attribute. -/
theorem loadFromXml_values (files : FileSystem) (t : KmeterPluginParameters)
    (xml : XmlElement) (crest expanded peak hold mono channel peakLevel averageLevel
      stereoValue correlation : Int)
    (htag : xml.tagName = "KMETER_SETTINGS") (hhead : xml.hasAttribute "Headroom" = false)
    (h1 : ∀ d, xml.getIntAttribute "CrestFactor" d = crest)
    (h2 : ∀ d, xml.getIntAttribute "Expanded" d = expanded)
    (h3 : ∀ d, xml.getIntAttribute "Peak" d = peak)
    (h4 : ∀ d, xml.getIntAttribute "Hold" d = hold)
    (h5 : ∀ d, xml.getIntAttribute "Mono" d = mono)
    (h6 : ∀ d, xml.getIntAttribute "ValidationSelectedChannel" d = channel)
    (h7 : ∀ d, xml.getIntAttribute "ValidationPeakMeterLevel" d = peakLevel)
    (h8 : ∀ d, xml.getIntAttribute "ValidationAverageMeterLevel" d = averageLevel)
    (h9 : ∀ d, xml.getIntAttribute "ValidationStereoMeterValue" d = stereoValue)
    (h10 : ∀ d, xml.getIntAttribute "ValidationPhaseCorrelation" d = correlation)
    (hcrest : crest = 12 ∨ crest = 14 ∨ crest = 20)
    (a2 : expanded = 0 ∨ expanded = 1) (a3 : peak = 0 ∨ peak = 1)
    (a4 : hold = 0 ∨ hold = 1) (a5 : mono = 0 ∨ mono = 1)
    (a7 : peakLevel = 0 ∨ peakLevel = 1) (a8 : averageLevel = 0 ∨ averageLevel = 1)
    (a9 : stereoValue = 0 ∨ stereoValue = 1) (a10 : correlation = 0 ∨ correlation = 1) :
    (loadFromXml files t (some xml)).nParam Parameter.selCrestFactor = crest ∧
      (loadFromXml files t (some xml)).nParam Parameter.selExpanded = expanded ∧
      (loadFromXml files t (some xml)).nParam Parameter.selPeak = peak ∧
      (loadFromXml files t (some xml)).nParam Parameter.selInfiniteHold = hold ∧
      (loadFromXml files t (some xml)).nParam Parameter.selMono = mono ∧
      (loadFromXml files t (some xml)).nParam Parameter.selValidationSelectedChannel =
        channel ∧
      (loadFromXml files t (some xml)).nParam Parameter.selValidationPeakMeterLevel =
        peakLevel ∧
      (loadFromXml files t (some xml)).nParam Parameter.selValidationAverageMeterLevel =
        averageLevel ∧
      (loadFromXml files t (some xml)).nParam Parameter.selValidationStereoMeterValue =
        stereoValue ∧
      (loadFromXml files t (some xml)).nParam Parameter.selValidationPhaseCorrelation =
        correlation := by
  have hne : crest ≠ 0 := by
    rcases hcrest with h | h | h <;> subst h <;> decide
  have hadm1 : Admissible Parameter.selCrestFactor crest := by
    rcases hcrest with h | h | h
    · exact Or.inr (Or.inl h)
    · exact Or.inr (Or.inr (Or.inl h))
    · exact Or.inr (Or.inr (Or.inr h))
  simp only [loadFromXml, htag, if_true, hhead, Bool.false_eq_true, if_false, h1, h2, h3, h4,
    h5, h6, h7, h8, h9, h10, if_neg hne]
  refine ⟨?_, ?_, ?_, ?_, ?_, ?_, ?_, ?_, ?_, ?_⟩
  all_goals try simp only [setParameterFromInt_other, ne_eq, reduceCtorEq,
    not_false_eq_true, setValidationFile_nParam]
  · exact setParameterFromInt_stores _ _ _ hadm1
  · exact setParameterFromInt_stores _ _ _ a2
  · exact setParameterFromInt_stores _ _ _ a3
  · exact setParameterFromInt_stores _ _ _ a4
  · exact setParameterFromInt_stores _ _ _ a5
  · exact setParameterFromInt_stores _ _ _ trivial
  · exact setParameterFromInt_stores _ _ _ a7
  · exact setParameterFromInt_stores _ _ _ a8
  · exact setParameterFromInt_stores _ _ _ a9
  · exact setParameterFromInt_stores _ _ _ a10

/-- The values stored after loading what `storeAsXml` wrote for a state that stores
allowed values. -/
theorem load_store_values (files : FileSystem) (conversions : StringConversions)
    (uninitialised : Int) (s t : KmeterPluginParameters)
    (hs : StoredValuesValid uninitialised s) :
    (loadFromXml files t (some (storeAsXml conversions s))).nParam Parameter.selCrestFactor =
        (if s.nParam Parameter.selCrestFactor = 0 then 20
          else s.nParam Parameter.selCrestFactor) ∧
      ∀ nIndex, nIndex ≠ Parameter.selCrestFactor →
        nIndex ≠ Parameter.selValidationFileName →
        (loadFromXml files t (some (storeAsXml conversions s))).nParam nIndex =
          s.nParam nIndex := by
  obtain ⟨hc, ho⟩ := hs
  have hbit : ∀ nIndex, nIndex ≠ Parameter.selCrestFactor →
      nIndex ≠ Parameter.selValidationSelectedChannel →
      nIndex ≠ Parameter.selValidationFileName →
      s.nParam nIndex = 0 ∨ s.nParam nIndex = 1 := by
    intro nIndex h1 h2 h3
    rcases ho nIndex h1 h2 with h | h | h
    · exact Or.inl h
    · exact Or.inr h
    · exact absurd h.1 h3
  have hcrest : (if s.nParam Parameter.selCrestFactor = 0 then (20 : Int)
      else s.nParam Parameter.selCrestFactor) = 12 ∨
      (if s.nParam Parameter.selCrestFactor = 0 then (20 : Int)
        else s.nParam Parameter.selCrestFactor) = 14 ∨
      (if s.nParam Parameter.selCrestFactor = 0 then (20 : Int)
        else s.nParam Parameter.selCrestFactor) = 20 := by
    rcases hc with h | h | h | h <;> rw [h] <;> decide
  have h := loadFromXml_values files t (storeAsXml conversions s) _ _ _ _ _ _ _ _ _ _
    (storeAsXml_attributes conversions s 0).1
    (storeAsXml_attributes conversions s 0).2.1
    (fun d => (storeAsXml_attributes conversions s d).2.2.1)
    (fun d => (storeAsXml_attributes conversions s d).2.2.2.1)
    (fun d => (storeAsXml_attributes conversions s d).2.2.2.2.1)
    (fun d => (storeAsXml_attributes conversions s d).2.2.2.2.2.1)
    (fun d => (storeAsXml_attributes conversions s d).2.2.2.2.2.2.1)
    (fun d => (storeAsXml_attributes conversions s d).2.2.2.2.2.2.2.1)
    (fun d => (storeAsXml_attributes conversions s d).2.2.2.2.2.2.2.2.1)
    (fun d => (storeAsXml_attributes conversions s d).2.2.2.2.2.2.2.2.2.1)
    (fun d => (storeAsXml_attributes conversions s d).2.2.2.2.2.2.2.2.2.2.1)
    (fun d => (storeAsXml_attributes conversions s d).2.2.2.2.2.2.2.2.2.2.2)
    hcrest
    (hbit _ (by decide) (by decide) (by decide))
    (hbit _ (by decide) (by decide) (by decide))
    (hbit _ (by decide) (by decide) (by decide))
    (hbit _ (by decide) (by decide) (by decide))
    (hbit _ (by decide) (by decide) (by decide))
    (hbit _ (by decide) (by decide) (by decide))
    (hbit _ (by decide) (by decide) (by decide))
    (hbit _ (by decide) (by decide) (by decide))
  refine ⟨h.1, ?_⟩
  intro nIndex h1 h2
  cases nIndex with
  | selCrestFactor => exact absurd rfl h1
  | selExpanded => exact h.2.1
  | selPeak => exact h.2.2.1
  | selInfiniteHold => exact h.2.2.2.1
  | selMono => exact h.2.2.2.2.1
  | selValidationFileName => exact absurd rfl h2
  | selValidationSelectedChannel => exact h.2.2.2.2.2.1
  | selValidationPeakMeterLevel => exact h.2.2.2.2.2.2.1
  | selValidationAverageMeterLevel => exact h.2.2.2.2.2.2.2.1
  | selValidationStereoMeterValue => exact h.2.2.2.2.2.2.2.2.1
  | selValidationPhaseCorrelation => exact h.2.2.2.2.2.2.2.2.2

/-- Claim C26 fails as stated: the reachable state with the crest factor `0` (Normal)
is stored with the attribute `CrestFactor = 20`, so loading it into a freshly
constructed object leaves the crest factor `20`, not `0`. -/
theorem load_store_crest_counterexample :
    Reachable ℚ standardSelectors noFiles 0
        (setParameterFromInt (newParameters 0) Parameter.selCrestFactor 0) ∧
      (setParameterFromInt (newParameters 0) Parameter.selCrestFactor 0).nParam
        Parameter.selCrestFactor = 0 ∧
      (loadFromXml noFiles (newParameters 0)
        (some (storeAsXml trivialConversions
          (setParameterFromInt (newParameters 0) Parameter.selCrestFactor 0)))).nParam
        Parameter.selCrestFactor = 20 := by
  refine ⟨Reachable.fromInt _ _ _ Reachable.constructed, by decide, ?_⟩
  have h := (load_store_values noFiles trivialConversions 0
    (setParameterFromInt (newParameters 0) Parameter.selCrestFactor 0) (newParameters 0)
    (setParameterFromInt_valid 0 _ _ _ (newParameters_valid 0))).1
  rw [h]
  decide

/-- Claim C26, amended: for every reachable parameter state `s` and every parameter
object `t`, calling `loadFromXml` on `t` with the element produced by
`s.storeAsXml ()` leaves `t` with the same Expanded, Peak, Hold, Mono, validation
selected channel and validation switch values as `s`, and with the same crest factor
when that of `s` is `12`, `14` or `20`; a crest factor of `0` is stored and loaded
as `20`. -/
theorem load_store_round_trip (α : Type) [LinearOrderedField α] [FloorRing α]
    (selectors : CrestSelectors) (files : FileSystem) (conversions : StringConversions)
    (uninitialised : Int) (s t : KmeterPluginParameters)
    (hs : Reachable α selectors files uninitialised s) :
    (s.nParam Parameter.selCrestFactor ≠ 0 →
        (loadFromXml files t (some (storeAsXml conversions s))).nParam
          Parameter.selCrestFactor = s.nParam Parameter.selCrestFactor) ∧
      (s.nParam Parameter.selCrestFactor = 0 →
        (loadFromXml files t (some (storeAsXml conversions s))).nParam
          Parameter.selCrestFactor = 20) ∧
      ∀ nIndex, nIndex ≠ Parameter.selCrestFactor →
        nIndex ≠ Parameter.selValidationFileName →
        (loadFromXml files t (some (storeAsXml conversions s))).nParam nIndex =
          s.nParam nIndex := by
  have h := load_store_values files conversions uninitialised s t
    (reachable_valid α selectors files uninitialised s hs)
  refine ⟨?_, ?_, h.2⟩
  · intro hne
    rw [h.1, if_neg hne]
  · intro heq
    rw [h.1, if_pos heq]

/-- Claim C26, amended, at the state with crest factor `12` and Mono on, loaded into a
freshly constructed object. -/
theorem load_store_round_trip_witness :
    Reachable ℚ standardSelectors noFiles 0
        (setParameterFromInt
          (setParameterFromInt (newParameters 0) Parameter.selCrestFactor 12)
          Parameter.selMono 1) ∧
      (loadFromXml noFiles (newParameters 0)
        (some (storeAsXml trivialConversions
          (setParameterFromInt
            (setParameterFromInt (newParameters 0) Parameter.selCrestFactor 12)
            Parameter.selMono 1)))).nParam Parameter.selCrestFactor =
        (setParameterFromInt
          (setParameterFromInt (newParameters 0) Parameter.selCrestFactor 12)
          Parameter.selMono 1).nParam Parameter.selCrestFactor ∧
      (loadFromXml noFiles (newParameters 0)
        (some (storeAsXml trivialConversions
          (setParameterFromInt
            (setParameterFromInt (newParameters 0) Parameter.selCrestFactor 12)
            Parameter.selMono 1)))).nParam Parameter.selMono =
        (setParameterFromInt
          (setParameterFromInt (newParameters 0) Parameter.selCrestFactor 12)
          Parameter.selMono 1).nParam Parameter.selMono :=
  ⟨Reachable.fromInt _ _ _ (Reachable.fromInt _ _ _ Reachable.constructed),
    (load_store_round_trip ℚ standardSelectors noFiles trivialConversions 0 _ (newParameters 0)
      (Reachable.fromInt _ _ _ (Reachable.fromInt _ _ _ Reachable.constructed))).1
        (by decide),
    (load_store_round_trip ℚ standardSelectors noFiles trivialConversions 0 _ (newParameters 0)
      (Reachable.fromInt _ _ _ (Reachable.fromInt _ _ _ Reachable.constructed))).2.2
        Parameter.selMono (by decide) (by decide)⟩

/-! ## `MeterSegment::setLevels` : the brightness -/

section Segment

variable [LinearOrderedField α]

/-- The call `setLevels` keeps the thresholds and the peak meter switch of a segment. -/
theorem setLevels_thresholds (segment : MeterSegment α) (levels : Levels α) :
    (setLevels segment levels).segment.fLowerThreshold = segment.fLowerThreshold ∧
      (setLevels segment levels).segment.fThresholdRange = segment.fThresholdRange ∧
      (setLevels segment levels).segment.fUpperThreshold = segment.fUpperThreshold ∧
      (setLevels segment levels).segment.displayPeakMeter = segment.displayPeakMeter := by
  simp only [setLevels, and_self]

/-- After any sequence of `setLevels` calls a segment has the thresholds that the
constructor gave it. -/
theorem setLevelsAll_thresholds (fThreshold fRange : α) (bDisplayPeakMeter : Bool)
    (nColor : Int) (calls : List (Levels α)) :
    (setLevelsAll (newMeterSegment fThreshold fRange bDisplayPeakMeter nColor)
        calls).fLowerThreshold = fThreshold ∧
      (setLevelsAll (newMeterSegment fThreshold fRange bDisplayPeakMeter nColor)
        calls).fThresholdRange = fRange ∧
      (setLevelsAll (newMeterSegment fThreshold fRange bDisplayPeakMeter nColor)
        calls).fUpperThreshold = fThreshold + fRange ∧
      (setLevelsAll (newMeterSegment fThreshold fRange bDisplayPeakMeter nColor)
        calls).displayPeakMeter = bDisplayPeakMeter := by
  induction calls using List.reverseRecOn with
  | nil => exact ⟨rfl, rfl, rfl, rfl⟩
  | append_singleton rest levels ih =>
    simp only [setLevelsAll, List.foldl_append, List.foldl_cons, List.foldl_nil] at ih ⊢
    obtain ⟨h1, h2, h3, h4⟩ := setLevels_thresholds
      (List.foldl (fun current levels => (setLevels current levels).segment)
        (newMeterSegment fThreshold fRange bDisplayPeakMeter nColor) rest) levels
    rw [h1, h2, h3, h4]
    exact ih

/-- The brightness and the division of `setLevels` on a segment whose upper threshold is
the lower threshold plus the range. -/
theorem setLevels_brightness (segment : MeterSegment α) (levels : Levels α)
    (hupper : segment.fUpperThreshold = segment.fLowerThreshold + segment.fThresholdRange) :
    (0.25 ≤ (setLevels segment levels).segment.fBrightness ∧
        (setLevels segment levels).segment.fBrightness ≤ 0.97) ∧
      (levels.fAverageLevel ≥ segment.fUpperThreshold →
        (setLevels segment levels).segment.fBrightness = 0.97) ∧
      (levels.fAverageLevel < segment.fUpperThreshold →
        levels.fAverageLevel ≤ segment.fLowerThreshold →
        ¬ (segment.displayPeakMeter = true ∧ levels.fPeakLevel > segment.fLowerThreshold ∧
          levels.fPeakLevel ≤ segment.fUpperThreshold) →
        (setLevels segment levels).segment.fBrightness = 0.25) ∧
      (∀ dividend divisor, (setLevels segment levels).division = some (dividend, divisor) →
        divisor = segment.fThresholdRange ∧ 0 < divisor) := by
  simp only [setLevels]
  by_cases h1 : levels.fAverageLevel ≥ segment.fUpperThreshold
  · simp only [if_pos h1]
    refine ⟨⟨by norm_num, le_refl _⟩, by intros; trivial, fun h => absurd h1 (not_le.mpr h), ?_⟩
    intro dividend divisor hd
    simp at hd
  · by_cases h2 : segment.displayPeakMeter = true ∧
        levels.fPeakLevel > segment.fLowerThreshold ∧
        levels.fPeakLevel ≤ segment.fUpperThreshold
    · simp only [if_neg h1, if_pos h2]
      refine ⟨⟨by norm_num, le_refl _⟩, fun h => absurd h h1, fun _ _ h => absurd h2 h, ?_⟩
      intro dividend divisor hd
      simp at hd
    · by_cases h3 : levels.fAverageLevel ≤ segment.fLowerThreshold
      · simp only [if_neg h1, if_neg h2, if_pos h3]
        refine ⟨⟨le_refl _, by norm_num⟩, fun h => absurd h h1, by intros; trivial, ?_⟩
        intro dividend divisor hd
        simp at hd
      · simp only [if_neg h1, if_neg h2, if_neg h3]
        have hlow : segment.fLowerThreshold < levels.fAverageLevel := not_le.mp h3
        have hup : levels.fAverageLevel < segment.fLowerThreshold + segment.fThresholdRange := by
          rw [← hupper]
          exact not_le.mp h1
        have hrange : 0 < segment.fThresholdRange := by linarith
        have hq0 : 0 < (levels.fAverageLevel - segment.fLowerThreshold) /
            segment.fThresholdRange := div_pos (by linarith) hrange
        have hq1 : (levels.fAverageLevel - segment.fLowerThreshold) /
            segment.fThresholdRange < 1 := (div_lt_one hrange).mpr (by linarith)
        refine ⟨⟨by nlinarith, by nlinarith⟩, fun h => absurd h h1, fun _ h => absurd h h3, ?_⟩
        intro dividend divisor hd
        simp only [Option.some.injEq, Prod.mk.injEq] at hd
        rw [← hd.2]
        exact ⟨rfl, hrange⟩

/-- Claim C30 fails as stated: for a segment with threshold `0` and range `0` and
without peak meter, the average level `0` is at or below the lower threshold and no
peak lies in the segment, yet the brightness is `0.97`, not `0.25`, because the
level is also at or above the upper threshold. -/
theorem setLevels_dark_counterexample :
    (0 : ℚ) ≤ (newMeterSegment (0 : ℚ) 0 false 2).fLowerThreshold ∧
      (newMeterSegment (0 : ℚ) 0 false 2).displayPeakMeter = false ∧
      (setLevels (newMeterSegment (0 : ℚ) 0 false 2)
        { fPeakLevel := 0, fAverageLevel := 0, fPeakLevelPeak := 0,
          fAverageLevelPeak := 0 }).segment.fBrightness = 0.97 ∧
      (setLevels (newMeterSegment (0 : ℚ) 0 false 2)
        { fPeakLevel := 0, fAverageLevel := 0, fPeakLevelPeak := 0,
          fAverageLevelPeak := 0 }).segment.fBrightness ≠ 0.25 := by
  norm_num [setLevels, newMeterSegment]

/-- Claim C30, amended: after any `setLevels` call, for every threshold, every range
(also zero or negative) and every level (in exact arithmetic), the brightness lies in
`[0.25, 0.97]`; it is `0.97` when the average level is at or above the upper
threshold, `0.25` when it is below the upper threshold, at or below the lower
threshold and no peak lies in the segment; and the division by the range is
evaluated only when the range is strictly positive. -/
theorem setLevels_brightness_range (fThreshold fRange : α) (bDisplayPeakMeter : Bool)
    (nColor : Int) (earlier : List (Levels α)) (levels : Levels α) :
    (0.25 ≤ (setLevels (setLevelsAll
            (newMeterSegment fThreshold fRange bDisplayPeakMeter nColor) earlier)
          levels).segment.fBrightness ∧
        (setLevels (setLevelsAll
            (newMeterSegment fThreshold fRange bDisplayPeakMeter nColor) earlier)
          levels).segment.fBrightness ≤ 0.97) ∧
      (levels.fAverageLevel ≥ fThreshold + fRange →
        (setLevels (setLevelsAll
            (newMeterSegment fThreshold fRange bDisplayPeakMeter nColor) earlier)
          levels).segment.fBrightness = 0.97) ∧
      (levels.fAverageLevel < fThreshold + fRange → levels.fAverageLevel ≤ fThreshold →
        ¬ (bDisplayPeakMeter = true ∧ levels.fPeakLevel > fThreshold ∧
          levels.fPeakLevel ≤ fThreshold + fRange) →
        (setLevels (setLevelsAll
            (newMeterSegment fThreshold fRange bDisplayPeakMeter nColor) earlier)
          levels).segment.fBrightness = 0.25) ∧
      (∀ dividend divisor,
        (setLevels (setLevelsAll
            (newMeterSegment fThreshold fRange bDisplayPeakMeter nColor) earlier)
          levels).division = some (dividend, divisor) →
        divisor = fRange ∧ 0 < fRange) := by
  obtain ⟨h1, h2, h3, h4⟩ :=
    setLevelsAll_thresholds fThreshold fRange bDisplayPeakMeter nColor earlier
  have h := setLevels_brightness
    (setLevelsAll (newMeterSegment fThreshold fRange bDisplayPeakMeter nColor) earlier) levels
    (by rw [h3, h1, h2])
  rw [h1, h2, h3, h4] at h
  refine ⟨h.1, h.2.1, h.2.2.1, ?_⟩
  intro dividend divisor hd
  obtain ⟨hdiv, hpos⟩ := h.2.2.2 dividend divisor hd
  exact ⟨hdiv, by rw [← hdiv]; exact hpos⟩

/-- Claim C30, amended, at the segment `(-10, 0]` without peak meter: the average level
`-5` gives the brightness `0.61` after the division by the range `10`, the level `0`
gives `0.97` and the level `-20` gives `0.25`. -/
theorem setLevels_brightness_range_witness :
    (setLevels (setLevelsAll (newMeterSegment (-10 : ℚ) 10 false 2) [])
        { fPeakLevel := 0, fAverageLevel := 0, fPeakLevelPeak := 0,
          fAverageLevelPeak := 0 }).segment.fBrightness = 0.97 ∧
      (setLevels (setLevelsAll (newMeterSegment (-10 : ℚ) 10 false 2) [])
        { fPeakLevel := 0, fAverageLevel := -20, fPeakLevelPeak := 0,
          fAverageLevelPeak := 0 }).segment.fBrightness = 0.25 ∧
      (setLevels (setLevelsAll (newMeterSegment (-10 : ℚ) 10 false 2) [])
        { fPeakLevel := 0, fAverageLevel := -5, fPeakLevelPeak := 0,
          fAverageLevelPeak := 0 }).division = some (5, 10) ∧
      (10 : ℚ) = 10 ∧ (0 : ℚ) < 10 :=
  ⟨(setLevels_brightness_range (-10 : ℚ) 10 false 2 []
      { fPeakLevel := 0, fAverageLevel := 0, fPeakLevelPeak := 0,
        fAverageLevelPeak := 0 }).2.1 (by norm_num),
    (setLevels_brightness_range (-10 : ℚ) 10 false 2 []
      { fPeakLevel := 0, fAverageLevel := -20, fPeakLevelPeak := 0,
        fAverageLevelPeak := 0 }).2.2.1 (by norm_num) (by norm_num) (by simp),
    by norm_num [setLevels, setLevelsAll, newMeterSegment],
    (setLevels_brightness_range (-10 : ℚ) 10 false 2 []
      { fPeakLevel := 0, fAverageLevel := -5, fPeakLevelPeak := 0,
        fAverageLevelPeak := 0 }).2.2.2 5 10
      (by norm_num [setLevels, setLevelsAll, newMeterSegment])⟩

end Segment

/-! ## The segments of a meter bar tile the level range -/

/-- Appending a segment below a tiled list keeps it tiled. -/
theorem tiled_append (segs : List SegmentArgs) (top low : Int) (s : SegmentArgs)
    (h : Tiled top segs low) (hrange : 0 < s.nRange)
    (hupper : s.nThreshold + s.nRange = low) :
    Tiled top (segs ++ [s]) s.nThreshold := by
  induction segs generalizing top with
  | nil =>
    simp only [Tiled] at h
    simp only [List.nil_append, Tiled]
    exact ⟨hrange, by rw [hupper, h], trivial⟩
  | cons first rest ih =>
    simp only [Tiled] at h
    simp only [List.cons_append, Tiled]
    exact ⟨h.1, h.2.1, ih first.nThreshold h.2.2⟩

/-- Every segment of a tiled list has a positive range. -/
theorem tiled_range (segs : List SegmentArgs) (top low : Int) (h : Tiled top segs low)
    (n : Nat) (hn : n < segs.length) : 0 < (segs.get ⟨n, hn⟩).nRange := by
  induction segs generalizing top n with
  | nil => exact absurd hn (Nat.not_lt_zero _)
  | cons first rest ih =>
    simp only [Tiled] at h
    cases n with
    | zero => exact h.1
    | succ k => exact ih first.nThreshold h.2.2 k (Nat.lt_of_succ_lt_succ hn)

/-- The upper threshold of the first segment of a tiled list is its top. -/
theorem tiled_head (segs : List SegmentArgs) (top low : Int) (h : Tiled top segs low)
    (h0 : 0 < segs.length) :
    (segs.get ⟨0, h0⟩).nThreshold + (segs.get ⟨0, h0⟩).nRange = top := by
  cases segs with
  | nil => exact absurd h0 (Nat.lt_irrefl _)
  | cons first rest =>
    simp only [Tiled] at h
    exact h.2.1

/-- In a tiled list the upper threshold of a segment is the lower threshold of the
segment before it. -/
theorem tiled_next (segs : List SegmentArgs) (top low : Int) (h : Tiled top segs low)
    (n : Nat) (hn : n + 1 < segs.length) :
    (segs.get ⟨n + 1, hn⟩).nThreshold + (segs.get ⟨n + 1, hn⟩).nRange =
      (segs.get ⟨n, Nat.lt_of_succ_lt hn⟩).nThreshold := by
  induction segs generalizing top n with
  | nil => exact absurd hn (Nat.not_lt_zero _)
  | cons first rest ih =>
    simp only [Tiled] at h
    cases n with
    | zero => exact tiled_head rest first.nThreshold low h.2.2 (Nat.lt_of_succ_lt_succ hn)
    | succ k => exact ih first.nThreshold h.2.2 k (Nat.lt_of_succ_lt_succ hn)

/-- No segment of a tiled list reaches above its top. -/
theorem tiled_below_top (segs : List SegmentArgs) (top low : Int) (h : Tiled top segs low)
    (n : Nat) (hn : n < segs.length) :
    (segs.get ⟨n, hn⟩).nThreshold + (segs.get ⟨n, hn⟩).nRange ≤ top := by
  induction segs generalizing top n with
  | nil => exact absurd hn (Nat.not_lt_zero _)
  | cons first rest ih =>
    simp only [Tiled] at h
    cases n with
    | zero => exact le_of_eq h.2.1
    | succ k =>
      have hk := ih first.nThreshold h.2.2 k (Nat.lt_of_succ_lt_succ hn)
      have hfirst : first.nThreshold ≤ top := by linarith [h.1, h.2.1]
      exact le_trans hk hfirst

/-- In a tiled list a later segment lies entirely at or below the lower threshold of an
earlier one. -/
theorem tiled_ordered (segs : List SegmentArgs) (top low : Int) (h : Tiled top segs low)
    (m n : Nat) (hmn : m < n) (hn : n < segs.length) :
    (segs.get ⟨n, hn⟩).nThreshold + (segs.get ⟨n, hn⟩).nRange ≤
      (segs.get ⟨m, lt_trans hmn hn⟩).nThreshold := by
  induction segs generalizing top m n with
  | nil => exact absurd hn (Nat.not_lt_zero _)
  | cons first rest ih =>
    simp only [Tiled] at h
    cases n with
    | zero => exact absurd hmn (Nat.not_lt_zero _)
    | succ k =>
      cases m with
      | zero => exact tiled_below_top rest first.nThreshold low h.2.2 k (Nat.lt_of_succ_lt_succ hn)
      | succ j =>
        exact ih first.nThreshold h.2.2 j k (Nat.lt_of_succ_lt_succ hmn)
          (Nat.lt_of_succ_lt_succ hn)

/-- A level lies in the half-open interval `(lower, upper]` of at most one segment of a
tiled list. -/
theorem tiled_disjoint (segs : List SegmentArgs) (top low : Int) (h : Tiled top segs low)
    (level : Int) (m n : Nat) (hm : m < segs.length) (hn : n < segs.length)
    (hlevelm : (segs.get ⟨m, hm⟩).nThreshold < level ∧
      level ≤ (segs.get ⟨m, hm⟩).nThreshold + (segs.get ⟨m, hm⟩).nRange)
    (hleveln : (segs.get ⟨n, hn⟩).nThreshold < level ∧
      level ≤ (segs.get ⟨n, hn⟩).nThreshold + (segs.get ⟨n, hn⟩).nRange) :
    m = n := by
  rcases Nat.lt_trichotomy m n with hlt | heq | hgt
  · have := tiled_ordered segs top low h m n hlt hn
    omega
  · exact heq
  · have := tiled_ordered segs top low h n m hgt hm
    omega

/-- One pass of the constructor's loop adds one segment and keeps the segments tiled,
the running threshold being the lower threshold of the last one. -/
theorem segmentLoop_tiled (bar : MeterBar) (top : Int) (state : SegmentLoop) (n : Nat)
    (h : Tiled top state.MeterArray state.nThreshold) :
    Tiled top (segmentLoop bar state n).MeterArray (segmentLoop bar state n).nThreshold ∧
      (segmentLoop bar state n).MeterArray.length = state.MeterArray.length + 1 := by
  refine ⟨?_, by simp only [segmentLoop, List.length_append, List.length_singleton]⟩
  simp only [segmentLoop]
  refine tiled_append state.MeterArray top state.nThreshold _ h ?_ (by simp only; omega)
  simp only
  split_ifs <;> decide

/-- The constructor's loop, run for any number of passes from any tiled state. -/
theorem segmentLoop_fold (bar : MeterBar) (top : Int) (count : Nat) (state : SegmentLoop)
    (h : Tiled top state.MeterArray state.nThreshold) :
    Tiled top ((List.range count).foldl (segmentLoop bar) state).MeterArray
        ((List.range count).foldl (segmentLoop bar) state).nThreshold ∧
      ((List.range count).foldl (segmentLoop bar) state).MeterArray.length =
        state.MeterArray.length + count := by
  induction count with
  | zero => exact ⟨h, rfl⟩
  | succ k ih =>
    rw [List.range_succ, List.foldl_append, List.foldl_cons, List.foldl_nil]
    obtain ⟨h1, h2⟩ := segmentLoop_tiled bar top _ k ih.1
    exact ⟨h1, by rw [h2, ih.2, Nat.add_assoc]⟩

/-- The constructor's loop, run from its initial state: the segments are tiled from
the initial threshold and there is one for each pass. -/
theorem segmentLoop_run (bar : MeterBar) (top level : Int) (count : Nat) :
    Tiled top
        ((List.range count).foldl (segmentLoop bar)
          { nThreshold := top, nKmeterLevel := level, MeterArray := [] }).MeterArray
        ((List.range count).foldl (segmentLoop bar)
          { nThreshold := top, nKmeterLevel := level, MeterArray := [] }).nThreshold ∧
      ((List.range count).foldl (segmentLoop bar)
        { nThreshold := top, nKmeterLevel := level, MeterArray := [] }).MeterArray.length =
        count := by
  have h := segmentLoop_fold bar top count
    { nThreshold := top, nKmeterLevel := level, MeterArray := [] } rfl
  exact ⟨h.1, h.2.trans (Nat.zero_add _)⟩

/-- The number of bars that the constructor chooses is positive. -/
theorem newMeterBar_bars (posX posY Width nCrestFactor : Int) (bExpanded : Bool)
    (nSegmentHeight : Int) (justify : String) :
    0 < (newMeterBar posX posY Width nCrestFactor bExpanded nSegmentHeight
      justify).nNumberOfBars := by
  simp only [newMeterBar]
  split_ifs <;> decide

/-- The segments that the constructor creates are tiled from the upper threshold of the
top segment, and there are `nNumberOfBars` of them. -/
theorem newMeterBar_tiled (posX posY Width nCrestFactor : Int) (bExpanded : Bool)
    (nSegmentHeight : Int) (justify : String) :
    (∃ low, Tiled
        (if bExpanded = true ∧ (newMeterBar posX posY Width nCrestFactor bExpanded
            nSegmentHeight justify).nMeterCrestFactor > 80 then
          80 - (newMeterBar posX posY Width nCrestFactor bExpanded nSegmentHeight
            justify).nMeterCrestFactor
        else 0)
        (newMeterBar posX posY Width nCrestFactor bExpanded nSegmentHeight
          justify).MeterArray low) ∧
      (newMeterBar posX posY Width nCrestFactor bExpanded nSegmentHeight
          justify).MeterArray.length =
        (newMeterBar posX posY Width nCrestFactor bExpanded nSegmentHeight
          justify).nNumberOfBars.toNat := by
  by_cases h0 : nCrestFactor = 0
  · simp only [newMeterBar, if_pos h0]
    exact ⟨⟨_, (segmentLoop_run _ _ _ _).1⟩,
      (segmentLoop_run _ _ _ _).2⟩
  · by_cases h12 : nCrestFactor = 12
    · simp only [newMeterBar, if_neg h0, if_pos h12]
      exact ⟨⟨_, (segmentLoop_run _ _ _ _).1⟩,
        (segmentLoop_run _ _ _ _).2⟩
    · by_cases h14 : nCrestFactor = 14
      · simp only [newMeterBar, if_neg h0, if_neg h12, if_pos h14]
        exact ⟨⟨_, (segmentLoop_run _ _ _ _).1⟩,
          (segmentLoop_run _ _ _ _).2⟩
      · simp only [newMeterBar, if_neg h0, if_neg h12, if_neg h14]
        exact ⟨⟨_, (segmentLoop_run _ _ _ _).1⟩,
          (segmentLoop_run _ _ _ _).2⟩

/-- Claim C27: for every crest factor and both display modes, the segments created by
the `MeterBar` constructor tile the level range in integer tenths of a decibel. There
are `nNumberOfBars` segments, at least one; each has a positive range; the upper
threshold (threshold plus range) of segment `n + 1` is the lower threshold of segment
`n`; the upper threshold of the top segment is `0`, or `80 - nMeterCrestFactor` in
expanded mode when the crest factor exceeds 8 dB; and a level lies in the half-open
interval `(lower, upper]` of at most one segment. -/
theorem meterBar_segments_tile (posX posY Width nCrestFactor : Int) (bExpanded : Bool)
    (nSegmentHeight : Int) (justify : String) :
    ((newMeterBar posX posY Width nCrestFactor bExpanded nSegmentHeight
        justify).MeterArray.length : Int) =
        (newMeterBar posX posY Width nCrestFactor bExpanded nSegmentHeight
          justify).nNumberOfBars ∧
      (∃ h0 : 0 < (newMeterBar posX posY Width nCrestFactor bExpanded nSegmentHeight
          justify).MeterArray.length,
        ((newMeterBar posX posY Width nCrestFactor bExpanded nSegmentHeight
            justify).MeterArray.get ⟨0, h0⟩).nThreshold +
          ((newMeterBar posX posY Width nCrestFactor bExpanded nSegmentHeight
            justify).MeterArray.get ⟨0, h0⟩).nRange =
          if bExpanded = true ∧ (newMeterBar posX posY Width nCrestFactor bExpanded
              nSegmentHeight justify).nMeterCrestFactor > 80 then
            80 - (newMeterBar posX posY Width nCrestFactor bExpanded nSegmentHeight
              justify).nMeterCrestFactor
          else 0) ∧
      (∀ (n : Nat) (hn : n < (newMeterBar posX posY Width nCrestFactor bExpanded
          nSegmentHeight justify).MeterArray.length),
        0 < ((newMeterBar posX posY Width nCrestFactor bExpanded nSegmentHeight
          justify).MeterArray.get ⟨n, hn⟩).nRange) ∧
      (∀ (n : Nat) (hn : n + 1 < (newMeterBar posX posY Width nCrestFactor bExpanded
          nSegmentHeight justify).MeterArray.length),
        ((newMeterBar posX posY Width nCrestFactor bExpanded nSegmentHeight
            justify).MeterArray.get ⟨n + 1, hn⟩).nThreshold +
          ((newMeterBar posX posY Width nCrestFactor bExpanded nSegmentHeight
            justify).MeterArray.get ⟨n + 1, hn⟩).nRange =
          ((newMeterBar posX posY Width nCrestFactor bExpanded nSegmentHeight
            justify).MeterArray.get ⟨n, Nat.lt_of_succ_lt hn⟩).nThreshold) ∧
      (∀ (level : Int) (m n : Nat)
        (hm : m < (newMeterBar posX posY Width nCrestFactor bExpanded nSegmentHeight
          justify).MeterArray.length)
        (hn : n < (newMeterBar posX posY Width nCrestFactor bExpanded nSegmentHeight
          justify).MeterArray.length),
        (((newMeterBar posX posY Width nCrestFactor bExpanded nSegmentHeight
              justify).MeterArray.get ⟨m, hm⟩).nThreshold < level ∧
          level ≤ ((newMeterBar posX posY Width nCrestFactor bExpanded nSegmentHeight
              justify).MeterArray.get ⟨m, hm⟩).nThreshold +
            ((newMeterBar posX posY Width nCrestFactor bExpanded nSegmentHeight
              justify).MeterArray.get ⟨m, hm⟩).nRange) →
        (((newMeterBar posX posY Width nCrestFactor bExpanded nSegmentHeight
              justify).MeterArray.get ⟨n, hn⟩).nThreshold < level ∧
          level ≤ ((newMeterBar posX posY Width nCrestFactor bExpanded nSegmentHeight
              justify).MeterArray.get ⟨n, hn⟩).nThreshold +
            ((newMeterBar posX posY Width nCrestFactor bExpanded nSegmentHeight
              justify).MeterArray.get ⟨n, hn⟩).nRange) →
        m = n) := by
  obtain ⟨⟨low, htiled⟩, hlength⟩ :=
    newMeterBar_tiled posX posY Width nCrestFactor bExpanded nSegmentHeight justify
  have hbars :=
    newMeterBar_bars posX posY Width nCrestFactor bExpanded nSegmentHeight justify
  have hpos : 0 < (newMeterBar posX posY Width nCrestFactor bExpanded nSegmentHeight
      justify).MeterArray.length := by
    rw [hlength]
    omega
  refine ⟨?_, ⟨hpos, tiled_head _ _ _ htiled hpos⟩, ?_, ?_, ?_⟩
  · rw [hlength]
    exact Int.toNat_of_nonneg (le_of_lt hbars)
  · intro n hn
    exact tiled_range _ _ _ htiled n hn
  · intro n hn
    exact tiled_next _ _ _ htiled n hn
  · intro level m n hm hn hlevelm hleveln
    exact tiled_disjoint _ _ _ htiled level m n hm hn hlevelm hleveln

/-- Claim C27 at the normal K-20 bar: it has 51 segments, the top one is `(-5, 0]`, the
level `-7` lies in segment 1 and, being there, in no other segment. -/
theorem meterBar_segments_tile_witness :
    ((newMeterBar 0 0 100 20 false 1 "left").MeterArray.length : Int) = 51 ∧
      (∀ (n : Nat) (hn : n < (newMeterBar 0 0 100 20 false 1 "left").MeterArray.length),
        (((newMeterBar 0 0 100 20 false 1 "left").MeterArray.get ⟨n, hn⟩).nThreshold < -7 ∧
          -7 ≤ ((newMeterBar 0 0 100 20 false 1 "left").MeterArray.get ⟨n, hn⟩).nThreshold +
            ((newMeterBar 0 0 100 20 false 1 "left").MeterArray.get ⟨n, hn⟩).nRange) →
        1 = n) :=
  ⟨(meterBar_segments_tile 0 0 100 20 false 1 "left").1,
    fun n hn hlevel =>
      (meterBar_segments_tile 0 0 100 20 false 1 "left").2.2.2.2 (-7) 1 n (by decide) hn
        (by decide) hlevel⟩

/-! ## The segments of a meter bar fill its height -/

/-- Appending a segment at the bottom of a stacked list keeps it stacked. -/
theorem stacked_append (segs : List SegmentLayout) (top bottom : Int) (s : SegmentLayout)
    (h : Stacked top segs bottom) (hy : s.bounds.y = bottom)
    (hheight : s.bounds.height = s.segment_height + 1) :
    Stacked top (segs ++ [s]) (bottom + s.segment_height) := by
  induction segs generalizing top with
  | nil =>
    simp only [Stacked] at h
    simp only [List.nil_append, Stacked]
    exact ⟨by rw [hy, h], hheight, by rw [h]⟩
  | cons first rest ih =>
    simp only [Stacked] at h
    simp only [List.cons_append, Stacked]
    exact ⟨h.1, h.2.1, ih _ h.2.2⟩

/-- The segment heights of a stacked list sum to the distance from its top to its
bottom. -/
theorem stacked_sum (segs : List SegmentLayout) (top bottom : Int)
    (h : Stacked top segs bottom) :
    (segs.map (fun s => s.segment_height)).sum = bottom - top := by
  induction segs generalizing top with
  | nil =>
    simp only [Stacked] at h
    simp only [List.map_nil, List.sum_nil]
    omega
  | cons first rest ih =>
    simp only [Stacked] at h
    simp only [List.map_cons, List.sum_cons]
    rw [ih _ h.2.2]
    omega

/-- One pass of the loop of `visibilityChanged` adds one segment and keeps the segments
stacked, `y` being where the last one ends. -/
theorem layoutLoop_stacked (bar : MeterBar) (top : Int) (state : LayoutLoop) (n : Nat)
    (h : Stacked top state.segments state.y) :
    Stacked top (layoutLoop bar state n).segments (layoutLoop bar state n).y ∧
      (layoutLoop bar state n).segments.length = state.segments.length + 1 := by
  refine ⟨?_, by simp only [layoutLoop, List.length_append, List.length_singleton]⟩
  simp only [layoutLoop]
  exact stacked_append state.segments top state.y _ h rfl rfl

/-- The loop of `visibilityChanged`, run for any number of passes from any stacked
state. -/
theorem layoutLoop_fold (bar : MeterBar) (top : Int) (count : Nat) (state : LayoutLoop)
    (h : Stacked top state.segments state.y) :
    Stacked top ((List.range count).foldl (layoutLoop bar) state).segments
        ((List.range count).foldl (layoutLoop bar) state).y ∧
      ((List.range count).foldl (layoutLoop bar) state).segments.length =
        state.segments.length + count := by
  induction count with
  | zero => exact ⟨h, rfl⟩
  | succ k ih =>
    rw [List.range_succ, List.foldl_append, List.foldl_cons, List.foldl_nil]
    obtain ⟨h1, h2⟩ := layoutLoop_stacked bar top _ k ih.1
    exact ⟨h1, by rw [h2, ih.2, Nat.add_assoc]⟩

/-- The loop of `visibilityChanged`, run from its initial state. -/
theorem layoutLoop_run (bar : MeterBar) (level : Int) (count : Nat) :
    Stacked 0
        ((List.range count).foldl (layoutLoop bar)
          { y := 0, nKmeterLevel := level, segments := [] }).segments
        ((List.range count).foldl (layoutLoop bar)
          { y := 0, nKmeterLevel := level, segments := [] }).y ∧
      ((List.range count).foldl (layoutLoop bar)
        { y := 0, nKmeterLevel := level, segments := [] }).segments.length = count := by
  have h := layoutLoop_fold bar 0 count { y := 0, nKmeterLevel := level, segments := [] } rfl
  exact ⟨h.1, h.2.trans (Nat.zero_add _)⟩

/-- One pass of the loop of `visibilityChanged` on two bars that differ at most in
position, width, justification and segment height, the second with segment height 1:
the levels stay equal and `y` of the first stays the segment height times `y` of the
second. -/
theorem layoutLoop_scale (bar unit : MeterBar)
    (hExpanded : bar.isExpanded = unit.isExpanded)
    (hCrest : bar.nMeterCrestFactor = unit.nMeterCrestFactor)
    (hTop : bar.nLimitTopBars = unit.nLimitTopBars)
    (hGreen1 : bar.nLimitGreenBars_1 = unit.nLimitGreenBars_1)
    (hGreen2 : bar.nLimitGreenBars_2 = unit.nLimitGreenBars_2)
    (hBars : bar.nNumberOfBars = unit.nNumberOfBars)
    (hUnit : unit.nMainSegmentHeight = 1) (state state1 : LayoutLoop) (n : Nat)
    (hlevel : state.nKmeterLevel = state1.nKmeterLevel)
    (hy : state.y = bar.nMainSegmentHeight * state1.y) :
    (layoutLoop bar state n).nKmeterLevel = (layoutLoop unit state1 n).nKmeterLevel ∧
      (layoutLoop bar state n).y = bar.nMainSegmentHeight * (layoutLoop unit state1 n).y := by
  simp only [layoutLoop, hExpanded, hCrest, hTop, hGreen1, hGreen2, hBars, hUnit, hlevel, hy]
  refine ⟨trivial, ?_⟩
  split_ifs <;> ring

/-- The loop of `visibilityChanged` on two such bars, run for any number of passes. -/
theorem layoutLoop_fold_scale (bar unit : MeterBar)
    (hExpanded : bar.isExpanded = unit.isExpanded)
    (hCrest : bar.nMeterCrestFactor = unit.nMeterCrestFactor)
    (hTop : bar.nLimitTopBars = unit.nLimitTopBars)
    (hGreen1 : bar.nLimitGreenBars_1 = unit.nLimitGreenBars_1)
    (hGreen2 : bar.nLimitGreenBars_2 = unit.nLimitGreenBars_2)
    (hBars : bar.nNumberOfBars = unit.nNumberOfBars)
    (hUnit : unit.nMainSegmentHeight = 1) (count : Nat) (state state1 : LayoutLoop)
    (hlevel : state.nKmeterLevel = state1.nKmeterLevel)
    (hy : state.y = bar.nMainSegmentHeight * state1.y) :
    ((List.range count).foldl (layoutLoop bar) state).nKmeterLevel =
        ((List.range count).foldl (layoutLoop unit) state1).nKmeterLevel ∧
      ((List.range count).foldl (layoutLoop bar) state).y =
        bar.nMainSegmentHeight * ((List.range count).foldl (layoutLoop unit) state1).y := by
  induction count with
  | zero => exact ⟨hlevel, hy⟩
  | succ k ih =>
    rw [List.range_succ, List.foldl_append, List.foldl_cons, List.foldl_nil,
      List.foldl_append, List.foldl_cons, List.foldl_nil]
    exact layoutLoop_scale bar unit hExpanded hCrest hTop hGreen1 hGreen2 hBars hUnit _ _ k
      ih.1 ih.2

/-- Where the loop of `visibilityChanged` ends on a bar, given that it ends at 134 on a
bar with segment height 1 that differs at most in position, width and justification. -/
theorem layoutLoop_bottom (bar unit : MeterBar)
    (hExpanded : bar.isExpanded = unit.isExpanded)
    (hCrest : bar.nMeterCrestFactor = unit.nMeterCrestFactor)
    (hTop : bar.nLimitTopBars = unit.nLimitTopBars)
    (hGreen1 : bar.nLimitGreenBars_1 = unit.nLimitGreenBars_1)
    (hGreen2 : bar.nLimitGreenBars_2 = unit.nLimitGreenBars_2)
    (hBars : bar.nNumberOfBars = unit.nNumberOfBars)
    (hUnit : unit.nMainSegmentHeight = 1)
    (hEval : ((List.range unit.nNumberOfBars.toNat).foldl (layoutLoop unit)
      { y := 0, nKmeterLevel := unit.nMeterCrestFactor, segments := [] }).y = 134) :
    ((List.range bar.nNumberOfBars.toNat).foldl (layoutLoop bar)
      { y := 0, nKmeterLevel := bar.nMeterCrestFactor, segments := [] }).y =
      134 * bar.nMainSegmentHeight := by
  have h := layoutLoop_fold_scale bar unit hExpanded hCrest hTop hGreen1 hGreen2 hBars hUnit
    bar.nNumberOfBars.toNat { y := 0, nKmeterLevel := bar.nMeterCrestFactor, segments := [] }
    { y := 0, nKmeterLevel := unit.nMeterCrestFactor, segments := [] } hCrest
    (by simp only [mul_zero])
  rw [h.2, hBars, hEval, mul_comm]

set_option maxRecDepth 8000 in
/-- The loop of `visibilityChanged` on a bar made by the constructor ends at
`134 * nSegmentHeight`. -/
theorem newMeterBar_bottom (posX posY Width nCrestFactor : Int) (bExpanded : Bool)
    (nSegmentHeight : Int) (justify : String) :
    ((List.range (newMeterBar posX posY Width nCrestFactor bExpanded nSegmentHeight
        justify).nNumberOfBars.toNat).foldl
      (layoutLoop (newMeterBar posX posY Width nCrestFactor bExpanded nSegmentHeight justify))
      { y := 0
        nKmeterLevel := (newMeterBar posX posY Width nCrestFactor bExpanded nSegmentHeight
          justify).nMeterCrestFactor
        segments := [] }).y = 134 * nSegmentHeight := by
  by_cases h0 : nCrestFactor = 0
  · subst h0
    cases bExpanded
    · exact layoutLoop_bottom _ (newMeterBar 0 0 0 0 false 1 "") rfl rfl rfl rfl rfl rfl rfl
        (by decide)
    · exact layoutLoop_bottom _ (newMeterBar 0 0 0 0 true 1 "") rfl rfl rfl rfl rfl rfl rfl
        (by decide)
  · by_cases h12 : nCrestFactor = 12
    · subst h12
      cases bExpanded
      · exact layoutLoop_bottom _ (newMeterBar 0 0 0 12 false 1 "") rfl rfl rfl rfl rfl rfl rfl
          (by decide)
      · exact layoutLoop_bottom _ (newMeterBar 0 0 0 12 true 1 "") rfl rfl rfl rfl rfl rfl rfl
          (by decide)
    · by_cases h14 : nCrestFactor = 14
      · subst h14
        cases bExpanded
        · exact layoutLoop_bottom _ (newMeterBar 0 0 0 14 false 1 "") rfl rfl rfl rfl rfl rfl
            rfl (by decide)
        · exact layoutLoop_bottom _ (newMeterBar 0 0 0 14 true 1 "") rfl rfl rfl rfl rfl rfl
            rfl (by decide)
      · have hfields : ∀ expanded : Bool,
            (newMeterBar posX posY Width nCrestFactor expanded nSegmentHeight
                justify).isExpanded = (newMeterBar 0 0 0 20 expanded 1 "").isExpanded ∧
              (newMeterBar posX posY Width nCrestFactor expanded nSegmentHeight
                justify).nMeterCrestFactor =
                (newMeterBar 0 0 0 20 expanded 1 "").nMeterCrestFactor ∧
              (newMeterBar posX posY Width nCrestFactor expanded nSegmentHeight
                justify).nLimitTopBars = (newMeterBar 0 0 0 20 expanded 1 "").nLimitTopBars ∧
              (newMeterBar posX posY Width nCrestFactor expanded nSegmentHeight
                justify).nLimitGreenBars_1 =
                (newMeterBar 0 0 0 20 expanded 1 "").nLimitGreenBars_1 ∧
              (newMeterBar posX posY Width nCrestFactor expanded nSegmentHeight
                justify).nLimitGreenBars_2 =
                (newMeterBar 0 0 0 20 expanded 1 "").nLimitGreenBars_2 ∧
              (newMeterBar posX posY Width nCrestFactor expanded nSegmentHeight
                justify).nNumberOfBars = (newMeterBar 0 0 0 20 expanded 1 "").nNumberOfBars := by
          intro expanded
          simp only [newMeterBar, if_neg h0, if_neg h12, if_neg h14]
          cases expanded <;> decide
        cases bExpanded
        · obtain ⟨h1, h2, h3, h4, h5, h6⟩ := hfields false
          exact layoutLoop_bottom _ (newMeterBar 0 0 0 20 false 1 "") h1 h2 h3 h4 h5 h6 rfl
            (by decide)
        · obtain ⟨h1, h2, h3, h4, h5, h6⟩ := hfields true
          exact layoutLoop_bottom _ (newMeterBar 0 0 0 20 true 1 "") h1 h2 h3 h4 h5 h6 rfl
            (by decide)

/-- Claim C28: for each crest factor (0, 12, 14, and any other value treated as 20),
both the normal and the expanded mode and every segment height, `visibilityChanged`
lays out `nNumberOfBars` segments, stacked from `y = 0`, each starting where the
`segment_height` of the one before ends; the segment heights sum to exactly
`134 * nMainSegmentHeight`, one less than the height given to the bar itself. -/
theorem visibilityChanged_heights (posX posY Width nCrestFactor : Int) (bExpanded : Bool)
    (nSegmentHeight : Int) (justify : String) :
    (((visibilityChanged (newMeterBar posX posY Width nCrestFactor bExpanded nSegmentHeight
        justify)).segments.length : Int) =
        (newMeterBar posX posY Width nCrestFactor bExpanded nSegmentHeight
          justify).nNumberOfBars) ∧
      Stacked 0
        (visibilityChanged (newMeterBar posX posY Width nCrestFactor bExpanded
          nSegmentHeight justify)).segments (134 * nSegmentHeight) ∧
      ((visibilityChanged (newMeterBar posX posY Width nCrestFactor bExpanded
          nSegmentHeight justify)).segments.map (fun s => s.segment_height)).sum =
        134 * nSegmentHeight ∧
      (visibilityChanged (newMeterBar posX posY Width nCrestFactor bExpanded
          nSegmentHeight justify)).bounds.height = 134 * nSegmentHeight + 1 := by
  have hrun := layoutLoop_run
    (newMeterBar posX posY Width nCrestFactor bExpanded nSegmentHeight justify)
    (newMeterBar posX posY Width nCrestFactor bExpanded nSegmentHeight
      justify).nMeterCrestFactor
    (newMeterBar posX posY Width nCrestFactor bExpanded nSegmentHeight
      justify).nNumberOfBars.toNat
  rw [newMeterBar_bottom] at hrun
  have hbars :=
    newMeterBar_bars posX posY Width nCrestFactor bExpanded nSegmentHeight justify
  refine ⟨?_, hrun.1, ?_, rfl⟩
  · simp only [visibilityChanged]
    rw [hrun.2]
    exact Int.toNat_of_nonneg (le_of_lt hbars)
  · have hsum := stacked_sum _ _ _ hrun.1
    simp only [sub_zero] at hsum
    exact hsum

/-! ## The width zone and the colour zone of a segment -/

/-- One pass of the constructor's loop and one pass of the loop of `visibilityChanged`
from the same level, on bars with the same mode and limits: the levels stay equal and
the width zone of the new segment is its colour. -/
theorem loops_zone (bar shown : MeterBar) (hExpanded : bar.isExpanded = shown.isExpanded)
    (hTop : bar.nLimitTopBars = shown.nLimitTopBars)
    (hRed : bar.nLimitRedBars = shown.nLimitRedBars)
    (hAmber : bar.nLimitAmberBars = shown.nLimitAmberBars)
    (hGreen1 : bar.nLimitGreenBars_1 = shown.nLimitGreenBars_1)
    (hGreen2 : bar.nLimitGreenBars_2 = shown.nLimitGreenBars_2)
    (made : SegmentLoop) (laid : LayoutLoop) (n : Nat)
    (hlevel : made.nKmeterLevel = laid.nKmeterLevel)
    (hzone : laid.segments.map (fun s => s.zone) = made.MeterArray.map (fun s => s.nColor)) :
    (segmentLoop bar made n).nKmeterLevel = (layoutLoop shown laid n).nKmeterLevel ∧
      (layoutLoop shown laid n).segments.map (fun s => s.zone) =
        (segmentLoop bar made n).MeterArray.map (fun s => s.nColor) := by
  simp only [segmentLoop, layoutLoop, hExpanded, hTop, hRed, hAmber, hGreen1, hGreen2, hlevel,
    hzone, List.map_append, List.map_cons, List.map_nil, true_and]
  split_ifs <;> rfl

/-- The two loops run for any number of passes from the same level. -/
theorem loops_fold_zone (bar shown : MeterBar)
    (hExpanded : bar.isExpanded = shown.isExpanded)
    (hTop : bar.nLimitTopBars = shown.nLimitTopBars)
    (hRed : bar.nLimitRedBars = shown.nLimitRedBars)
    (hAmber : bar.nLimitAmberBars = shown.nLimitAmberBars)
    (hGreen1 : bar.nLimitGreenBars_1 = shown.nLimitGreenBars_1)
    (hGreen2 : bar.nLimitGreenBars_2 = shown.nLimitGreenBars_2)
    (count : Nat) (made : SegmentLoop) (laid : LayoutLoop)
    (hlevel : made.nKmeterLevel = laid.nKmeterLevel)
    (hzone : laid.segments.map (fun s => s.zone) = made.MeterArray.map (fun s => s.nColor)) :
    ((List.range count).foldl (segmentLoop bar) made).nKmeterLevel =
        ((List.range count).foldl (layoutLoop shown) laid).nKmeterLevel ∧
      ((List.range count).foldl (layoutLoop shown) laid).segments.map (fun s => s.zone) =
        ((List.range count).foldl (segmentLoop bar) made).MeterArray.map
          (fun s => s.nColor) := by
  induction count with
  | zero => exact ⟨hlevel, hzone⟩
  | succ k ih =>
    rw [List.range_succ, List.foldl_append, List.foldl_cons, List.foldl_nil,
      List.foldl_append, List.foldl_cons, List.foldl_nil]
    exact loops_zone bar shown hExpanded hTop hRed hAmber hGreen1 hGreen2 _ _ k ih.1 ih.2

/-- The two loops run from their initial states at the same level. -/
theorem loops_run_zone (bar shown : MeterBar)
    (hExpanded : bar.isExpanded = shown.isExpanded)
    (hTop : bar.nLimitTopBars = shown.nLimitTopBars)
    (hRed : bar.nLimitRedBars = shown.nLimitRedBars)
    (hAmber : bar.nLimitAmberBars = shown.nLimitAmberBars)
    (hGreen1 : bar.nLimitGreenBars_1 = shown.nLimitGreenBars_1)
    (hGreen2 : bar.nLimitGreenBars_2 = shown.nLimitGreenBars_2)
    (count : Nat) (level : Int) :
    ((List.range count).foldl (layoutLoop shown)
        { y := 0, nKmeterLevel := level, segments := [] }).segments.map (fun s => s.zone) =
      ((List.range count).foldl (segmentLoop bar)
        { nThreshold := 0, nKmeterLevel := level, MeterArray := [] }).MeterArray.map
        (fun s => s.nColor) :=
  (loops_fold_zone bar shown hExpanded hTop hRed hAmber hGreen1 hGreen2 count
    { nThreshold := 0, nKmeterLevel := level, MeterArray := [] }
    { y := 0, nKmeterLevel := level, segments := [] } rfl rfl).2

/-- Where the constructor does not zoom (normal mode, or a crest factor of at most
8 dB), the width zone that `visibilityChanged` uses for a segment is the colour that the
constructor gave it. -/
theorem newMeterBar_zones (posX posY Width nCrestFactor : Int) (bExpanded : Bool)
    (nSegmentHeight : Int) (justify : String)
    (hzoom : ¬ (bExpanded = true ∧ (newMeterBar posX posY Width nCrestFactor bExpanded
      nSegmentHeight justify).nMeterCrestFactor > 80)) :
    (visibilityChanged (newMeterBar posX posY Width nCrestFactor bExpanded nSegmentHeight
        justify)).segments.map (fun s => s.zone) =
      (newMeterBar posX posY Width nCrestFactor bExpanded nSegmentHeight
        justify).MeterArray.map (fun s => s.nColor) := by
  by_cases h0 : nCrestFactor = 0
  · simp only [newMeterBar, if_pos h0] at hzoom
    simp only [newMeterBar, visibilityChanged, if_pos h0, if_neg hzoom, zero_add]
    refine loops_run_zone _ _ ?_ ?_ ?_ ?_ ?_ ?_ _ _ <;> rfl
  · by_cases h12 : nCrestFactor = 12
    · simp only [newMeterBar, if_neg h0, if_pos h12] at hzoom
      simp only [newMeterBar, visibilityChanged, if_neg h0, if_pos h12, if_neg hzoom, zero_add]
      refine loops_run_zone _ _ ?_ ?_ ?_ ?_ ?_ ?_ _ _ <;> rfl
    · by_cases h14 : nCrestFactor = 14
      · simp only [newMeterBar, if_neg h0, if_neg h12, if_pos h14] at hzoom
        simp only [newMeterBar, visibilityChanged, if_neg h0, if_neg h12, if_pos h14,
          if_neg hzoom, zero_add]
        refine loops_run_zone _ _ ?_ ?_ ?_ ?_ ?_ ?_ _ _ <;> rfl
      · simp only [newMeterBar, if_neg h0, if_neg h12, if_neg h14] at hzoom
        simp only [newMeterBar, visibilityChanged, if_neg h0, if_neg h12, if_neg h14,
          if_neg hzoom, zero_add]
        refine loops_run_zone _ _ ?_ ?_ ?_ ?_ ?_ ?_ _ _ <;> rfl

set_option maxRecDepth 8000 in
/-- Claim C29 on the code, at the expanded K-12 bar of width 100, justified left: the
constructor makes segment 40 amber (colour 1, the level 40 not being above the red
limit 40), but `visibilityChanged` puts it in the zone above the red limit and gives it
the full width 100 at `x = 0` instead of 85 at `x = 15`, because its level starts at
the crest factor 120 and not at the zoomed level 80; segment 39, the last red one,
does agree. -/
theorem visibilityChanged_zone_divergence :
    ((newMeterBar 0 0 100 12 true 1 "left").MeterArray.map (fun s => s.nColor))[40]? =
        some 1 ∧
      ((visibilityChanged (newMeterBar 0 0 100 12 true 1 "left")).segments.map
        (fun s => s.zone))[40]? = some 0 ∧
      ((visibilityChanged (newMeterBar 0 0 100 12 true 1 "left")).segments.map
        (fun s => s.bounds))[40]? = some { x := 0, y := 40, width := 100, height := 2 } ∧
      ((newMeterBar 0 0 100 12 true 1 "left").MeterArray.map (fun s => s.nColor))[39]? =
        some 0 ∧
      ((visibilityChanged (newMeterBar 0 0 100 12 true 1 "left")).segments.map
        (fun s => s.zone))[39]? = some 0 := by
  decide

/-! ## The phase correlation and the stereo balance in binary32 -/

/-- One more pass of the binary32 correlation loop. -/
theorem correlationSumsBinary32_succ (ring : RingBuffer Binary32) (count uPreDelay : Nat) :
    correlationSumsBinary32 ring (count + 1) uPreDelay =
      { sum_of_product := (correlationSumsBinary32 ring count uPreDelay).sum_of_product.add
          ((ring.getSample 0 count uPreDelay).mul (ring.getSample 1 count uPreDelay))
        sum_of_squares_left :=
          (correlationSumsBinary32 ring count uPreDelay).sum_of_squares_left.add
            ((ring.getSample 0 count uPreDelay).mul (ring.getSample 0 count uPreDelay))
        sum_of_squares_right :=
          (correlationSumsBinary32 ring count uPreDelay).sum_of_squares_right.add
            ((ring.getSample 1 count uPreDelay).mul (ring.getSample 1 count uPreDelay))
        reads := (correlationSumsBinary32 ring count uPreDelay).reads ++
          [(0, count, uPreDelay), (1, count, uPreDelay)] } := by
  unfold correlationSumsBinary32
  rw [List.range_succ, List.foldl_append, List.foldl_cons, List.foldl_nil]

set_option maxRecDepth 100000 in
/-- The three sums of the binary32 correlation loop on the click chunk, for every chunk
size from one sample on: the samples after the click are zero and leave the sums as
they are. -/
theorem correlationSumsBinary32_click (count uPreDelay : Nat) :
    (correlationSumsBinary32 clickRing (count + 1) uPreDelay).sum_of_product =
        { mantissa := -9663677, exponent := -30 } ∧
      (correlationSumsBinary32 clickRing (count + 1) uPreDelay).sum_of_squares_left =
        { mantissa := 12079596, exponent := -27 } ∧
      (correlationSumsBinary32 clickRing (count + 1) uPreDelay).sum_of_squares_right =
        { mantissa := 15461882, exponent := -34 } := by
  induction count with
  | zero =>
    rw [correlationSumsBinary32_succ]
    have hleft : clickRing.getSample 0 0 uPreDelay = Binary32.literal 3 10 := rfl
    have hright : clickRing.getSample 1 0 uPreDelay = (Binary32.literal 3 100).neg := rfl
    have hproduct :
        (correlationSumsBinary32 clickRing 0 uPreDelay).sum_of_product =
          Binary32.literal 0 1 := rfl
    have hsquaresLeft :
        (correlationSumsBinary32 clickRing 0 uPreDelay).sum_of_squares_left =
          Binary32.literal 0 1 := rfl
    have hsquaresRight :
        (correlationSumsBinary32 clickRing 0 uPreDelay).sum_of_squares_right =
          Binary32.literal 0 1 := rfl
    simp only [hleft, hright, hproduct, hsquaresLeft, hsquaresRight]
    exact ⟨by decide, by decide, by decide⟩
  | succ k ih =>
    rw [correlationSumsBinary32_succ]
    obtain ⟨h1, h2, h3⟩ := ih
    have hleft : clickRing.getSample 0 (k + 1) uPreDelay = Binary32.literal 0 1 := rfl
    have hright : clickRing.getSample 1 (k + 1) uPreDelay = Binary32.literal 0 1 := rfl
    simp only [h1, h2, h3, hleft, hright]
    exact ⟨by decide, by decide, by decide⟩

set_option maxRecDepth 100000 in
/-- The value of the binary32 phase correlation block on the click chunk of 1024
samples. -/
theorem phaseCorrelationBinary32_click :
    (phaseCorrelationBinary32 false (Binary32.literal 3 320) (Binary32.literal 3 3200)
      clickRing 1024 512).fPhaseCorrelation = { mantissa := -8388609, exponent := -23 } := by
  obtain ⟨h1, h2, h3⟩ := correlationSumsBinary32_click 1023 512
  simp only [phaseCorrelationBinary32, h1, h2, h3]
  decide

set_option maxRecDepth 100000 in
/-- The binary32 numbers of the click chunk: `0.3f`, `0.03f` and the two RMS levels
`0.009375f` and `0.0009375f`. -/
theorem click_literals :
    Binary32.literal 3 10 = { mantissa := 10066330, exponent := -25 } ∧
      Binary32.literal 3 100 = { mantissa := 16106127, exponent := -29 } ∧
      Binary32.literal 3 320 = { mantissa := 10066330, exponent := -30 } ∧
      Binary32.literal 3 3200 = { mantissa := 16106127, exponent := -34 } ∧
      Binary32.literal 1 10000 = { mantissa := 13743895, exponent := -37 } := by
  decide

/-- Claim C1 fails as stated on the binary32 arithmetic of the code. The chunk of 1024
samples is silent but for one click, left `0.3f = 10066330 / 2 ^ 25` and right
`-0.03f = -16106127 / 2 ^ 29` at index 0; Mono is off and the RMS levels of the chunk,
`0.009375f` and `0.0009375f`, are above `0.0001f`. The value of `fPhaseCorrelation`,
which `processBufferChunk` hands to `setPhaseCorrelation` as it is, is
`-8388609 / 8388608`, about `-1.00000012`, which is below `-1`. -/
theorem phaseCorrelation_binary32_counterexample :
    (clickRing.getSample 0 0 512).toRat = 10066330 / 2 ^ 25 ∧
      (clickRing.getSample 1 0 512).toRat = -(16106127 / 2 ^ 29) ∧
      (Binary32.literal 1 10000).toRat ≤ (clickRing.getRMSLevel 0 1024 512).toRat ∧
      (phaseCorrelationBinary32 false (clickRing.getRMSLevel 0 1024 512)
        (clickRing.getRMSLevel 1 1024 512) clickRing 1024
        512).fPhaseCorrelation.toRat = -(8388609 / 8388608) ∧
      ¬ (-1 ≤ (phaseCorrelationBinary32 false (clickRing.getRMSLevel 0 1024 512)
        (clickRing.getRMSLevel 1 1024 512) clickRing 1024 512).fPhaseCorrelation.toRat) := by
  have hleft : clickRing.getSample 0 0 512 = Binary32.literal 3 10 := rfl
  have hright : clickRing.getSample 1 0 512 = (Binary32.literal 3 100).neg := rfl
  have hrms0 : clickRing.getRMSLevel 0 1024 512 = Binary32.literal 3 320 := rfl
  have hrms1 : clickRing.getRMSLevel 1 1024 512 = Binary32.literal 3 3200 := rfl
  obtain ⟨h1, h2, h3, _, h5⟩ := click_literals
  rw [hleft, hright, hrms0, hrms1, phaseCorrelationBinary32_click, h1, h2, h3, h5]
  norm_num [Binary32.toRat, Binary32.neg]

set_option maxRecDepth 100000 in
/-- The binary32 stereo meter block at the levels `1e-8f` and `1.0f`, and at the levels
`0.25f` and `1e-9f`: the quotient of the levels is below half the distance from `1.0f`
to the binary32 number before it, so the difference is rounded to `1.0f`. -/
theorem stereoMeterBinary32_tiny :
    Binary32.literal 1 100000000 = { mantissa := 11258999, exponent := -50 } ∧
      Binary32.literal 1 1000000000 = { mantissa := 9007199, exponent := -53 } ∧
      Binary32.literal 1 4 = { mantissa := 8388608, exponent := -25 } ∧
      Binary32.literal 1 1 = { mantissa := 8388608, exponent := -23 } ∧
      (stereoMeterBinary32 (Binary32.literal 1 100000000)
        (Binary32.literal 1 1)).fStereoMeterValue = { mantissa := 8388608, exponent := -23 } ∧
      (stereoMeterBinary32 (Binary32.literal 1 4)
        (Binary32.literal 1 1000000000)).fStereoMeterValue =
        { mantissa := -8388608, exponent := -23 } := by
  decide

/-- Claim C8 fails as stated on the binary32 arithmetic of the code: the RMS levels
`1e-8f` and `1.0f` are strictly positive and the raw stereo balance
`1.0f - 1e-8f / 1.0f` is exactly `1`; the levels `0.25f` and `1e-9f` are strictly
positive and the balance `1e-9f / 0.25f - 1.0f` is exactly `-1`. -/
theorem stereoMeter_binary32_counterexample :
    0 < (Binary32.literal 1 100000000).toRat ∧ 0 < (Binary32.literal 1 1).toRat ∧
      (stereoMeterBinary32 (Binary32.literal 1 100000000)
        (Binary32.literal 1 1)).fStereoMeterValue.toRat = 1 ∧
      0 < (Binary32.literal 1 4).toRat ∧ 0 < (Binary32.literal 1 1000000000).toRat ∧
      (stereoMeterBinary32 (Binary32.literal 1 4)
        (Binary32.literal 1 1000000000)).fStereoMeterValue.toRat = -1 := by
  obtain ⟨h1, h2, h3, h4, h5, h6⟩ := stereoMeterBinary32_tiny
  rw [h5, h6, h1, h2, h3, h4]
  norm_num [Binary32.toRat]

end KMeter
